import Mathlib

/-!
# mruby-http2 server: path checking, percent decoding, header fix-up,
# request-body accumulation, the request-processing pipeline, the upstream
# proxy client, the configuration and the worker supervisor

A shallow embedding of parts of `src/mrb_http2_server.c` and
`src/mrb_http2_config.c`.  Bytes are natural numbers, a C buffer is a
`List Nat`, and a C string is a buffer read up to its first NUL byte.
-/

namespace MrubyHttp2

/-! ## Bytes and C strings -/

/-- The bytes of a string literal, without a terminating NUL. -/
def bytes (s : String) : List Nat := s.toList.map Char.toNat

/-- The content of the C string stored at the start of a buffer: the bytes
before the first NUL. -/
def cstr (buf : List Nat) : List Nat := buf.takeWhile (fun b => b != 0)

/-- C `strlen`: the number of bytes before the first NUL. -/
def strlen (buf : List Nat) : Nat := (cstr buf).length

/-- C `strchr` for a non-NUL byte `c`: offset of the first `c` before the
terminating NUL, `none` for a NULL result. -/
def strchr : List Nat → Nat → Option Nat
  | [], _ => none
  | b :: rest, c =>
    if b = c then some 0
    else if b = 0 then none
    else (strchr rest c).map (fun k => k + 1)

/-- Search for `needle` at every offset of a NUL-free content `hay`. -/
def strstrFrom (needle : List Nat) : List Nat → Option Nat
  | [] => if needle.isPrefixOf [] then some 0 else none
  | b :: rest =>
    if needle.isPrefixOf (b :: rest) then some 0
    else (strstrFrom needle rest).map (fun k => k + 1)

/-- C `strstr`: offset of the first occurrence of the string `needle` in the
C string held by `hay`, `none` for a NULL result. -/
def strstr (hay needle : List Nat) : Option Nat := strstrFrom needle (cstr hay)

/-- C `memcmp` over the first `n` bytes of two buffers; zero exactly when the
compared bytes agree, otherwise the difference of the first differing pair. -/
def memcmp : List Nat → List Nat → Nat → Int
  | _, _, 0 => 0
  | a :: as, b :: bs, n + 1 => if a = b then memcmp as bs n else (a : Int) - (b : Int)
  | [], [], _ + 1 => 0
  | [], _ :: _, _ + 1 => -1
  | _ :: _, [], _ + 1 => 1

/-! ## `check_path` (lines 1183-1191) -/

/-- The C function `check_path`: nonzero (here `true`) when the path is safe.
`path` is the NUL-terminated buffer. -/
def check_path (path : List Nat) : Bool :=
  let len := strlen path
  path.head? == some 47 && (strchr path 92).isNone &&
  (strstr path (bytes "/../")).isNone && (strstr path (bytes "/./")).isNone &&
  (decide (len < 3) || memcmp (path.drop (len - 3)) (bytes "/..") 3 != 0) &&
  (decide (len < 2) || memcmp (path.drop (len - 2)) (bytes "/.") 2 != 0)

/-- The conditions under which the specification calls a path rejected. -/
def path_rejected (P : List Nat) : Prop :=
  P.head? ≠ some 47 ∨ 92 ∈ P ∨ bytes "/../" <:+: P ∨ bytes "/./" <:+: P ∨
  bytes "/.." <:+ P ∨ bytes "/." <:+ P

/-! ## `hex_to_uint` and `percent_decode` (lines 333-378) -/

/-- C `isxdigit` in the "C" locale: `0-9`, `A-F`, `a-f`. -/
def isxdigit (c : Nat) : Bool :=
  (decide (48 ≤ c) && decide (c ≤ 57)) || (decide (65 ≤ c) && decide (c ≤ 70)) ||
  (decide (97 ≤ c) && decide (c ≤ 102))

/-- The C function `hex_to_uint`: value of a hex digit, 0 for any other byte. -/
def hex_to_uint (c : Nat) : Nat :=
  if 48 ≤ c ∧ c ≤ 57 then c - 48
  else if 65 ≤ c ∧ c ≤ 70 then c - 65 + 10
  else if 97 ≤ c ∧ c ≤ 102 then c - 97 + 10
  else 0

/-- The `for(i = 0, j = 0; i < valuelen - 2;)` loop of `percent_decode`.
`value` is the memory readable from the pointer `value`, `res` holds the `j`
bytes written so far, and the first argument bounds the number of iterations.
The result is the final `i` and `res`; `none` stands for a read outside
`value` or for an exhausted iteration bound. -/
def percent_decode_loop (value : List Nat) (valuelen : Nat) :
    Nat → Nat → List Nat → Option (Nat × List Nat)
  | 0, i, res => if i < valuelen - 2 then none else some (i, res)
  | fuel + 1, i, res =>
    if i < valuelen - 2 then
      match value[i]?, value[i + 1]?, value[i + 2]? with
      | some c0, some c1, some c2 =>
        if c0 ≠ 37 ∨ isxdigit c1 = false ∨ isxdigit c2 = false then
          percent_decode_loop value valuelen fuel (i + 1) (res ++ [c0])
        else
          percent_decode_loop value valuelen fuel (i + 3)
            (res ++ [((hex_to_uint c1 <<< 4) + hex_to_uint c2) % 256])
      | _, _, _ => none
    else some (i, res)

/-- The C function `percent_decode`.  `value` is the memory readable from the
argument pointer (it may extend past `valuelen`).  The result is the content of
the allocated buffer `res` up to and including the NUL the function writes;
`none` stands for a read outside `value`. -/
def percent_decode (value : List Nat) (valuelen : Nat) : Option (List Nat) :=
  if valuelen > 3 then
    match percent_decode_loop value valuelen valuelen 0 [] with
    | some (i, res) =>
      -- memcpy(&res[j], &value[i], 2); res[j + 2] = '\0';
      match value[i]?, value[i + 1]? with
      | some a, some b => some (res ++ [a, b] ++ [0])
      | _, _ => none
    | none => none
  else
    -- memcpy(res, value, valuelen); res[valuelen] = '\0';
    if valuelen ≤ value.length then some (value.take valuelen ++ [0]) else none

/-- One byte of a percent-encoding: the byte itself, or `%` and two hex digits
whose value is the byte. -/
inductive encodes_byte : Nat → List Nat → Prop
  | literal (b : Nat) : encodes_byte b [b]
  | escape (b h l : Nat) (hh : isxdigit h = true) (hl : isxdigit l = true)
      (hv : hex_to_uint h * 16 + hex_to_uint l = b) : encodes_byte b [37, h, l]

/-- Percent-encodings of a byte string: each byte written literally or as an
escape. -/
inductive percent_encoding : List Nat → List Nat → Prop
  | nil : percent_encoding [] []
  | cons (b : Nat) (s eb e : List Nat) (hb : encodes_byte b eb)
      (h : percent_encoding s e) : percent_encoding (b :: s) (eb ++ e)

/-! ## Header lists and `fixup_status_header` (lines 1193-1215) -/

/-- The name and value of a header field (`nghttp2_nv`; the lengths are the
lengths of the lists). -/
structure nghttp2_nv where
  name : List Nat
  value : List Nat
  deriving DecidableEq, Repr

/-- Modelled from the spec: `mrb_http2_get_nv_id` and its result
`MRB_HTTP2_HEADER_NOT_FOUND` are used by the server but defined outside the
given sources.  Linear lookup by name over the first `nvlen` entries: the index
of the first entry whose name is `key`, and `none` (not found) when no entry
has that name. -/
def mrb_http2_get_nv_id : List nghttp2_nv → List Nat → Option Nat
  | [], _ => none
  | nv :: rest, key =>
    if nv.name = key then some 0
    else (mrb_http2_get_nv_id rest key).map (fun k => k + 1)

/-- The upstream descriptor (`mrb_http2_upstream`, fields as set by
`mrb_http2_upstream_init` and the `upstream_*=` accessors). -/
structure mrb_http2_upstream where
  host : Option (List Nat)
  unparsed_host : Option (List Nat)
  port : Int
  uri : Option (List Nat)
  timeout : Int
  proto_major : Int
  proto_minor : Int
  keepalive : Bool
  deriving DecidableEq, Repr

/-- The processing phase tag stored in `r->phase`. -/
inductive phase_t
  | MRB_HTTP2_SERVER_INIT
  | MRB_HTTP2_SERVER_READ_REQUEST
  | MRB_HTTP2_SERVER_MAP_TO_STORAGE
  | MRB_HTTP2_SERVER_ACCESS_CHECKER
  | MRB_HTTP2_SERVER_CONTENT
  | MRB_HTTP2_SERVER_FIXUPS
  | MRB_HTTP2_SERVER_LOGGING
  deriving DecidableEq, Repr

/-- The request record `mrb_http2_request_rec`, with the fields the server
code reads and writes.  `reshdrs` holds the first `reshdrslen` entries of the
response header array, so `reshdrs.length` is `reshdrslen`; a write at index
`reshdrslen` followed by `reshdrslen += 1` appends.  Strings are kept as
their content, a NULL pointer as `none`. -/
structure request_rec where
  status : Nat
  status_line : List Nat
  date : List Nat
  last_modified : List Nat
  content_length : List Nat
  prev_req_time : Int
  prev_last_modified : Int
  filename : Option (List Nat)
  reqhdr : List nghttp2_nv
  reshdrs : List nghttp2_nv
  mruby : Bool
  shared_mruby : Bool
  upstream : Option mrb_http2_upstream
  phase : phase_t
  write_fd : Int
  write_size : Int
  authority : List Nat
  scheme : List Nat
  method : List Nat
  unparsed_uri : Option (List Nat)
  percent_encode_uri : Option (List Nat)
  uri : Option (List Nat)
  args : Option (List Nat)
  request_body : Option (List Nat)
  deriving DecidableEq, Repr

/-- The decimal digits printed by `%d`. -/
def decimal (i : Int) : List Nat :=
  match i with
  | Int.ofNat n => bytes (Nat.repr n)
  | Int.negSucc n => 45 :: bytes (Nat.repr (n + 1))

/-- The C function `set_status_record` (lines 517-521): `r->status` is an
`unsigned int`, and `snprintf(r->status_line, 4, "%d", r->status)` keeps at
most three characters of the signed decimal rendering. -/
def set_status_record (r : request_rec) (status : Int) : request_rec :=
  let u : Nat := (status % 4294967296).toNat
  let shown : Int := if u < 2147483648 then (u : Int) else (u : Int) - 4294967296
  { r with status := u, status_line := (decimal shown).take 3 }

/-- Modelled from the spec: the macro `MRB_HTTP2_CREATE_NV_CS` (like `MAKE_NV`
and `MAKE_NV_CS`) is defined outside the given sources.  It fills a header
entry with a literal name and the content of a C string as value. -/
def MRB_HTTP2_CREATE_NV_CS (name : String) (value : List Nat) : nghttp2_nv :=
  { name := bytes name, value := value }

/-- The C function `fixup_status_header`. -/
def fixup_status_header (r : request_rec) : request_rec :=
  let i := mrb_http2_get_nv_id r.reshdrs (bytes ":status")
  match r.reshdrs with
  | [] =>
    { r with reshdrs := r.reshdrs ++ [MRB_HTTP2_CREATE_NV_CS ":status" r.status_line] }
  | first :: _ =>
    match i with
    | none =>
      -- reshdrs[reshdrslen] = copy of reshdrs[0]; reshdrslen += 1; reshdrs[0] = :status
      { r with reshdrs :=
          (r.reshdrs ++ [first]).set 0 (MRB_HTTP2_CREATE_NV_CS ":status" r.status_line) }
    | some 0 => r
    | some (k + 1) =>
      -- reshdrs[reshdrslen] = copy of reshdrs[0]; reshdrslen += 1; reshdrs[0] = copy of reshdrs[i]
      let a := r.reshdrs ++ [first]
      { r with reshdrs := a.set 0 (a.getD (k + 1) first) }

/-! ## Streams, events and request-body accumulation (lines 42-65, 1531-1588) -/

/-- The accumulated request body (`mrb_http2_request_body`): `data` is the
content of the allocated block (`[]` for a NULL pointer), `len` an `int64_t`,
`pos` a `size_t`, `last` the one-bit truncation flag. -/
structure mrb_http2_request_body where
  data : List Nat
  len : Int
  pos : Nat
  last : Bool
  deriving DecidableEq, Repr

/-- Per-stream state (`http2_stream_data`).  `request_path`, `request_args`
and `unparsed_uri` hold the NUL-terminated buffers returned by
`percent_decode` (`none` for NULL); `upstream_req` tells whether the pointer
is non-NULL. -/
structure http2_stream_data where
  request_path : Option (List Nat)
  request_args : Option (List Nat)
  request_body : Option mrb_http2_request_body
  unparsed_uri : Option (List Nat)
  percent_encode_uri : Option (List Nat)
  method : List Nat
  scheme : List Nat
  authority : List Nat
  stream_id : Int
  fd : Int
  readleft : Int
  nva : List nghttp2_nv
  upstream_req : Bool
  deriving DecidableEq, Repr

/-- The five pipeline hooks, named by the `cbid` strings of the server. -/
inductive cb_id
  | map_to_storage_cb
  | access_checker_cb
  | fixups_cb
  | content_cb
  | logging_cb
  deriving DecidableEq, Repr

/-- The read callback registered with a submitted response. -/
inductive read_callback
  | file_read_callback
  | upstream_read_callback
  deriving DecidableEq, Repr

/-- The reply functions whose entry is recorded. -/
inductive reply_fn
  | read_upstream_response
  | upstream_reply
  | mruby_reply
  | content_cb_reply
  | mrb_http2_send_custom_response
  | mrb_http2_send_200_response
  deriving DecidableEq, Repr

/-- Externally visible actions of the server code, in the order they happen. -/
inductive Event
  /-- `mrb_yield_argv` on the block registered for a hook. -/
  | yield (cb : cb_id)
  /-- `mrb_http2_strcat(document_root, request_path)`. -/
  | strcat_filename (filename : List Nat)
  /-- Entry of `error_reply`, with `r->status` at that moment. -/
  | error_reply (status : Nat)
  /-- Entry of another reply function. -/
  | call (f : reply_fn)
  | pipe (rv : Int)
  | write (fd : Int) (data : List Nat)
  | close (fd : Int)
  | open (filename : Option (List Nat)) (fd : Int)
  | fopen (filename : Option (List Nat)) (ok : Bool)
  | fstat (fd : Int) (rv : Int)
  | mrb_run
  /-- `evhttp_make_request` on the upstream connection. -/
  | evhttp_make_request (post : Bool) (uri : List Nat) (rv : Int)
  | nghttp2_submit_response (stream_id : Int) (nva : List nghttp2_nv)
      (cb : read_callback) (rv : Int)
  | nghttp2_submit_rst_stream (stream_id : Int) (rv : Int)
  | mrb_http2_request_rec_free
  deriving DecidableEq, Repr

/-- The nghttp2 constant `NGHTTP2_ERR_CALLBACK_FAILURE`. -/
def NGHTTP2_ERR_CALLBACK_FAILURE : Int := -902

/-- The macro `MRB_HTTP2_MAX_POST_DATA_SIZE`, `1 << 24`. -/
def MRB_HTTP2_MAX_POST_DATA_SIZE : Int := ((1 <<< 24 : Nat) : Int)

/-- Conversion of a value to `int64_t`. -/
def to_int64 (x : Int) : Int := (x + 9223372036854775808) % 18446744073709551616 - 9223372036854775808

/-- Conversion of a value to `size_t` (64 bits). -/
def to_size_t (x : Int) : Nat := (x % 18446744073709551616).toNat

/-- C `realloc` to `n` bytes: the old content is kept up to `n`, new bytes
are uninitialised and shown as `junk`. -/
def realloc (junk : Nat) (data : List Nat) (n : Nat) : List Nat :=
  (data ++ List.replicate (n - data.length) junk).take n

/-- C `memcpy(dst + off, src, n)` into the block `dst`. -/
def memcpy_at (dst : List Nat) (off : Nat) (src : List Nat) (n : Nat) : List Nat :=
  dst.take off ++ src.take n ++ dst.drop (off + n)

/-- The body record a stream works on: the record it has, or the zeroed one
allocated when `request_body` is NULL. -/
def current_body (s : http2_stream_data) : mrb_http2_request_body :=
  match s.request_body with
  | none => { data := [], len := 0, pos := 0, last := false }
  | some b => b

/-- The C function `server_on_data_chunk_recv_callback` for a stream with user
data.  The chunk is `data` with `len = data.length`; `rst_rv` is what
`nghttp2_submit_rst_stream` answers if it is called, `junk` the content of
uninitialised memory.  Returns the new stream state, the events of this call
and the return value. -/
def server_on_data_chunk_recv_callback (junk : Nat) (rst_rv : Int)
    (stream_data : http2_stream_data) (data : List Nat) :
    http2_stream_data × List Event × Int :=
  let len : Nat := data.length
  -- if (stream_data->request_body == NULL) { malloc; memset 0 }
  let body : mrb_http2_request_body := current_body stream_data
  if body.last then
    let s := { stream_data with request_body := some body }
    let ev := [Event.nghttp2_submit_rst_stream stream_data.stream_id rst_rv]
    if rst_rv ≠ 0 then (s, ev, NGHTTP2_ERR_CALLBACK_FAILURE) else (s, ev, 0)
  else
    let body := { body with len := to_int64 (body.len + len) }
    if body.len ≥ MRB_HTTP2_MAX_POST_DATA_SIZE then
      let body := { body with len := MRB_HTTP2_MAX_POST_DATA_SIZE, last := true }
      let s := { stream_data with request_body := some body }
      let ev := [Event.nghttp2_submit_rst_stream stream_data.stream_id rst_rv]
      if rst_rv ≠ 0 then (s, ev, NGHTTP2_ERR_CALLBACK_FAILURE) else (s, ev, 0)
    else
      let d := realloc junk body.data (to_size_t (body.len + 1))
      let d := memcpy_at d body.pos data (to_size_t (body.len - body.pos))
      let body := { body with data := d, pos := body.pos + len }
      let body := { body with data := body.data.set (to_size_t body.len) 0 }
      ({ stream_data with request_body := some body }, [], 0)

/-- One delivery of a data chunk: the bytes, and the answer
`nghttp2_submit_rst_stream` gives if the callback calls it. -/
structure delivery where
  data : List Nat
  rst_rv : Int

/-- A sequence of data-chunk deliveries to one stream, in order: the final
stream state and all events. -/
def deliver_chunks (junk : Nat) :
    http2_stream_data → List delivery → http2_stream_data × List Event
  | s, [] => (s, [])
  | s, d :: rest =>
    let step := server_on_data_chunk_recv_callback junk d.rst_rv s d.data
    let tail := deliver_chunks junk step.1 rest
    (tail.1, step.2.1 ++ tail.2)

/-- Whether an event is a stream reset submission. -/
def Event.is_rst : Event → Bool
  | .nghttp2_submit_rst_stream _ _ => true
  | _ => false

/-- The stream record as `create_http2_stream_data` leaves it (lines 161-192). -/
def create_http2_stream_data (stream_id : Int) : http2_stream_data :=
  { request_path := none, request_args := none, request_body := none,
    unparsed_uri := none, percent_encode_uri := none, method := [], scheme := [],
    authority := [], stream_id := stream_id, fd := -1, readleft := 0, nva := [],
    upstream_req := false }

/-- The bytes of a sequence of deliveries, concatenated in delivery order. -/
def concat_chunks : List delivery → List Nat
  | [] => []
  | d :: rest => d.data ++ concat_chunks rest

/-- The body record of the stream holds the bytes `d`, untruncated: recorded
length and write position are `d.length` and the block starts with `d`. -/
def body_holds (s : http2_stream_data) (d : List Nat) : Prop :=
  (current_body s).last = false ∧ (current_body s).len = (d.length : Int) ∧
  (current_body s).pos = d.length ∧ (current_body s).data.take d.length = d

/-- The reset submissions of a list of deliveries to stream `id`, one each. -/
def rst_events (id : Int) (ds : List delivery) : List Event :=
  ds.map (fun d => Event.nghttp2_submit_rst_stream id d.rst_rv)

/-! ## The request-processing pipeline (lines 108-130, 410-1036, 1217-1499)

Debug output (`config->debug`) and `TRACER` have no effect on the state and
are left out. -/

/-- The configuration (`mrb_http2_config_t`): first the fields the pipeline
reads, then the other fields set by `mrb_http2_s_config_init`, which start
with the values of `config_defualt_value`.  A flag is `true` for
`MRB_HTTP2_CONFIG_ENABLED`, a NULL string is `none`.  The callback table
`cb_list` changes while the pipeline runs and is kept in the `World`. -/
structure mrb_http2_config_t where
  callback : Bool
  upstream : Bool
  document_root : List Nat
  server_name : List Nat
  daemon : Bool := false
  debug : Bool := false
  tls : Bool := true
  connection_record : Bool := true
  tcp_nopush : Bool := false
  server_status : Bool := false
  server_host : List Nat := bytes "0.0.0.0"
  run_user : Option (List Nat) := none
  dh_params_file : Option (List Nat) := none
  rlimit_nofile : Int := 0
  write_packet_buffer_expand_size : Int := 0
  write_packet_buffer_limit_size : Int := 0
  service : Option (List Nat) := none
  worker : Nat := 0
  key : Option (List Nat) := none
  cert : Option (List Nat) := none

/-- What a Ruby block or script reaches through the methods of the server
object: the request record, the callback table with the blocks stored in the
instance variables of the object (`true` for a non-nil block), the bytes
written to the response pipe through `r->write_fd`, and its own state. -/
structure hook_view where
  r : request_rec
  cb_list : cb_id → Bool
  ivar : cb_id → Bool
  pipe : List Nat
  ruby : Nat

/-- A header of the upstream response (`struct evkeyval`). -/
structure evkeyval where
  key : List Nat
  value : List Nat
  deriving DecidableEq, Repr

/-- The fields of the upstream response read by `http_request_done`. -/
structure evhttp_request where
  response_code : Int
  input_headers : List evkeyval
  body_size : Int
  deriving DecidableEq, Repr

/-- The answers of the external collaborators during one run of the pipeline:
the clock, the Ruby blocks and the embedded script, helpers of this repository
defined outside the given sources (`set_http_date_str`,
`mrb_http2_request_rec_free`, `mrb_http2_error_message`, `mrb_http2_strrep`),
the system calls, nghttp2 and the upstream connection. -/
structure Env where
  now : Int
  set_http_date_str : Int → List Nat
  block : cb_id → hook_view → hook_view
  script : hook_view → hook_view × Bool
  mrb_http2_request_rec_free : request_rec → request_rec
  mrb_http2_error_message : Nat → List Nat
  mrb_http2_strrep : List Nat → List Nat → List Nat → List Nat
  pipe_rv : Int
  pipefd : Int × Int
  open_fd : Option (List Nat) → Int
  fstat : Int → Option (Int × Int)
  fopen_ok : Option (List Nat) → Bool
  submit_response_rv : Int
  submit_rst_stream_rv : Int
  upstream_conn_ok : Bool
  evhttp_request_new_ok : Bool
  evhttp_make_request_rv : Int
  upstream_response : Option evhttp_request

/-- The state the pipeline works on: the request record, the stream, the
callback table and blocks, the response pipe, the upstream handles of the
session, and the events so far.  `fault` is set when `http_request_done`
writes outside the block `buf` it allocates for a rewritten `Location` value
(line 664): from that write on the C program has no defined behaviour, and
what the other fields and later events say is not backed by it. -/
structure World where
  r : request_rec
  stream : http2_stream_data
  cb_list : cb_id → Bool
  ivar : cb_id → Bool
  pipe : List Nat
  ruby : Nat
  upstream_base : Bool
  upstream_conn : Bool
  trace : List Event
  fault : Bool := false

/-- Record an event. -/
def World.emit (w : World) (e : Event) : World := { w with trace := w.trace ++ [e] }

/-- Replace the request record. -/
def World.set_r (w : World) (r : request_rec) : World := { w with r := r }

/-- Replace the stream record. -/
def World.set_stream (w : World) (s : http2_stream_data) : World := { w with stream := s }

/-- Set `r->phase`. -/
def World.set_phase (w : World) (p : phase_t) : World := w.set_r { w.r with phase := p }

/-- Replace the content of the response pipe. -/
def World.set_pipe (w : World) (p : List Nat) : World := { w with pipe := p }

/-- What a block or script sees of the world. -/
def World.view (w : World) : hook_view := ⟨w.r, w.cb_list, w.ivar, w.pipe, w.ruby⟩

/-- Take over what a block or script left. -/
def World.set_view (w : World) (v : hook_view) : World :=
  { w with r := v.r, cb_list := v.cb_list, ivar := v.ivar, pipe := v.pipe, ruby := v.ruby }

/-- Clear the registration of the content hook:
`mrb_iv_set(mrb, self, s, mrb_nil_value()); list->content_cb = NULL;`. -/
def World.clear_content_cb (w : World) : World :=
  { w with ivar := Function.update w.ivar cb_id.content_cb false,
           cb_list := Function.update w.cb_list cb_id.content_cb false }

/-- Set the upstream handles of the session. -/
def World.set_upstream_handles (w : World) (base conn : Bool) : World :=
  { w with upstream_base := base, upstream_conn := conn }

/-- A write at `r->reshdrs[r->reshdrslen]` followed by `r->reshdrslen += 1`. -/
def push_reshdr (r : request_rec) (nv : nghttp2_nv) : request_rec :=
  { r with reshdrs := r.reshdrs ++ [nv] }

/-- The statement `if (r->reshdrslen > 0) { mrb_http2_free_nva(...); r->reshdrslen = 0; }`. -/
def free_reshdrs (r : request_rec) : request_rec :=
  if r.reshdrs.length > 0 then { r with reshdrs := [] } else r

/-- The C function `callback_ruby_block`.  `cbid` names the `cb_list` entry the
caller passes; the entry is NULL when the hook was never set. -/
def callback_ruby_block (env : Env) (w : World) (flag : Bool) (cbid : cb_id) : World :=
  if flag = false ∨ w.cb_list cbid = false then w
  else if w.ivar cbid = true then
    let w1 := w.emit (Event.yield cbid)
    let w2 := w1.set_view (env.block cbid w1.view)
    if cbid = cb_id.content_cb then w2.clear_content_cb else w2
  else w

/-- The common body of `send_response` and `send_upstream_response`, which
differ only in the read callback they register. -/
def send_response_with (rcb : read_callback) (env : Env) (cfg : mrb_http2_config_t)
    (w : World) (nva : List nghttp2_nv) : World × Int :=
  let rv := env.submit_response_rv
  let w1 := w.emit (Event.nghttp2_submit_response w.stream.stream_id nva rcb rv)
  if rv ≠ 0 then
    ((w1.set_r (env.mrb_http2_request_rec_free w1.r)).emit Event.mrb_http2_request_rec_free, -1)
  else
    let w2 :=
      if cfg.callback = true then
        callback_ruby_block env (w1.set_phase phase_t.MRB_HTTP2_SERVER_LOGGING) cfg.callback
          cb_id.logging_cb
      else w1
    ((w2.set_r (env.mrb_http2_request_rec_free w2.r)).emit Event.mrb_http2_request_rec_free, 0)

/-- The C function `send_response` (lines 477-515). -/
def send_response (env : Env) (cfg : mrb_http2_config_t) (w : World)
    (nva : List nghttp2_nv) : World × Int :=
  send_response_with read_callback.file_read_callback env cfg w nva

/-- The C function `send_upstream_response` (lines 410-450). -/
def send_upstream_response (env : Env) (cfg : mrb_http2_config_t) (w : World)
    (nva : List nghttp2_nv) : World × Int :=
  send_response_with read_callback.upstream_read_callback env cfg w nva

/-- The fixups phase: `if (config->callback) { r->phase = FIXUPS; callback_ruby_block(fixups_cb) }`. -/
def run_fixups (env : Env) (cfg : mrb_http2_config_t) (w : World) : World :=
  if cfg.callback = true then
    callback_ruby_block env (w.set_phase phase_t.MRB_HTTP2_SERVER_FIXUPS) cfg.callback
      cb_id.fixups_cb
  else w

/-- The failure branch of `pipe(pipefd)` shared by the reply functions:
`nghttp2_submit_rst_stream`, then `-1` if that fails and `0` otherwise. -/
def pipe_failed (env : Env) (w : World) : World × Int :=
  let rv := env.submit_rst_stream_rv
  let w1 := w.emit (Event.nghttp2_submit_rst_stream w.stream.stream_id rv)
  if rv ≠ 0 then (w1, -1) else (w1, 0)

/-- The C function `error_reply` (lines 523-595). -/
def error_reply (env : Env) (cfg : mrb_http2_config_t) (w : World) : World × Int :=
  let w := w.emit (Event.error_reply w.r.status)
  let r := fixup_status_header w.r
  let r := push_reshdr r (MRB_HTTP2_CREATE_NV_CS "date" r.date)
  let r := push_reshdr r (MRB_HTTP2_CREATE_NV_CS "server" cfg.server_name)
  let r := push_reshdr r (MRB_HTTP2_CREATE_NV_CS "content-type" (bytes "text/html; charset=utf-8"))
  let w := w.set_r r
  let w := w.emit (Event.pipe env.pipe_rv)
  if env.pipe_rv ≠ 0 then pipe_failed env w
  else
    let msg := env.mrb_http2_error_message w.r.status
    let size : Int := msg.length
    let w := (w.set_pipe msg).emit (Event.write env.pipefd.2 msg)
    let w := w.emit (Event.close env.pipefd.2)
    let w := w.set_stream { w.stream with fd := env.pipefd.1, readleft := size }
    let r := { w.r with content_length := decimal size }
    let r := push_reshdr r (MRB_HTTP2_CREATE_NV_CS "content-length" r.content_length)
    let w := run_fixups env cfg (w.set_r r)
    let res := send_response env cfg w w.r.reshdrs
    if res.2 ≠ 0 then
      let w := res.1.emit (Event.close env.pipefd.1)
      (w.set_r (free_reshdrs w.r), -1)
    else
      (res.1.set_r (free_reshdrs res.1.r), 0)

/-- The string the two substitutions of lines 666 and 670-672 make of a
`Location` value: the upstream `host:port` is replaced by the request
authority, and `http` by the front scheme when that scheme has five characters
and the value does not start with it.  Whether the block `buf` holds this
string is told by `rewrite_location`. -/
def location_substitutions (env : Env) (r : request_rec) (unparsed_host value : List Nat) :
    List Nat :=
  let buf := env.mrb_http2_strrep value unparsed_host r.authority
  if r.scheme.length = 5 ∧ memcmp (buf ++ [0]) (r.scheme ++ [0]) r.scheme.length ≠ 0 then
    env.mrb_http2_strrep buf (bytes "http") r.scheme
  else buf

/-- The size of the block `buf` (line 664):
`strlen(header->value) - strlen(r->upstream->unparsed_host) +
strlen(r->authority) + 1`, computed in `size_t`. -/
def location_buf_size (r : request_rec) (unparsed_host value : List Nat) : Nat :=
  to_size_t ((value.length : Int) - (unparsed_host.length : Int) + (r.authority.length : Int) + 1)

/-- The indices of `buf` written by
`memcpy(buf, header->value, strlen(header->value) + 1)` (line 665). -/
def location_copy_writes (value : List Nat) : List Nat := List.range (value.length + 1)

/-- The indices of `buf` that hold the rewritten value and its terminating NUL
after the substitutions of lines 666-672. -/
def location_result_writes (env : Env) (r : request_rec) (unparsed_host value : List Nat) :
    List Nat :=
  List.range ((location_substitutions env r unparsed_host value).length + 1)

/-- Every index of `buf` the rewriting of a `Location` value uses lies inside
the allocated block. -/
def location_in_bounds (env : Env) (r : request_rec) (unparsed_host value : List Nat) : Bool :=
  (location_copy_writes value ++ location_result_writes env r unparsed_host value).all
    (fun i => decide (i < location_buf_size r unparsed_host value))

/-- The rewriting of a `Location` value in `http_request_done` (lines 662-672)
inside the block `buf` of `location_buf_size` bytes: the copy of the value and
its NUL (line 665), the substitution of the upstream `host:port` by the request
authority (line 666), and the substitution of `http` by the front scheme when
that scheme has five characters and `buf` does not start with it (lines
670-672).  The result is the string `buf` holds at line 674; `none` stands for
a write outside the block, which a string and its NUL make when they need more
bytes than the block has. -/
def rewrite_location (env : Env) (r : request_rec) (unparsed_host value : List Nat) :
    Option (List Nat) :=
  let size := location_buf_size r unparsed_host value
  if value.length + 1 ≤ size then
    let buf := env.mrb_http2_strrep value unparsed_host r.authority
    if buf.length + 1 ≤ size then
      if r.scheme.length = 5 ∧ memcmp (buf ++ [0]) (r.scheme ++ [0]) r.scheme.length ≠ 0 then
        let buf2 := env.mrb_http2_strrep buf (bytes "http") r.scheme
        if buf2.length + 1 ≤ size then some buf2 else none
      else some buf
    else none
  else none

/-- Whether a header key is exactly the given literal:
`strlen(key) == sizeof(lit) - 1 && memcmp(lit, key, sizeof(lit) - 1) == 0`. -/
def key_is (lit : String) (key : List Nat) : Bool :=
  decide (key.length = (bytes lit).length) &&
  decide (memcmp (bytes lit) (key ++ [0]) (bytes lit).length = 0)

/-- One iteration of the header loop of `http_request_done` (lines 644-682):
the record after the iteration and the new value of `find_via`; `none` when
the rewriting of a `Location` value writes outside its block. -/
def translate_upstream_header (env : Env) (cfg : mrb_http2_config_t)
    (unparsed_host : List Nat) (acc : request_rec × Bool) (h : evkeyval) :
    Option (request_rec × Bool) :=
  if memcmp (bytes "Via") (h.key ++ [0]) 3 = 0 then
    some (push_reshdr acc.1 ⟨h.key, cfg.server_name⟩, true)
  else if key_is "Connection" h.key then some acc
  else if key_is "Transfer-Encoding" h.key then some acc
  else if key_is "Keep-Alive" h.key then some acc
  else if key_is "Proxy-Connection" h.key then some acc
  else if key_is "Upgrade" h.key then some acc
  else if key_is "Location" h.key then
    match rewrite_location env acc.1 unparsed_host h.value with
    | some buf => some (push_reshdr acc.1 ⟨h.key, buf⟩, acc.2)
    | none => none
  else
    some (push_reshdr acc.1 ⟨h.key, h.value⟩, acc.2)

/-- The header loop `TAILQ_FOREACH(header, input_headers, next)` of
`http_request_done` (lines 644-682); `none` when an iteration writes outside
the block of a `Location` value. -/
def translate_upstream_headers (env : Env) (cfg : mrb_http2_config_t)
    (unparsed_host : List Nat) : List evkeyval → request_rec × Bool → Option (request_rec × Bool)
  | [], acc => some acc
  | h :: rest, acc =>
    match translate_upstream_header env cfg unparsed_host acc h with
    | some acc1 => translate_upstream_headers env cfg unparsed_host rest acc1
    | none => none

/-- The C function `http_request_done` (lines 622-695), called by libevent
with the upstream response, or with NULL when the request failed.  When the
header loop writes outside the block of a `Location` value the world is marked
with `fault` and keeps the record it had before the loop. -/
def http_request_done (env : Env) (cfg : mrb_http2_config_t) (w : World)
    (unparsed_host : List Nat) (req : Option evhttp_request) : World :=
  match req with
  | none => w.set_stream { w.stream with upstream_req := false }
  | some req =>
    let r := set_status_record w.r req.response_code
    let r := fixup_status_header r
    match translate_upstream_headers env cfg unparsed_host req.input_headers (r, false) with
    | none => { (w.set_r r) with fault := true }
    | some res =>
      let r := if res.2 = false then
          push_reshdr res.1 (MRB_HTTP2_CREATE_NV_CS "via" cfg.server_name)
        else res.1
      let r := { r with content_length := decimal req.body_size }
      (w.set_r r).set_stream { w.stream with readleft := req.body_size, upstream_req := true }

/-- The C function `read_upstream_response` (lines 697-830), called with the
upstream descriptor `r->upstream` and its host, both non-NULL at the call.  The
headers and body handed to libevent for the upstream request are not recorded
in the world; `make_upstream_request` gives them. -/
def read_upstream_response (env : Env) (cfg : mrb_http2_config_t) (w : World)
    (up : mrb_http2_upstream) (host : List Nat) : World × Int :=
  let w := w.emit (Event.call reply_fn.read_upstream_response)
  let w := w.set_upstream_handles true
    (if w.upstream_conn = false then env.upstream_conn_ok else w.upstream_conn)
  if w.upstream_conn = false then (w, -1)
  else if env.evhttp_request_new_ok = false then (w, -1)
  else
    let unparsed := (host ++ bytes ":" ++ decimal up.port).take (host.length + 6)
    let post : Bool := decide (memcmp (w.r.method ++ [0]) (bytes "POST") 4 = 0)
    let uri := match up.uri with
      | none => bytes "/"
      | some u => u
    let up := { up with unparsed_host := some unparsed, uri := some uri }
    let w := w.set_r { w.r with upstream := some up }
    let w := w.emit (Event.evhttp_make_request post uri env.evhttp_make_request_rv)
    if env.evhttp_make_request_rv = -1 then (w, -1)
    else
      let w := http_request_done env cfg w unparsed env.upstream_response
      if w.stream.upstream_req = false then (w, -1) else (w, 0)

/-- The C function `upstream_reply` (lines 597-620). -/
def upstream_reply (env : Env) (cfg : mrb_http2_config_t) (w : World) : World × Int :=
  let w := w.emit (Event.call reply_fn.upstream_reply)
  let w := run_fixups env cfg w
  let res := send_upstream_response env cfg w w.r.reshdrs
  if res.2 ≠ 0 then
    (res.1.emit (Event.close res.1.stream.fd), NGHTTP2_ERR_CALLBACK_FAILURE)
  else (res.1, 0)

/-- The part shared by `content_cb_reply` (lines 874-915) and `mruby_reply`
(lines 995-1036) after the headers are created: the response size and error
body, the pipe ends, `content-length`, the fixups hook and `send_response`.
When `send_response` fails, `content_cb_reply` closes the read end before it
frees the headers and `mruby_reply` after; the resulting state is the same. -/
def finish_pipe_reply (env : Env) (cfg : mrb_http2_config_t) (w : World) : World × Int :=
  let size_w : Int × World :=
    if w.r.status ≥ 200 ∧ w.r.status < 300 then (w.r.write_size, w)
    else
      let msg := env.mrb_http2_error_message w.r.status
      ((msg.length : Int), (w.set_pipe (w.pipe ++ msg)).emit (Event.write env.pipefd.2 msg))
  let size := size_w.1
  let w := size_w.2.emit (Event.close env.pipefd.2)
  let w := w.set_stream { w.stream with fd := env.pipefd.1, readleft := size }
  let r := { w.r with content_length := decimal size }
  let r := push_reshdr r (MRB_HTTP2_CREATE_NV_CS "content-length" r.content_length)
  let w := run_fixups env cfg (w.set_r r)
  let res := send_response env cfg w w.r.reshdrs
  if res.2 ≠ 0 then
    let w := res.1.emit (Event.close env.pipefd.1)
    (w.set_r (free_reshdrs w.r), -1)
  else
    (res.1.set_r (free_reshdrs res.1.r), 0)

/-- The C function `content_cb_reply` (lines 832-915). -/
def content_cb_reply (env : Env) (cfg : mrb_http2_config_t) (w : World) : World × Int :=
  let w := w.emit (Event.call reply_fn.content_cb_reply)
  let w := w.emit (Event.pipe env.pipe_rv)
  if env.pipe_rv ≠ 0 then pipe_failed env w
  else
    let w := w.set_pipe []
    let w := w.set_r { w.r with write_fd := env.pipefd.2 }
    let w :=
      if cfg.callback = true then
        callback_ruby_block env (w.set_phase phase_t.MRB_HTTP2_SERVER_CONTENT) cfg.callback
          cb_id.content_cb
      else w
    let r := fixup_status_header w.r
    let r := push_reshdr r (MRB_HTTP2_CREATE_NV_CS "server" cfg.server_name)
    let r := push_reshdr r (MRB_HTTP2_CREATE_NV_CS "date" r.date)
    finish_pipe_reply env cfg (w.set_r r)

/-- The C function `mruby_reply` (lines 917-1036).  Running the script is the
external step `env.script`, which also tells whether an exception is left in
`mrb_inner->exc`. -/
def mruby_reply (env : Env) (cfg : mrb_http2_config_t) (w : World) : World × Int :=
  let w := w.emit (Event.call reply_fn.mruby_reply)
  let w := w.emit (Event.fopen w.r.filename (env.fopen_ok w.r.filename))
  if env.fopen_ok w.r.filename = false then (w, -1)
  else
    let w := w.emit (Event.pipe env.pipe_rv)
    if env.pipe_rv ≠ 0 then pipe_failed env w
    else
      let w := w.set_pipe []
      let w := w.set_r { w.r with write_fd := env.pipefd.2 }
      let w := w.emit Event.mrb_run
      let out := env.script w.view
      let w := w.set_view out.1
      let r := if out.2 = true then set_status_record w.r 503 else set_status_record w.r 200
      let r := fixup_status_header r
      let r := push_reshdr r (MRB_HTTP2_CREATE_NV_CS "server" cfg.server_name)
      let r := push_reshdr r (MRB_HTTP2_CREATE_NV_CS "date" r.date)
      let r := push_reshdr r (MRB_HTTP2_CREATE_NV_CS "last-modified" r.last_modified)
      finish_pipe_reply env cfg (w.set_r r)

/-- The C function `mrb_http2_send_custom_response` (lines 1217-1253). -/
def mrb_http2_send_custom_response (env : Env) (cfg : mrb_http2_config_t) (w : World) :
    World × Int :=
  let w := w.emit (Event.call reply_fn.mrb_http2_send_custom_response)
  let r := if w.r.status = 0 then set_status_record w.r 200 else w.r
  let r := fixup_status_header r
  let r := push_reshdr r (MRB_HTTP2_CREATE_NV_CS "server" cfg.server_name)
  let r := push_reshdr r (MRB_HTTP2_CREATE_NV_CS "date" r.date)
  let r := push_reshdr r (MRB_HTTP2_CREATE_NV_CS "content-length" r.content_length)
  let r := push_reshdr r (MRB_HTTP2_CREATE_NV_CS "last-modified" r.last_modified)
  let w := run_fixups env cfg (w.set_r r)
  let res := send_response env cfg w w.r.reshdrs
  if res.2 ≠ 0 then
    (res.1.emit (Event.close res.1.stream.fd), NGHTTP2_ERR_CALLBACK_FAILURE)
  else (res.1, 0)

/-- The C function `mrb_http2_send_200_response` (lines 1255-1292). -/
def mrb_http2_send_200_response (env : Env) (cfg : mrb_http2_config_t) (w : World) :
    World × Int :=
  let w := w.emit (Event.call reply_fn.mrb_http2_send_200_response)
  let hdrs : List nghttp2_nv :=
    [ MRB_HTTP2_CREATE_NV_CS ":status" (bytes "200"),
      MRB_HTTP2_CREATE_NV_CS "server" cfg.server_name,
      MRB_HTTP2_CREATE_NV_CS "date" w.r.date,
      MRB_HTTP2_CREATE_NV_CS "content-length" w.r.content_length,
      MRB_HTTP2_CREATE_NV_CS "last-modified" w.r.last_modified ]
  let w := w.set_r { w.r with reshdrs := hdrs, status := 200 }
  let w := run_fixups env cfg w
  let res := send_response env cfg w w.r.reshdrs
  if res.2 ≠ 0 then
    let w := res.1.set_r { res.1.r with reshdrs := [] }
    (w.emit (Event.close w.stream.fd), NGHTTP2_ERR_CALLBACK_FAILURE)
  else (res.1.set_r { res.1.r with reshdrs := [] }, 0)

/-- Modelled from the spec: `mrb_http2_strcat` is defined outside the given
sources; the filesystem path is the document root concatenated with the
decoded path (both read as C strings). -/
def mrb_http2_strcat (s1 s2 : List Nat) : List Nat := cstr s1 ++ cstr s2

/-- The status codes used by the pipeline (`mrb_http2_request.h`). -/
def HTTP_OK : Nat := 200

/-- The status `HTTP_NOT_FOUND`. -/
def HTTP_NOT_FOUND : Nat := 404

/-- The status `HTTP_SERVICE_UNAVAILABLE`. -/
def HTTP_SERVICE_UNAVAILABLE : Nat := 503

/-- The pattern `if (error_reply(...) != 0) return NGHTTP2_ERR_CALLBACK_FAILURE; return 0;`. -/
def reply_result (res : World × Int) : World × Int :=
  if res.2 ≠ 0 then (res.1, NGHTTP2_ERR_CALLBACK_FAILURE) else (res.1, 0)

/-- `set_status_record(r, status)` followed by `error_reply`, as
`mrb_http2_process_request` does for a rejected request. -/
def reject_with (env : Env) (cfg : mrb_http2_config_t) (w : World) (status : Nat) :
    World × Int :=
  reply_result (error_reply env cfg (w.set_r (set_status_record w.r status)))

/-- The read-request part of `mrb_http2_process_request` (lines 1310-1323):
phase tag, cached date, request header table. -/
def read_request (env : Env) (cfg : mrb_http2_config_t) (w : World) : World :=
  let w := if cfg.callback = true then w.set_phase phase_t.MRB_HTTP2_SERVER_READ_REQUEST else w
  let w :=
    if env.now ≠ w.r.prev_req_time then
      w.set_r { w.r with prev_req_time := env.now, date := env.set_http_date_str env.now }
    else w
  w.set_r { w.r with reqhdr := w.stream.nva }

/-- The part of `mrb_http2_process_request` between path validation and the
status check (lines 1357-1412): the filesystem path is computed from the
document root and the request path `path` (a NUL-terminated buffer), the
request fields are copied from the stream, and the map-to-storage and
access-checker hooks run. -/
def storage_and_access (env : Env) (cfg : mrb_http2_config_t) (w : World)
    (path : List Nat) : World :=
  let filename := mrb_http2_strcat cfg.document_root path
  let w := w.emit (Event.strcat_filename filename)
  let w := w.set_r
    { w.r with
      filename := some filename, authority := w.stream.authority, scheme := w.stream.scheme,
      method := w.stream.method, unparsed_uri := w.stream.unparsed_uri,
      percent_encode_uri := w.stream.percent_encode_uri, uri := some path,
      args := w.stream.request_args,
      request_body :=
        match w.stream.request_body with
        | none => none
        | some b => if b.data = [] then none else some b.data }
  let w :=
    if cfg.callback = true then
      callback_ruby_block env (w.set_phase phase_t.MRB_HTTP2_SERVER_MAP_TO_STORAGE) cfg.callback
        cb_id.map_to_storage_cb
    else w
  if cfg.callback = true then
    callback_ruby_block env (w.set_phase phase_t.MRB_HTTP2_SERVER_ACCESS_CHECKER) cfg.callback
      cb_id.access_checker_cb
  else w

/-- The static-file part of `mrb_http2_process_request` (lines 1456-1498). -/
def static_file_reply (env : Env) (cfg : mrb_http2_config_t) (w : World) : World × Int :=
  let fd := env.open_fd w.r.filename
  let w := w.emit (Event.open w.r.filename fd)
  if fd = -1 then reject_with env cfg w HTTP_NOT_FOUND
  else
    let w := w.set_stream { w.stream with fd := fd }
    match env.fstat fd with
    | none => reject_with env cfg (w.emit (Event.fstat fd (-1))) HTTP_NOT_FOUND
    | some (st_size, st_mtime) =>
      let w := w.emit (Event.fstat fd 0)
      let w :=
        if st_mtime ≠ w.r.prev_last_modified then
          w.set_r { w.r with prev_last_modified := st_mtime,
                             last_modified := env.set_http_date_str st_mtime }
        else w
      let w := w.set_r { w.r with content_length := decimal st_size }
      let w := w.set_stream { w.stream with readleft := st_size }
      if w.r.reshdrs.length > 0 then mrb_http2_send_custom_response env cfg w
      else mrb_http2_send_200_response env cfg w

/-- The upstream host when proxying applies:
`config->upstream && r->upstream && r->upstream->host`. -/
def upstream_host (cfg : mrb_http2_config_t) (r : request_rec) :
    Option (mrb_http2_upstream × List Nat) :=
  if cfg.upstream = true then
    match r.upstream with
    | some up =>
      match up.host with
      | some host => some (up, host)
      | none => none
    | none => none
  else none

/-- The dispatch part of `mrb_http2_process_request` (lines 1422-1498). -/
def dispatch (env : Env) (cfg : mrb_http2_config_t) (w : World) : World × Int :=
  match upstream_host cfg w.r with
  | some (up, host) =>
    let res := read_upstream_response env cfg w up host
    if res.2 ≠ 0 then (res.1, NGHTTP2_ERR_CALLBACK_FAILURE)
    else
      let res := upstream_reply env cfg res.1
      if res.2 ≠ 0 then (res.1, NGHTTP2_ERR_CALLBACK_FAILURE) else (res.1, 0)
  | none =>
    if w.r.mruby = true ∨ w.r.shared_mruby = true then
      reply_result (mruby_reply env cfg (w.set_r (set_status_record w.r HTTP_OK)))
    else if cfg.callback = true ∧ w.cb_list cb_id.content_cb = true then
      reply_result (content_cb_reply env cfg (w.set_r (set_status_record w.r HTTP_OK)))
    else static_file_reply env cfg w

/-- The C function `mrb_http2_process_request` (lines 1294-1499). -/
def mrb_http2_process_request (env : Env) (cfg : mrb_http2_config_t) (w : World) :
    World × Int :=
  let w := read_request env cfg w
  match w.stream.request_path with
  | none => reject_with env cfg w HTTP_SERVICE_UNAVAILABLE
  | some path =>
    if check_path path = false then reject_with env cfg w HTTP_SERVICE_UNAVAILABLE
    else
      let w := storage_and_access env cfg w path
      -- check whether set status or not on access_checker callback
      if w.r.status ≠ 0 ∧ w.r.status ≠ HTTP_OK then reply_result (error_reply env cfg w)
      else dispatch env cfg w

/-- The events of one run of the pipeline. -/
def pipeline_events (env : Env) (cfg : mrb_http2_config_t) (w : World) : List Event :=
  (mrb_http2_process_request env cfg { w with trace := [] }).1.trace

/-- The four response strategies of the dispatch step. -/
inductive strategy
  | upstream_proxy
  | embedded_script
  | content_hook
  | static_file
  deriving DecidableEq, Repr

/-- The strategy an event starts, if any: entry of `read_upstream_response`,
of `mruby_reply`, of `content_cb_reply`, or the `open` of the static file. -/
def Event.starts : Event → Option strategy
  | Event.call reply_fn.read_upstream_response => some strategy.upstream_proxy
  | Event.call reply_fn.mruby_reply => some strategy.embedded_script
  | Event.call reply_fn.content_cb_reply => some strategy.content_hook
  | Event.open _ _ => some strategy.static_file
  | _ => none

/-- The strategies started by a list of events, in order. -/
def strategies_run (evs : List Event) : List strategy := evs.filterMap Event.starts

/-- Whether the request record has an upstream descriptor with a host. -/
def host_configured (r : request_rec) : Bool :=
  match r.upstream with
  | some up => up.host.isSome
  | none => false

/-- The strategy the specification selects: the first condition that holds, in
the order upstream proxy (proxying enabled and an upstream host configured),
embedded script (mruby or shared-mruby flag set), inline content hook
(callbacks enabled and a content hook registered), otherwise static file. -/
def selected_strategy (cfg : mrb_http2_config_t) (w : World) : strategy :=
  if cfg.upstream = true ∧ host_configured w.r = true then strategy.upstream_proxy
  else if w.r.mruby = true ∨ w.r.shared_mruby = true then strategy.embedded_script
  else if cfg.callback = true ∧ w.cb_list cb_id.content_cb = true then strategy.content_hook
  else strategy.static_file

/-- The world `w'` continues `w` with events that all satisfy `P`. -/
def emits_only (P : Event → Prop) (w w' : World) : Prop :=
  ∃ evs, w'.trace = w.trace ++ evs ∧ ∀ e ∈ evs, P e

/-- The events `send_response` and `send_upstream_response` can produce. -/
def Event.in_send : Event → Bool
  | Event.nghttp2_submit_response _ _ _ _ => true
  | Event.yield cb_id.logging_cb => true
  | Event.mrb_http2_request_rec_free => true
  | _ => false

/-- The events `error_reply` can produce after its entry. -/
def Event.in_error_reply : Event → Bool
  | Event.pipe _ => true
  | Event.write _ _ => true
  | Event.close _ => true
  | Event.yield cb_id.fixups_cb => true
  | Event.nghttp2_submit_rst_stream _ _ => true
  | e => e.in_send

/-- Whether an event is a call of `nghttp2_submit_response`. -/
def Event.is_submit_response : Event → Bool
  | Event.nghttp2_submit_response _ _ _ _ => true
  | _ => false

/-- The logging hook is registered: its `cb_list` entry is set and a block is
stored for it. -/
def logging_registered (w : World) : Prop :=
  w.cb_list cb_id.logging_cb = true ∧ w.ivar cb_id.logging_cb = true

/-- No block and no script changes the registration of the logging hook. -/
def hooks_keep_logging (env : Env) : Prop :=
  (∀ cb v, (env.block cb v).cb_list cb_id.logging_cb = v.cb_list cb_id.logging_cb ∧
    (env.block cb v).ivar cb_id.logging_cb = v.ivar cb_id.logging_cb) ∧
  (∀ v, (env.script v).1.cb_list cb_id.logging_cb = v.cb_list cb_id.logging_cb ∧
    (env.script v).1.ivar cb_id.logging_cb = v.ivar cb_id.logging_cb)

/-- An event that is neither an invocation of the logging hook nor a response
submission. -/
def Event.before_submit (e : Event) : Prop :=
  e ≠ Event.yield cb_id.logging_cb ∧ e.is_submit_response = false

/-- The logging hook was invoked exactly once, right after a successful
response submission, and nothing but `mrb_http2_request_rec_free` followed. -/
def logged_once (evs : List Event) : Prop :=
  ∃ pre sid nva rcb, evs = pre ++ [Event.nghttp2_submit_response sid nva rcb 0,
      Event.yield cb_id.logging_cb, Event.mrb_http2_request_rec_free] ∧
    ∀ e ∈ pre, e.before_submit

/-- An event that is neither an invocation of the logging hook nor a
successful response submission. -/
def Event.not_logged (e : Event) : Prop :=
  e ≠ Event.yield cb_id.logging_cb ∧
    ∀ sid nva rcb, e ≠ Event.nghttp2_submit_response sid nva rcb 0

/-- The logging hook was not invoked and no response submission succeeded. -/
def never_logged (evs : List Event) : Prop := ∀ e ∈ evs, e.not_logged

/-- From `a` to `b` the logging hook ran exactly once, right after a successful
response submission, or it did not run and no submission succeeded. -/
def logs_once_or_never (a b : World) : Prop :=
  (∃ evs, b.trace = a.trace ++ evs ∧ logged_once evs) ∨
  (∃ evs, b.trace = a.trace ++ evs ∧ never_logged evs)

/-- The state of a run of the pipeline started in `w`, for a request path
`path` that passed validation, right after the access-checker phase. -/
def after_access_checker (env : Env) (cfg : mrb_http2_config_t) (w : World)
    (path : List Nat) : World :=
  storage_and_access env cfg (read_request env cfg { w with trace := [] }) path

/-! ## A concrete server for the examples -/

/-- An empty request record. -/
def sample_rec : request_rec :=
  { status := 0, status_line := [], date := [], last_modified := [], content_length := [],
    prev_req_time := 0, prev_last_modified := 0, filename := none, reqhdr := [], reshdrs := [],
    mruby := false, shared_mruby := false, upstream := none,
    phase := phase_t.MRB_HTTP2_SERVER_INIT, write_fd := 0, write_size := 0, authority := [],
    scheme := [], method := [], unparsed_uri := none, percent_encode_uri := none, uri := none,
    args := none, request_body := none }

/-- Collaborators that all succeed: blocks and script change nothing, the pipe
is `(5, 6)`, files open as descriptor 7 with 42 bytes. -/
def sample_env : Env :=
  { now := 1, set_http_date_str := (fun _ => bytes "Thu, 01 Jan 1970 00:00:01 GMT"),
    block := (fun _ v => v), script := (fun v => (v, false)),
    mrb_http2_request_rec_free := (fun r => r),
    mrb_http2_error_message := (fun _ => bytes "error"),
    mrb_http2_strrep := (fun a _ _ => a), pipe_rv := 0, pipefd := (5, 6),
    open_fd := (fun _ => 7), fstat := (fun _ => some (42, 1000)), fopen_ok := (fun _ => true),
    submit_response_rv := 0, submit_rst_stream_rv := 0, upstream_conn_ok := true,
    evhttp_request_new_ok := true, evhttp_make_request_rv := 0, upstream_response := none }

/-- A configuration with callbacks enabled and proxying disabled. -/
def sample_cfg : mrb_http2_config_t :=
  { callback := true, upstream := false, document_root := bytes "/srv/www",
    server_name := bytes "mruby-http2" }

/-- A world whose stream 1 carries the given request path, with the
map-to-storage, access-checker, fixups and logging hooks registered and no
content hook. -/
def sample_world (path : Option (List Nat)) : World :=
  { r := sample_rec, stream := { (create_http2_stream_data 1) with request_path := path },
    cb_list := (fun cb => decide (cb ≠ cb_id.content_cb)),
    ivar := (fun cb => decide (cb ≠ cb_id.content_cb)),
    pipe := [], ruby := 0, upstream_base := false, upstream_conn := false, trace := [] }

/-- Collaborators like `sample_env` whose access-checker block sets the status
to 403. -/
def forbidding_env : Env :=
  { sample_env with
    block := (fun cb v =>
      if cb = cb_id.access_checker_cb then { v with r := set_status_record v.r 403 } else v) }

/-- Collaborators like `sample_env` for which `nghttp2_submit_response` fails. -/
def failing_submit_env : Env := { sample_env with submit_response_rv := -1 }

/-- Collaborators like `sample_env` for which `pipe` fails. -/
def failing_pipe_env : Env := { sample_env with pipe_rv := -1 }

/-- The value `mrb_http2_process_request` returns to the protocol engine for
one run of the pipeline. -/
def pipeline_result (env : Env) (cfg : mrb_http2_config_t) (w : World) : Int :=
  (mrb_http2_process_request env cfg { w with trace := [] }).2

/-- An event that is neither a stream reset nor a response submission. -/
def Event.no_reset_no_response (e : Event) : Prop :=
  e.is_rst = false ∧ e.is_submit_response = false

/-- A configuration like `sample_cfg` with proxying enabled. -/
def proxy_cfg : mrb_http2_config_t := { sample_cfg with upstream := true }

/-- An upstream descriptor for the host `origin`, port 8080. -/
def sample_upstream : mrb_http2_upstream :=
  { host := some (bytes "origin"), unparsed_host := none, port := 8080, uri := none,
    timeout := 600, proto_major := 1, proto_minor := 1, keepalive := true }

/-- A world like `sample_world` whose request record carries
`sample_upstream`. -/
def proxy_world (path : Option (List Nat)) : World :=
  { (sample_world path) with r := { sample_rec with upstream := some sample_upstream } }

/-- Collaborators like `sample_env` for which the upstream connection cannot
be created. -/
def failing_connection_env : Env := { sample_env with upstream_conn_ok := false }

/-- Collaborators like `sample_env` for which `evhttp_make_request` fails. -/
def failing_request_env : Env := { sample_env with evhttp_make_request_rv := -1 }

/-! ## The upstream request (lines 737-816) -/

/-- The request methods of libevent used by the server
(`enum evhttp_cmd_type`). -/
inductive evhttp_cmd_type
  | EVHTTP_REQ_GET
  | EVHTTP_REQ_POST
  deriving DecidableEq, Repr

/-- The libevent call `evhttp_add_header` for a key and a value it accepts:
both are read as C strings and the header is appended to the queue. -/
def evhttp_add_header (headers : List evkeyval) (key value : List Nat) : List evkeyval :=
  headers ++ [⟨cstr key, cstr value⟩]

/-- One iteration of the request-header loop of `read_upstream_response`
(lines 750-775).  The state is the output header queue and the cookie buffer
(`none` for NULL, otherwise its `cookiebuflen` bytes).  Header names are stored
as NUL-terminated copies, so `memcmp("cookie", name, 6)` reads `name` followed
by its NUL. -/
def forward_request_header (acc : List evkeyval × Option (List Nat)) (nv : nghttp2_nv) :
    List evkeyval × Option (List Nat) :=
  if memcmp (bytes "cookie") (nv.name ++ [0]) 6 = 0 then
    let cookiebuf := match acc.2 with
      | none => []
      | some b => b
    (acc.1, some (cookiebuf ++ nv.value ++ bytes "; "))
  else
    let keybuf := nv.name.take 4096 ++ [0]
    let valbuf := nv.value.take 4096 ++ [0]
    (evhttp_add_header acc.1 keybuf valbuf, acc.2)

/-- The request handed to libevent (`struct evhttp_request` and the arguments
of `evhttp_make_request`). -/
structure upstream_request where
  output_headers : List evkeyval
  major : Int
  minor : Int
  output_buffer : List Nat
  method : evhttp_cmd_type
  uri : List Nat
  deriving DecidableEq, Repr

/-- The upstream request `read_upstream_response` assembles before it calls
`evhttp_make_request` (lines 737-814): `Host`, `Connection: close` for a
non-keepalive HTTP/1.1 upstream, the request headers with the cookies
coalesced, the body for `POST`, the method and the URI. -/
def make_upstream_request (r : request_rec) (up : mrb_http2_upstream) (host : List Nat) :
    upstream_request :=
  let unparsed := (host ++ bytes ":" ++ decimal up.port).take (host.length + 6)
  let hdrs := evhttp_add_header [] (bytes "Host" ++ [0]) (unparsed ++ [0])
  let hdrs :=
    if up.keepalive = false ∧ up.proto_minor = 1 then
      evhttp_add_header hdrs (bytes "Connection" ++ [0]) (bytes "close" ++ [0])
    else hdrs
  let res := r.reqhdr.foldl forward_request_header (hdrs, none)
  let hdrs := match res.2 with
    | some cookiebuf => evhttp_add_header res.1 (bytes "Cookie" ++ [0]) (cookiebuf ++ [0])
    | none => res.1
  let post : Bool := decide (memcmp (r.method ++ [0]) (bytes "POST") 4 = 0)
  let uri := match up.uri with
    | none => bytes "/"
    | some u => u
  { output_headers := hdrs, major := up.proto_major, minor := up.proto_minor,
    output_buffer :=
      if post = true then
        match r.request_body with
        | some body => cstr body
        | none => []
      else [],
    method := if post = true then evhttp_cmd_type.EVHTTP_REQ_POST
      else evhttp_cmd_type.EVHTTP_REQ_GET,
    uri := uri }

/-- The request headers forwarded upstream: the output headers after the
`Host` and `Connection` headers the server adds itself. -/
def forwarded_headers (reqhdr : List nghttp2_nv) : List evkeyval :=
  let res := reqhdr.foldl forward_request_header ([], none)
  match res.2 with
  | some cookiebuf => evhttp_add_header res.1 (bytes "Cookie" ++ [0]) (cookiebuf ++ [0])
  | none => res.1

/-- A request record like `sample_rec` with the given method and request
headers. -/
def request_with (method : List Nat) (reqhdr : List nghttp2_nv) : request_rec :=
  { sample_rec with method := method, reqhdr := reqhdr, upstream := some sample_upstream }

/-- Whether the first six bytes of the name of a request header are
`cookie`. -/
def starts_with_cookie (nv : nghttp2_nv) : Bool := (bytes "cookie").isPrefixOf nv.name

/-- The copy of a request header forwarded upstream: name and value cut to
4096 bytes and read as C strings. -/
def forwarded_copy (nv : nghttp2_nv) : evkeyval :=
  ⟨cstr (nv.name.take 4096 ++ [0]), cstr (nv.value.take 4096 ++ [0])⟩

/-- The values of the given headers, each followed by `; `. -/
def joined_values (hs : List nghttp2_nv) : List Nat :=
  match hs with
  | [] => []
  | nv :: rest => nv.value ++ bytes "; " ++ joined_values rest

/-- Modelled from the spec: `mrb_http2_strrep(buf, before, after)` is defined
outside the given sources.  It substitutes, in the string held by `buf`, the
first occurrence of the string `before` by `after`; `buf` is left as it is when
`before` is empty or does not occur. -/
def mrb_http2_strrep (buf before after : List Nat) : List Nat :=
  if before = [] then buf
  else
    match strstrFrom before buf with
    | none => buf
    | some k => buf.take k ++ after ++ buf.drop (k + before.length)

/-- Collaborators like `sample_env` with `mrb_http2_strrep` as modelled and an
upstream that answers 302 with `Location: http://origin:8080/x`. -/
def redirecting_env : Env :=
  { sample_env with
    mrb_http2_strrep := mrb_http2_strrep,
    upstream_response := some ⟨302, [⟨bytes "Server", bytes "origin-httpd"⟩,
      ⟨bytes "Location", bytes "http://origin:8080/x"⟩], 0⟩ }

/-- A world like `proxy_world` whose request came with the given `:scheme`
and `:authority`. -/
def front_world (scheme authority : List Nat) : World :=
  (proxy_world none).set_r
    { sample_rec with scheme := scheme, authority := authority,
                      upstream := some sample_upstream }

/-- The hop-by-hop header names `http_request_done` drops. -/
def hop_by_hop : List (List Nat) :=
  [bytes "Connection", bytes "Transfer-Encoding", bytes "Keep-Alive", bytes "Proxy-Connection",
    bytes "Upgrade"]

/-! ## Configuration (`mrb_http2_config.c`) -/

/-- A Ruby value, as far as the configuration code tells values apart. -/
inductive mrb_value
  | mrb_nil
  | mrb_true
  | mrb_false
  | fixnum (n : Int)
  | string (s : List Nat)
  | other (tag : Nat)
  deriving DecidableEq, Repr

/-- What the configuration code takes from its surroundings: whether the
build has port reuse (`defined(__linux__) && defined(SO_REUSEPORT)`), the
answer of `sysconf(_SC_NPROCESSORS_ONLN)`, the macros `MRB_HTTP2_WORKER_MAX`
and `MRUBY_HTTP2_SERVER` (defined outside the given sources), and the integer
`mrb_fixnum` reads from a value that is not a fixnum. -/
structure platform where
  reuseport : Bool
  nprocessors_onln : Int
  MRB_HTTP2_WORKER_MAX : Int
  MRUBY_HTTP2_SERVER : List Nat
  mrb_fixnum_bits : mrb_value → Int

/-- Conversion of a value to `int`. -/
def to_int32 (x : Int) : Int := (x + 2147483648) % 4294967296 - 2147483648

/-- Conversion of a value to `unsigned int`. -/
def to_uint32 (x : Int) : Nat := (x % 4294967296).toNat

/-- The mruby macro `mrb_fixnum`. -/
def mrb_fixnum (p : platform) (v : mrb_value) : Int :=
  match v with
  | mrb_value.fixnum n => n
  | _ => p.mrb_fixnum_bits v

/-- The end of `mrb_http2_config_get_worker` (lines 58-61): without port reuse
`worker = 0`, then `return worker` as `unsigned int`. -/
def worker_result (p : platform) (worker : Int) : Except String Nat :=
  Except.ok (to_uint32 (if p.reuseport = true then worker else 0))

/-- The C function `mrb_http2_config_get_worker` (lines 32-62).  An exception
raised by `mrb_raise` or `mrb_raisef` is an `Except.error` with its message
format. -/
def mrb_http2_config_get_worker (p : platform) (w : mrb_value) : Except String Nat :=
  match w with
  | mrb_value.mrb_nil => worker_result p 0
  | mrb_value.string s =>
    if s = bytes "auto" then
      let worker := to_int32 p.nprocessors_onln
      if worker < 0 ∨ worker > p.MRB_HTTP2_WORKER_MAX then
        Except.error "failed sysconf(_SC_NPROCESSORS_ONLN)"
      else if worker > p.MRB_HTTP2_WORKER_MAX then
        Except.error "invalid worker parameter: %S > MRB_HTTP2_WORKER_MAX(%S)"
      else worker_result p worker
    else Except.error "invalid worker parmeter: %S"
  | mrb_value.fixnum n =>
    let worker := to_int32 n
    if worker > p.MRB_HTTP2_WORKER_MAX then
      Except.error "invalid worker parameter: %S > MRB_HTTP2_WORKER_MAX(%S)"
    else worker_result p worker
  | _ => Except.error "invalid worker parmeter: %S"

/-- The worker parameters the checks of `mrb_http2_config_get_worker` let
pass: nil, `"auto"` with a CPU count from 0 to the maximum, and a fixnum not
above the maximum. -/
def worker_passes (p : platform) (w : mrb_value) : Prop :=
  w = mrb_value.mrb_nil ∨
  (w = mrb_value.string (bytes "auto") ∧ 0 ≤ to_int32 p.nprocessors_onln ∧
    to_int32 p.nprocessors_onln ≤ p.MRB_HTTP2_WORKER_MAX) ∨
  ∃ n, w = mrb_value.fixnum n ∧ to_int32 n ≤ p.MRB_HTTP2_WORKER_MAX

/-- A Linux build with `SO_REUSEPORT`, four CPUs and a maximum of 64
workers. -/
def linux_platform : platform :=
  { reuseport := true, nprocessors_onln := 4, MRB_HTTP2_WORKER_MAX := 64,
    MRUBY_HTTP2_SERVER := bytes "mruby-http2", mrb_fixnum_bits := (fun _ => 0) }

/-- A build without port reuse on a machine with 128 CPUs, maximum 64. -/
def other_platform : platform :=
  { linux_platform with reuseport := false, nprocessors_onln := 128 }

/-- The mruby call `mrb_str_to_cstr`: the C string of a String without NUL
bytes; it raises for every other value. -/
def mrb_str_to_cstr (v : mrb_value) : Except String (List Nat) :=
  match v with
  | mrb_value.string s =>
    if 0 ∈ s then Except.error "string contains null byte" else Except.ok s
  | _ => Except.error "expected String"

/-- The C function `mrb_http2_config_define_flag` with a NULL `func_ptr`
(lines 166-180): `true` enables, `false` disables, any other value leaves the
flag as it is. -/
def mrb_http2_config_define_flag (flag : Bool) (val : mrb_value) : Bool :=
  match val with
  | mrb_value.mrb_true => true
  | mrb_value.mrb_false => false
  | _ => flag

/-- The C function `mrb_http2_config_define_cstr` with a NULL `func_ptr`
(lines 138-150): a String replaces the current value. -/
def mrb_http2_config_define_cstr (cur : Option (List Nat)) (val : mrb_value) :
    Except String (Option (List Nat)) :=
  match val with
  | mrb_value.string _ =>
    match mrb_str_to_cstr val with
    | Except.ok s => Except.ok (some s)
    | Except.error e => Except.error e
  | _ => Except.ok cur

/-- The C function `mrb_http2_config_define_fixnum` with a NULL `func_ptr`
(lines 152-164): a fixnum replaces the current value. -/
def mrb_http2_config_define_fixnum (cur : Int) (val : mrb_value) : Int :=
  match val with
  | mrb_value.fixnum n => n
  | _ => cur

/-- The configuration right after `memset(config, 0, ...)`. -/
def zero_config : mrb_http2_config_t :=
  { callback := false, upstream := false, document_root := [], server_name := [],
    daemon := false, debug := false, tls := false, connection_record := false,
    tcp_nopush := false, server_status := false, server_host := [], run_user := none,
    dh_params_file := none, rlimit_nofile := 0, write_packet_buffer_expand_size := 0,
    write_packet_buffer_limit_size := 0, service := none, worker := 0, key := none,
    cert := none }

/-- The C function `config_defualt_value` (lines 182-201). -/
def config_defualt_value (p : platform) (config : mrb_http2_config_t) : mrb_http2_config_t :=
  { config with
    daemon := false, debug := false, tls := true, connection_record := true,
    tcp_nopush := false, server_status := false, upstream := false,
    server_host := bytes "0.0.0.0", server_name := p.MRUBY_HTTP2_SERVER,
    document_root := bytes "./", run_user := none, dh_params_file := none,
    rlimit_nofile := 0, write_packet_buffer_expand_size := 0,
    write_packet_buffer_limit_size := 0 }

/-- The flags of `mrb_http2_s_config_init` (lines 212-219). -/
def config_flags (args : String → mrb_value) (c : mrb_http2_config_t) : mrb_http2_config_t :=
  { c with
    callback := mrb_http2_config_define_flag c.callback (args "callback"),
    daemon := mrb_http2_config_define_flag c.daemon (args "daemon"),
    debug := mrb_http2_config_define_flag c.debug (args "debug"),
    tls := mrb_http2_config_define_flag c.tls (args "tls"),
    connection_record :=
      mrb_http2_config_define_flag c.connection_record (args "connection_record"),
    tcp_nopush := mrb_http2_config_define_flag c.tcp_nopush (args "tcp_nopush"),
    server_status := mrb_http2_config_define_flag c.server_status (args "server_status"),
    upstream := mrb_http2_config_define_flag c.upstream (args "upstream") }

/-- The string options of `mrb_http2_s_config_init` (lines 221-225). -/
def config_cstrs (args : String → mrb_value) (c : mrb_http2_config_t) :
    Except String mrb_http2_config_t :=
  match mrb_http2_config_define_cstr (some c.server_host) (args "server_host") with
  | Except.error e => Except.error e
  | Except.ok server_host =>
  match mrb_http2_config_define_cstr (some c.server_name) (args "server_name") with
  | Except.error e => Except.error e
  | Except.ok server_name =>
  match mrb_http2_config_define_cstr (some c.document_root) (args "document_root") with
  | Except.error e => Except.error e
  | Except.ok document_root =>
  match mrb_http2_config_define_cstr c.run_user (args "run_user") with
  | Except.error e => Except.error e
  | Except.ok run_user =>
  match mrb_http2_config_define_cstr c.dh_params_file (args "dh_params_file") with
  | Except.error e => Except.error e
  | Except.ok dh_params_file =>
    Except.ok { c with
      server_host := server_host.getD c.server_host,
      server_name := server_name.getD c.server_name,
      document_root := document_root.getD c.document_root,
      run_user := run_user, dh_params_file := dh_params_file }

/-- The numeric options of `mrb_http2_s_config_init` (lines 227-229). -/
def config_fixnums (args : String → mrb_value) (c : mrb_http2_config_t) :
    mrb_http2_config_t :=
  { c with
    rlimit_nofile := mrb_http2_config_define_fixnum c.rlimit_nofile (args "rlimit_nofile"),
    write_packet_buffer_expand_size :=
      mrb_http2_config_define_fixnum c.write_packet_buffer_expand_size
        (args "write_packet_buffer_expand_size"),
    write_packet_buffer_limit_size :=
      mrb_http2_config_define_fixnum c.write_packet_buffer_limit_size
        (args "write_packet_buffer_limit_size") }

/-- The C function `set_config_port` (lines 102-106): the port printed in base
10 by `mrb_fixnum_to_str`. -/
def set_config_port (p : platform) (config : mrb_http2_config_t) (val : mrb_value) :
    mrb_http2_config_t :=
  { config with service := some (decimal (mrb_fixnum p val)) }

/-- The C function `set_config_worker` (lines 108-112). -/
def set_config_worker (p : platform) (config : mrb_http2_config_t) (val : mrb_value) :
    Except String mrb_http2_config_t :=
  match mrb_http2_config_get_worker p val with
  | Except.ok worker => Except.ok { config with worker := worker }
  | Except.error e => Except.error e

/-- The C function `set_config_key` (lines 76-87). -/
def set_config_key (config : mrb_http2_config_t) (val : mrb_value) :
    Except String mrb_http2_config_t :=
  if config.tls = true then
    if val = mrb_value.mrb_nil then Except.error "MUST set key value when using TLS"
    else
      match mrb_str_to_cstr val with
      | Except.ok s => Except.ok { config with key := some s }
      | Except.error e => Except.error e
  else Except.ok { config with key := none }

/-- The C function `set_config_crt` (lines 89-100). -/
def set_config_crt (config : mrb_http2_config_t) (val : mrb_value) :
    Except String mrb_http2_config_t :=
  if config.tls = true then
    if val = mrb_value.mrb_nil then Except.error "MUST set crt value when using TLS"
    else
      match mrb_str_to_cstr val with
      | Except.ok s => Except.ok { config with cert := some s }
      | Except.error e => Except.error e
  else Except.ok { config with cert := none }

/-- The part of `mrb_http2_s_config_init` before the `key` option
(lines 206-232): defaults, flags, strings, numbers, port and worker.  `args`
is the option hash, nil for an option that is not given. -/
def config_before_key (p : platform) (args : String → mrb_value) :
    Except String mrb_http2_config_t :=
  match config_cstrs args (config_flags args (config_defualt_value p zero_config)) with
  | Except.error e => Except.error e
  | Except.ok c =>
    set_config_worker p (set_config_port p (config_fixnums args c) (args "port"))
      (args "worker")

/-- The C function `mrb_http2_s_config_init` (lines 203-239). -/
def mrb_http2_s_config_init (p : platform) (args : String → mrb_value) :
    Except String mrb_http2_config_t :=
  match config_before_key p args with
  | Except.error e => Except.error e
  | Except.ok c =>
    match set_config_key c (args "key") with
    | Except.error e => Except.error e
    | Except.ok c => set_config_crt c (args "crt")

/-- Whether the `tls` option leaves TLS enabled: not given, or `true`. -/
def tls_enabled (args : String → mrb_value) : Prop :=
  args "tls" = mrb_value.mrb_nil ∨ args "tls" = mrb_value.mrb_true

/-- An option hash with port 8080, the given `tls` value and the given `key`
and `crt` values. -/
def sample_args (tls key crt : mrb_value) : String → mrb_value :=
  fun name =>
    if name = "port" then mrb_value.fixnum 8080
    else if name = "tls" then tls
    else if name = "key" then key
    else if name = "crt" then crt
    else mrb_value.mrb_nil

/-! ## The worker supervisor (`mrb_http2_server_run`, lines 2127-2192) -/

/-- The globals of the supervisor: the table `pid`, read and written by
index, and the flag `prepare_kill` set by the SIGTERM handler. -/
structure supervisor where
  pid : Nat → Int
  prepare_kill : Bool

/-- The loop `for (i = 0; i < config->worker; i++) { if (wpid == pid[i]) {
pid[i] = fork(); break; } }` from index `i` with `n` slots left to look at.
The result is the table, the final value of `i` and the number of calls of
`fork`, which returns `fork_rv`. -/
def respawn_scan (wpid fork_rv : Int) (pid : Nat → Int) : Nat → Nat → (Nat → Int) × Nat × Nat
  | i, 0 => (pid, i, 0)
  | i, n + 1 =>
    if wpid = pid i then (Function.update pid i fork_rv, i, 1)
    else respawn_scan wpid fork_rv pid (i + 1) n

/-- What one pass of the monitor loop leaves: the table, the number of calls
of `fork`, whether the function returned (`return self`), and whether this
process goes on as a worker (`pid[i] == 0` after the scan). -/
structure monitor_pass where
  pid : Nat → Int
  forks : Nat
  returned : Bool
  worker_run : Bool

/-- One pass of the `while(1)` loop of `mrb_http2_server_run` (lines
2153-2183) after `wait` returned `wpid`, with the value of `prepare_kill` at
the test and the value `fork_rv` that `fork` returns in this process. -/
def monitor (worker : Nat) (s : supervisor) (wpid fork_rv : Int) : monitor_pass :=
  if s.prepare_kill = true then
    { pid := s.pid, forks := 0, returned := true, worker_run := false }
  else
    let res := respawn_scan wpid fork_rv s.pid 0 worker
    { pid := res.1, forks := res.2.2, returned := false,
      worker_run := decide (res.1 res.2.1 = 0) }

/-- A master with three workers 101, 102, 103 and the sentinel -1. -/
def sample_supervisor : supervisor :=
  { pid := (fun i => if i = 0 then 101 else if i = 1 then 102 else if i = 2 then 103 else -1),
    prepare_kill := false }

/-! ## Operations that add response headers -/

/-- The C function `mrb_http2_set_reshdrs` (lines 2859-2878), the method
`[]=` of the response headers, for a String key and value: the entry with that
name is overwritten, or a new entry is written at `reshdrslen`.  The result is
the record and the returned `reshdrslen`.  The macro `MRB_HTTP2_CREATE_NV_OBJ`
is defined outside the given sources; it fills the entry from the two
Strings. -/
def mrb_http2_set_reshdrs (r : request_rec) (key val : List Nat) : request_rec × Nat :=
  match mrb_http2_get_nv_id r.reshdrs key with
  | none =>
    let r' := push_reshdr r ⟨key, val⟩
    (r', r'.reshdrs.length)
  | some i =>
    let r' := { r with reshdrs := r.reshdrs.set i ⟨key, val⟩ }
    (r', r'.reshdrs.length)

/-- The operations of the server that add response headers: the setter given
to the hooks, `fixup_status_header`, and an append by the pipeline
(`MRB_HTTP2_CREATE_NV_CS(mrb, &r->reshdrs[r->reshdrslen], name, value);
r->reshdrslen += 1;` for `server`, `date`, `content-type`, `content-length`,
`last-modified`, `via`). -/
inductive reshdr_op
  | set_reshdrs (key val : List Nat)
  | fixup_status_header
  | append (name : String) (value : List Nat)

/-- The effect of one operation on the request record. -/
def reshdr_op.apply (r : request_rec) : reshdr_op → request_rec
  | reshdr_op.set_reshdrs key val => (mrb_http2_set_reshdrs r key val).1
  | reshdr_op.fixup_status_header => MrubyHttp2.fixup_status_header r
  | reshdr_op.append name value => push_reshdr r (MRB_HTTP2_CREATE_NV_CS name value)

/-- The effect of a sequence of operations. -/
def apply_reshdr_ops (r : request_rec) (ops : List reshdr_op) : request_rec :=
  ops.foldl reshdr_op.apply r

/-- The number of entries of a header list named `:status`. -/
def status_count (nva : List nghttp2_nv) : Nat :=
  nva.countP (fun nv => decide (nv.name = bytes ":status"))

/-- A request record like `sample_rec` with the given response headers and
status line. -/
def response_with (reshdrs : List nghttp2_nv) (status_line : List Nat) : request_rec :=
  { sample_rec with reshdrs := reshdrs, status_line := status_line }

/-- The header list starts with an entry named `:status`. -/
def status_first (nva : List nghttp2_nv) : Prop :=
  nva.head?.map nghttp2_nv.name = some (bytes ":status")

/-- An event whose header list, if it is a response submission, starts with
`:status`. -/
def Event.status_first : Event → Prop
  | Event.nghttp2_submit_response _ nva _ _ => MrubyHttp2.status_first nva
  | _ => True

/-- The effect of a sequence of calls of the response-header setter
`mrb_http2_set_reshdrs`, each with its key and value. -/
def apply_setter (r : request_rec) (calls : List (List Nat × List Nat)) : request_rec :=
  calls.foldl (fun r kv => (mrb_http2_set_reshdrs r kv.1 kv.2).1) r

/-- The fixups hook changes the response headers only through the setter. -/
def fixups_use_setter (env : Env) : Prop :=
  ∀ v, ∃ calls, (env.block cb_id.fixups_cb v).r.reshdrs = (apply_setter v.r calls).reshdrs

/-- Setter calls of a fixups hook: it sets `x-frame-options` and overwrites
`:status`. -/
def sample_setter_calls : List (List Nat × List Nat) :=
  [(bytes "x-frame-options", bytes "DENY"), (bytes ":status", bytes "203")]

/-- Collaborators like `sample_env` whose fixups hook makes the calls
`sample_setter_calls`. -/
def header_setting_env : Env :=
  { sample_env with
    block := (fun cb v =>
      if cb = cb_id.fixups_cb then { v with r := apply_setter v.r sample_setter_calls }
      else v) }

/-! ## Request headers (`lookup_token`, `server_on_header_callback`,
lines 1041-1160) -/

/-- The token `NGHTTP2_TOKEN__AUTHORITY` of the `nghttp2_token` enum. -/
def NGHTTP2_TOKEN__AUTHORITY : Int := 0

/-- The token `NGHTTP2_TOKEN__METHOD`. -/
def NGHTTP2_TOKEN__METHOD : Int := 1

/-- The token `NGHTTP2_TOKEN__PATH`. -/
def NGHTTP2_TOKEN__PATH : Int := 2

/-- The token `NGHTTP2_TOKEN__SCHEME`. -/
def NGHTTP2_TOKEN__SCHEME : Int := 3

/-- The token `NGHTTP2_TOKEN_HOST`. -/
def NGHTTP2_TOKEN_HOST : Int := 4

/-- The macro `streq(A, B, N)`:
`(sizeof(A) - 1) == N && memcmp(A, B, N) == 0` for a literal `A`. -/
def streq (A : String) (B : List Nat) (N : Nat) : Bool :=
  decide ((bytes A).length = N) && decide (memcmp (bytes A) B N = 0)

/-- The C function `lookup_token` (lines 1055-1091): a `switch` on `namelen`
and on the last byte of the name. -/
def lookup_token (name : List Nat) : Int :=
  let namelen := name.length
  if namelen = 5 then
    if name[namelen - 1]? = some 104 then
      if streq ":pat" name 4 = true then NGHTTP2_TOKEN__PATH else -1
    else -1
  else if namelen = 7 then
    if name[namelen - 1]? = some 100 then
      if streq ":metho" name 6 = true then NGHTTP2_TOKEN__METHOD else -1
    else if name[namelen - 1]? = some 101 then
      if streq ":schem" name 6 = true then NGHTTP2_TOKEN__SCHEME else -1
    else -1
  else if namelen = 10 then
    if name[namelen - 1]? = some 121 then
      if streq ":authorit" name 9 = true then NGHTTP2_TOKEN__AUTHORITY else -1
    else -1
  else -1

/-- The indices of a field written by `memcpy(field, value, valuelen);
field[valuelen] = '\0';`. -/
def field_writes (valuelen : Nat) : List Nat := List.range valuelen ++ [valuelen]

/-- The string a field of `cap` bytes holds after `memcpy(field, value,
valuelen); field[valuelen] = '\0';`, and `none` when one of the writes is at or
beyond the end of the field. -/
def store_field (cap : Nat) (value : List Nat) : Option (List Nat) :=
  if (field_writes value.length).all (fun i => decide (i < cap)) = true then
    some (cstr (value ++ [0]))
  else none

/-- Modelled from the spec: `mrb_http2_add_nv` is defined outside the given
sources.  It appends a header to the generic header list of the stream, which
is bounded by the fixed maximum; a header beyond the maximum is dropped. -/
def mrb_http2_add_nv (max : Nat) (nva : List nghttp2_nv) (nv : nghttp2_nv) :
    List nghttp2_nv :=
  if nva.length < max then nva ++ [nv] else nva

/-- Modelled from the spec: `mrb_http2_strcopy` is defined outside the given
sources; it keeps a NUL-terminated copy of the raw value. -/
def mrb_http2_strcopy (value : List Nat) : List Nat := value ++ [0]

/-- The loop `for(j = 0; j < valuelen && value[j] != '?'; ++j);`: the final
`j`. -/
def question_index (value : List Nat) : Nat := (value.takeWhile (fun b => b != 63)).length

/-- The `NGHTTP2_TOKEN__PATH` case of `server_on_header_callback`
(lines 1135-1148).  `value` is the header value and `tail` the memory that
follows it; `none` stands for a read outside that memory. -/
def store_path (cfg : mrb_http2_config_t) (s : http2_stream_data) (value tail : List Nat) :
    Option http2_stream_data :=
  let valuelen := value.length
  let s := if cfg.upstream = true then
      { s with percent_encode_uri := some (mrb_http2_strcopy value) }
    else s
  match percent_decode (value ++ tail) valuelen with
  | none => none
  | some unparsed_uri =>
    let j := question_index value
    if j = valuelen then
      some { s with unparsed_uri := some unparsed_uri, request_args := none,
                    request_path := some unparsed_uri }
    else
      match percent_decode (value ++ tail) j,
        percent_decode ((value ++ tail).drop j) (valuelen - j) with
      | some path, some args =>
        some { s with unparsed_uri := some unparsed_uri, request_path := some path,
                      request_args := some args }
      | _, _ => none

/-- The C function `server_on_header_callback` (lines 1093-1160) for a header
of a request HEADERS frame on a stream that has user data (in the other cases
the function returns at once).  `max` is `MRB_HTTP2_HEADER_MAX`, `tail` the
memory that follows the value.  The result is the stream afterwards, and
`none` when a write falls outside a field of the stream or a read outside the
memory of the value. -/
def server_on_header_callback (cfg : mrb_http2_config_t) (max : Nat) (s : http2_stream_data)
    (name value tail : List Nat) : Option http2_stream_data :=
  let token := lookup_token name
  if token = NGHTTP2_TOKEN__AUTHORITY then
    (store_field 1024 value).map (fun a => { s with authority := a })
  else if token = NGHTTP2_TOKEN__METHOD then
    (store_field 16 value).map (fun m => { s with method := m })
  else if token = NGHTTP2_TOKEN__SCHEME then
    (store_field 8 value).map (fun c => { s with scheme := c })
  else if token = NGHTTP2_TOKEN__PATH then store_path cfg s value tail
  else some { s with nva := mrb_http2_add_nv max s.nva ⟨name, value⟩ }

/-! ## The read callbacks (`upstream_read_callback`, `file_read_callback`,
lines 380-475) -/

/-- The nghttp2 error code `NGHTTP2_ERR_TEMPORAL_CALLBACK_FAILURE`. -/
def NGHTTP2_ERR_TEMPORAL_CALLBACK_FAILURE : Int := -521

/-- The nghttp2 data flag `NGHTTP2_DATA_FLAG_NONE`. -/
def NGHTTP2_DATA_FLAG_NONE : Nat := 0

/-- The nghttp2 data flag `NGHTTP2_DATA_FLAG_EOF`. -/
def NGHTTP2_DATA_FLAG_EOF : Nat := 1

/-- The state after a call of a read callback: the stream, `*data_flags` and
the return value. -/
structure read_outcome where
  stream : http2_stream_data
  data_flags : Nat
  rv : Int
  deriving DecidableEq, Repr

/-- The end-of-data flag is set in `*data_flags`. -/
def read_outcome.eof (o : read_outcome) : Bool := o.data_flags.testBit 0

/-- The number of bytes a call hands to the protocol engine: its return value
when that is a byte count, nothing when it is an error code. -/
def read_outcome.bytes_returned (o : read_outcome) : Int := if 0 ≤ o.rv then o.rv else 0

/-- The C function `file_read_callback` (lines 452-475).  `nread` is the value
the loop `while((nread = read(fd, buf, length)) == -1 && errno == EINTR);`
ends with: -1 for a failed read, else the number of bytes read. -/
def file_read_callback (s : http2_stream_data) (data_flags : Nat) (nread : Int) :
    read_outcome :=
  if nread = -1 then
    { stream := s, data_flags := data_flags, rv := NGHTTP2_ERR_TEMPORAL_CALLBACK_FAILURE }
  else
    let s := { s with readleft := to_int64 (s.readleft - nread) }
    if nread = 0 ∨ s.readleft = 0 then
      if s.readleft ≠ 0 then
        { stream := s, data_flags := data_flags, rv := NGHTTP2_ERR_TEMPORAL_CALLBACK_FAILURE }
      else
        { stream := s, data_flags := data_flags ||| NGHTTP2_DATA_FLAG_EOF, rv := nread }
    else { stream := s, data_flags := data_flags, rv := nread }

/-- The C function `upstream_read_callback` (lines 380-408).  `nread` is the
result of `evbuffer_remove` on the input buffer of the upstream request. -/
def upstream_read_callback (s : http2_stream_data) (data_flags : Nat) (nread : Int) :
    read_outcome :=
  if s.upstream_req = false then
    { stream := s, data_flags := data_flags, rv := NGHTTP2_ERR_TEMPORAL_CALLBACK_FAILURE }
  else if nread = -1 then
    { stream := s, data_flags := data_flags, rv := NGHTTP2_ERR_TEMPORAL_CALLBACK_FAILURE }
  else
    let s := { s with readleft := to_int64 (s.readleft - nread) }
    if nread = 0 ∨ s.readleft = 0 then
      if s.readleft ≠ 0 then
        { stream := s, data_flags := data_flags, rv := NGHTTP2_ERR_TEMPORAL_CALLBACK_FAILURE }
      else
        { stream := s, data_flags := data_flags ||| NGHTTP2_DATA_FLAG_EOF, rv := nread }
    else { stream := s, data_flags := data_flags, rv := nread }

/-- The calls of `file_read_callback` the protocol engine makes for a sequence
of reads, each with cleared `*data_flags`, on the stream the call before
left. -/
def read_calls (s : http2_stream_data) : List Int → List read_outcome
  | [] => []
  | nread :: rest =>
    (file_read_callback s NGHTTP2_DATA_FLAG_NONE nread) ::
      read_calls (file_read_callback s NGHTTP2_DATA_FLAG_NONE nread).stream rest

/-! ## The buffers of the request-header loop of `read_upstream_response`
(lines 750-780) -/

/-- The indices of a buffer `char buf[4096]` written by
`len = n; if (len > 4096) len = 4096; memcpy(buf, src, len); buf[len] = '\0';`
(lines 761-765 for `keybuf`, 767-771 for `valbuf`). -/
def truncated_copy_writes (n : Nat) : List Nat :=
  let len := if n > 4096 then 4096 else n
  List.range len ++ [len]

/-- The variable `cookiebuflen` after the loop (lines 754-756): every header
taken as a cookie adds `valuelen + 2`.  The `mrb_realloc` of line 757 makes
the block of `cookiebuf` this many bytes. -/
def cookiebuflen (reqhdr : List nghttp2_nv) : Nat :=
  reqhdr.foldl (fun len nv =>
    if memcmp (bytes "cookie") (nv.name ++ [0]) 6 = 0 then len + (nv.value.length + 2)
    else len) 0

/-- The index written by `cookiebuf[cookiebuflen] = '\0'` (lines 776-777);
`none` when `cookiebuf` is NULL, that is when no header was taken as a
cookie. -/
def cookie_terminator_index (reqhdr : List nghttp2_nv) : Option Nat :=
  if reqhdr.any (fun nv => decide (memcmp (bytes "cookie") (nv.name ++ [0]) 6 = 0)) = true then
    some (cookiebuflen reqhdr)
  else none

/-! ## The indices of the table `pid` (lines 2127-2186) -/

/-- A write `pid[i] = v` on the table `static int pid[MRB_HTTP2_WORKER_MAX]`,
held as the list of its slots; `none` for an index outside the table. -/
def pid_write (pid : List Int) (i : Nat) (v : Int) : Option (List Int) :=
  if i < pid.length then some (pid.set i v) else none

/-- The loop `for (i=0; i< config->worker && (pid[i] = fork()) > 0; i++);`
(line 2149) from index `i` with `n` workers left to start; `fork_rv i` is the
answer of `fork` in iteration `i`.  The result is the table and the final
`i`. -/
def fork_loop (fork_rv : Nat → Int) : List Int → Nat → Nat → Option (List Int × Nat)
  | pid, i, 0 => some (pid, i)
  | pid, i, n + 1 =>
    match pid_write pid i (fork_rv i) with
    | none => none
    | some pid1 =>
      if fork_rv i > 0 then fork_loop fork_rv pid1 (i + 1) n else some (pid1, i)

/-- The start of `mrb_http2_server_run` for `config->worker > 0` (lines
2147-2151 and 2185): the fork loop, then `pid[i] = -1` when `i ==
config->worker`, else the read of `pid[i]`.  The result is the table and `i`;
`none` for an access outside the table. -/
def start_workers (worker : Nat) (fork_rv : Nat → Int) (pid : List Int) :
    Option (List Int × Nat) :=
  match fork_loop fork_rv pid 0 worker with
  | none => none
  | some (pid1, i) =>
    if i = worker then (pid_write pid1 i (-1)).map (fun t => (t, i))
    else (pid1[i]?).map (fun _ => (pid1, i))

/-- The loop `for (i = 0; pid[i] != -1; i++) { kill(pid[i], SIGTERM); }` of
`killall_worker` (lines 2134-2136) over the slots from the current index on:
the processes signalled, `none` when the scan leaves the table. -/
def killall_worker : List Int → Option (List Int)
  | [] => none
  | p :: rest => if p ≠ -1 then (killall_worker rest).map (fun l => p :: l) else some []

/-- The respawn lookup (lines 2167-2172) on the table of slots, from index `i`
with `n` slots left to look at: the table and the final `i`. -/
def respawn_lookup (wpid fork_rv : Int) : List Int → Nat → Nat → Option (List Int × Nat)
  | pid, i, 0 => some (pid, i)
  | pid, i, n + 1 =>
    match pid[i]? with
    | none => none
    | some p =>
      if wpid = p then (pid_write pid i fork_rv).map (fun t => (t, i))
      else respawn_lookup wpid fork_rv pid (i + 1) n

/-- The respawn lookup and the test `pid[i] == 0` after it (lines 2167-2173):
the table and the outcome of the test. -/
def respawn (worker : Nat) (wpid fork_rv : Int) (pid : List Int) : Option (List Int × Bool) :=
  match respawn_lookup wpid fork_rv pid 0 worker with
  | none => none
  | some (pid1, i) => (pid1[i]?).map (fun p => (pid1, decide (p = 0)))

/-- The process ids `1000, 1001, ...` for the calls of `fork`. -/
def sample_fork_rv (i : Nat) : Int := 1000 + (i : Int)

/-- A table of 64 slots, all zero as at program start. -/
def sample_pid_table : List Int := List.replicate 64 0

/-- A table of 64 slots filled with the process ids `1000 .. 1063`. -/
def full_pid_table : List Int := (List.range 64).map sample_fork_rv

/-! ## The body of a hook or script response (lines 855-890, 995-1011,
2733-2768) -/

/-- The C function `mrb_http2_server_rputs` (lines 2733-2747), the method
`rputs` of the server object: `write(write_fd, msg, len)`, taken as complete,
and `r->write_size += len`. -/
def mrb_http2_server_rputs (v : hook_view) (msg : List Nat) : hook_view :=
  { v with pipe := v.pipe ++ msg,
           r := { v.r with write_size := v.r.write_size + (msg.length : Int) } }

/-- The C function `mrb_http2_server_echo` (lines 2749-2768), the method `echo`
for a String: the message and a newline are written, and `r->write_size` grows
by `RSTRING_LEN(msg) + sizeof("\n") - 1`. -/
def mrb_http2_server_echo (v : hook_view) (msg : List Nat) : hook_view :=
  { v with pipe := v.pipe ++ (msg ++ bytes "\n"),
           r := { v.r with write_size := v.r.write_size + ((msg.length : Int) + 2 - 1) } }

/-- The C function `mrb_http2_server_set_status` (lines 2770-2783); in the
logging phase it raises and the record stays as it is. -/
def mrb_http2_server_set_status (v : hook_view) (status : Int) : hook_view :=
  if v.r.phase = phase_t.MRB_HTTP2_SERVER_LOGGING then v
  else { v with r := set_status_record v.r status }

/-- The body streamed to the client: the first `readleft` bytes read from the
response pipe. -/
def response_body (w : World) : List Nat := w.pipe.take w.stream.readleft.toNat

/-- The values of the headers with the given name in the responses submitted
in a trace. -/
def submitted_values (name : String) (t : List Event) : List (List Nat) :=
  t.foldr (fun e acc =>
    match e with
    | Event.nghttp2_submit_response _ nva _ _ =>
      ((nva.filter (fun nv => decide (nv.name = bytes name))).map nghttp2_nv.value) ++ acc
    | _ => acc) []

/-- Error messages for the statuses 404 and 503. -/
def sample_error_message (status : Nat) : List Nat :=
  if status = 404 then bytes "Not Found"
  else if status = 503 then bytes "Service Unavailable"
  else bytes "error"

/-- Collaborators like `sample_env` whose content hook writes `hello` with
`rputs` and sets the given status, and whose script writes `hello` and then
raises or not as given. -/
def writing_env (status : Int) (raises : Bool) : Env :=
  { sample_env with
    mrb_http2_error_message := sample_error_message,
    block := (fun cb v =>
      if cb = cb_id.content_cb then
        mrb_http2_server_set_status (mrb_http2_server_rputs v (bytes "hello")) status
      else v),
    script := (fun v => (mrb_http2_server_rputs v (bytes "hello"), raises)) }

/-- A world like `sample_world` with a content hook registered. -/
def content_hook_world : World :=
  { (sample_world none) with cb_list := (fun _ => true), ivar := (fun _ => true) }

/-! # Theorems -/

/-! ## Lemmas on the C string primitives -/

theorem cstr_append_nul (P : List Nat) (h : ∀ b ∈ P, b ≠ 0) (rest : List Nat) :
    cstr (P ++ 0 :: rest) = P := by
  induction P with
  | nil => simp [cstr]
  | cons a t ih =>
    have ha : a ≠ 0 := h a (by simp)
    have ht : ∀ b ∈ t, b ≠ 0 := fun b hb => h b (by simp [hb])
    have := ih ht
    simp only [cstr] at this ⊢
    simp [List.takeWhile_cons, ha, this]

theorem strlen_append_nul (P : List Nat) (h : ∀ b ∈ P, b ≠ 0) (rest : List Nat) :
    strlen (P ++ 0 :: rest) = P.length := by
  simp [strlen, cstr_append_nul P h rest]

theorem strchr_isNone_iff (P : List Nat) (h : ∀ b ∈ P, b ≠ 0) (c : Nat) (hc : c ≠ 0) :
    (strchr (P ++ [0]) c).isNone = true ↔ c ∉ P := by
  induction P with
  | nil =>
    have : ¬ (0 = c) := fun e => hc e.symm
    simp [strchr, this]
  | cons a t ih =>
    have ha : a ≠ 0 := h a (by simp)
    have ht : ∀ b ∈ t, b ≠ 0 := fun b hb => h b (by simp [hb])
    have := ih ht
    by_cases hac : a = c
    · simp [strchr, hac]
    · have hca : ¬ (c = a) := fun e => hac e.symm
      simp only [List.cons_append, strchr, hac, ha, if_false, List.mem_cons, hca, false_or]
      rw [← this]
      cases strchr (t ++ [0]) c <;> simp

theorem strstrFrom_isNone_iff (needle hay : List Nat) :
    (strstrFrom needle hay).isNone = true ↔ ¬ needle <:+: hay := by
  induction hay with
  | nil =>
    cases needle with
    | nil => simp [strstrFrom]
    | cons a t => simp [strstrFrom, List.isPrefixOf]
  | cons b rest ih =>
    by_cases hp : needle.isPrefixOf (b :: rest) = true
    · have hpre : needle <+: b :: rest := List.isPrefixOf_iff_prefix.mp hp
      simp only [strstrFrom, hp, if_true, Option.isNone_some]
      constructor
      · intro h; cases h
      · intro h; exact absurd hpre.isInfix h
    · have hpre : ¬ needle <+: b :: rest := fun h => hp (List.isPrefixOf_iff_prefix.mpr h)
      simp only [strstrFrom, hp]
      have key : (Option.map (fun k => k + 1) (strstrFrom needle rest)).isNone = true
          ↔ ¬ needle <:+: rest := by
        rw [← ih]; cases strstrFrom needle rest <;> simp
      simp only [Bool.false_eq_true, if_false]
      rw [key, List.infix_cons_iff]
      tauto

theorem memcmp_eq_zero_iff (a b : List Nat) (n : Nat) (ha : n ≤ a.length) (hb : n ≤ b.length) :
    memcmp a b n = 0 ↔ a.take n = b.take n := by
  induction n generalizing a b with
  | zero => simp [memcmp]
  | succ k ih =>
    cases a with
    | nil => simp at ha
    | cons x xs =>
      cases b with
      | nil => simp at hb
      | cons y ys =>
        simp only [List.length_cons, Nat.add_le_add_iff_right] at ha hb
        by_cases hxy : x = y
        · simp [memcmp, hxy, ih xs ys ha hb]
        · have : (x : Int) - (y : Int) ≠ 0 := by omega
          simp [memcmp, hxy, this]

theorem memcmp_tail_eq_zero_iff (P needle : List Nat) (h : needle.length ≤ P.length) :
    memcmp ((P ++ [0]).drop (P.length - needle.length)) needle needle.length = 0
      ↔ needle <:+ P := by
  have hd : (P ++ [0]).drop (P.length - needle.length)
      = P.drop (P.length - needle.length) ++ [0] := by
    rw [List.drop_append_of_le_length (by omega)]
  have hl : (P.drop (P.length - needle.length)).length = needle.length := by
    simp; omega
  rw [memcmp_eq_zero_iff _ _ _ (by rw [hd]; simp; omega) (le_refl _), hd,
    List.take_append_of_le_length (by omega), List.take_of_length_le (by omega),
    List.take_of_length_le (le_refl _), List.suffix_iff_eq_drop]
  exact eq_comm

theorem head_append_nul (P : List Nat) :
    ((P ++ [0]).head? == some 47) = true ↔ P.head? = some 47 := by
  cases P <;> simp

/-- C1. For a NUL-free path `P` stored as a C string, `check_path` returns false
exactly when `P` does not start with `/`, contains a backslash, contains `/../`
or `/./`, or ends with `/..` or `/.`; in every other case it returns true. -/
theorem check_path_false_iff (P : List Nat) (hnul : ∀ b ∈ P, b ≠ 0) :
    (check_path (P ++ [0]) = false ↔ path_rejected P) ∧
    (check_path (P ++ [0]) = true ↔ ¬ path_rejected P) := by
  have hlen : strlen (P ++ [0]) = P.length := strlen_append_nul P hnul []
  have hc : (strchr (P ++ [0]) 92).isNone = true ↔ 92 ∉ P :=
    strchr_isNone_iff P hnul 92 (by decide)
  have hs : ∀ needle, (strstr (P ++ [0]) needle).isNone = true ↔ ¬ needle <:+: P := by
    intro needle
    rw [strstr, cstr_append_nul P hnul [], strstrFrom_isNone_iff]
  have h3 : (decide (P.length < 3) || memcmp ((P ++ [0]).drop (P.length - 3)) (bytes "/..") 3 != 0)
      = true ↔ ¬ bytes "/.." <:+ P := by
    by_cases hl : P.length < 3
    · have : ¬ bytes "/.." <:+ P := fun hsuf => by
        have := hsuf.length_le
        simp [bytes] at this; omega
      simp [hl, this]
    · have := memcmp_tail_eq_zero_iff P (bytes "/..") (by simp [bytes]; omega)
      have e : (bytes "/..").length = 3 := by simp [bytes]
      rw [e] at this
      simp [hl, this]
  have h2 : (decide (P.length < 2) || memcmp ((P ++ [0]).drop (P.length - 2)) (bytes "/.") 2 != 0)
      = true ↔ ¬ bytes "/." <:+ P := by
    by_cases hl : P.length < 2
    · have : ¬ bytes "/." <:+ P := fun hsuf => by
        have := hsuf.length_le
        simp [bytes] at this; omega
      simp [hl, this]
    · have := memcmp_tail_eq_zero_iff P (bytes "/.") (by simp [bytes]; omega)
      have e : (bytes "/.").length = 2 := by simp [bytes]
      rw [e] at this
      simp [hl, this]
  have key : check_path (P ++ [0]) = true ↔ ¬ path_rejected P := by
    unfold check_path path_rejected
    simp only [hlen, Bool.and_eq_true, head_append_nul, hc, hs, h3, h2]
    tauto
  refine ⟨?_, key⟩
  rw [← Bool.not_eq_true, key, not_not]

/-- C1 witness: the request path `/../etc/passwd` is rejected. -/
theorem check_path_false_iff_witness :
    (∀ b ∈ bytes "/../etc/passwd", b ≠ 0) ∧
    ((check_path (bytes "/../etc/passwd" ++ [0]) = false ↔ path_rejected (bytes "/../etc/passwd")) ∧
     (check_path (bytes "/../etc/passwd" ++ [0]) = true ↔ ¬ path_rejected (bytes "/../etc/passwd"))) :=
  ⟨by decide, check_path_false_iff (bytes "/../etc/passwd") (by decide)⟩

/-! ## `fixup_status_header` -/

theorem mrb_http2_get_nv_id_lt (nva : List nghttp2_nv) (key : List Nat) (k : Nat)
    (h : mrb_http2_get_nv_id nva key = some k) : k < nva.length := by
  induction nva generalizing k with
  | nil => simp [mrb_http2_get_nv_id] at h
  | cons nv rest ih =>
    by_cases hn : nv.name = key
    · simp [mrb_http2_get_nv_id, hn] at h
      subst h
      simp
    · simp only [mrb_http2_get_nv_id, hn, if_false, Option.map_eq_some'] at h
      obtain ⟨j, hj, rfl⟩ := h
      have := ih j hj
      simp; omega

theorem mrb_http2_get_nv_id_name (nva : List nghttp2_nv) (key : List Nat) (k : Nat)
    (d : nghttp2_nv) (h : mrb_http2_get_nv_id nva key = some k) :
    (nva.getD k d).name = key := by
  induction nva generalizing k with
  | nil => simp [mrb_http2_get_nv_id] at h
  | cons nv rest ih =>
    by_cases hn : nv.name = key
    · simp [mrb_http2_get_nv_id, hn] at h
      subst h
      simpa using hn
    · simp only [mrb_http2_get_nv_id, hn, if_false, Option.map_eq_some'] at h
      obtain ⟨j, hj, rfl⟩ := h
      simpa using ih j hj

/-- C2. For every response header list and every status line, after
`fixup_status_header` the list is non-empty and its entry at index 0 is named
`:status`. -/
theorem fixup_status_header_status_first (r : request_rec) :
    (fixup_status_header r).reshdrs ≠ [] ∧
    ((fixup_status_header r).reshdrs.head?).map nghttp2_nv.name = some (bytes ":status") := by
  unfold fixup_status_header
  cases hr : r.reshdrs with
  | nil => simp [MRB_HTTP2_CREATE_NV_CS]
  | cons first rest =>
    cases hi : mrb_http2_get_nv_id (first :: rest) (bytes ":status") with
    | none => simp [MRB_HTTP2_CREATE_NV_CS]
    | some k =>
      have hname := mrb_http2_get_nv_id_name _ _ _ first hi
      have hlt := mrb_http2_get_nv_id_lt _ _ _ hi
      cases k with
      | zero =>
        simp [hr] 
        simpa using hname
      | succ j =>
        simp only [List.length_cons, Nat.add_lt_add_iff_right] at hlt
        simp only [List.getD_cons_succ] at hname
        rw [List.getD_eq_getElem?_getD] at hname
        simp [List.getD_cons_succ, List.getElem?_append_left hlt, hname]

/-! ## `percent_decode` -/

theorem take_append_getElem_singleton (l : List Nat) (i : Nat) (h : i < l.length) :
    l.take i ++ [l[i]] = l.take (i + 1) := by
  rw [List.take_succ, List.getElem?_eq_getElem h]; rfl

theorem percent_decode_loop_plain (s tail : List Nat) (hs : 37 ∉ s) (fuel i : Nat)
    (hi : i ≤ s.length - 2) (hf : s.length - 2 - i ≤ fuel) :
    percent_decode_loop (s ++ tail) s.length fuel i (s.take i)
      = some (s.length - 2, s.take (s.length - 2)) := by
  induction fuel generalizing i with
  | zero =>
    have : i = s.length - 2 := by omega
    subst this
    simp [percent_decode_loop]
  | succ f ih =>
    by_cases hlt : i < s.length - 2
    · have h0 : i < s.length := by omega
      have h1 : i + 1 < s.length := by omega
      have h2 : i + 2 < s.length := by omega
      have e0 : (s ++ tail)[i]? = some s[i] := by
        rw [List.getElem?_append_left h0, List.getElem?_eq_getElem h0]
      have e1 : (s ++ tail)[i + 1]? = some s[i + 1] := by
        rw [List.getElem?_append_left h1, List.getElem?_eq_getElem h1]
      have e2 : (s ++ tail)[i + 2]? = some s[i + 2] := by
        rw [List.getElem?_append_left h2, List.getElem?_eq_getElem h2]
      have hne : s[i] ≠ 37 := fun e => hs (e ▸ List.getElem_mem h0)
      have ht : s.take i ++ [s[i]] = s.take (i + 1) := take_append_getElem_singleton s i h0
      rw [percent_decode_loop, if_pos hlt, e0, e1, e2]
      simp only [hne, ne_eq, not_false_eq_true, true_or, if_true, ht]
      exact ih (i + 1) (by omega) (by omega)
    · have : i = s.length - 2 := by omega
      subst this
      simp [percent_decode_loop]

/-- C4. Percent-decoding is the identity on input without `%`: for every byte
string `s` of any length that contains no `%` (whatever memory follows it),
`percent_decode` returns a buffer holding exactly `s` followed by the
terminating NUL. -/
theorem percent_decode_plain (s tail : List Nat) (hs : 37 ∉ s) :
    percent_decode (s ++ tail) s.length = some (s ++ [0]) := by
  unfold percent_decode
  by_cases h3 : s.length > 3
  · have hloop := percent_decode_loop_plain s tail hs s.length 0 (by omega) (by omega)
    simp only [List.take_zero] at hloop
    have h0 : s.length - 2 < s.length := by omega
    have h1 : s.length - 2 + 1 < s.length := by omega
    have e0 : (s ++ tail)[s.length - 2]? = some s[s.length - 2] := by
      rw [List.getElem?_append_left h0, List.getElem?_eq_getElem h0]
    have e1 : (s ++ tail)[s.length - 2 + 1]? = some s[s.length - 2 + 1] := by
      rw [List.getElem?_append_left h1, List.getElem?_eq_getElem h1]
    rw [if_pos h3, hloop]
    simp only [e0, e1]
    have this : s.take (s.length - 2) ++ [s[s.length - 2], s[s.length - 2 + 1]] = s := by
      have t3 : s.take (s.length - 2 + 1 + 1) = s := List.take_of_length_le (by omega)
      calc s.take (s.length - 2) ++ [s[s.length - 2], s[s.length - 2 + 1]]
          = (s.take (s.length - 2) ++ [s[s.length - 2]]) ++ [s[s.length - 2 + 1]] := by
            rw [List.append_assoc]; rfl
        _ = s.take (s.length - 2 + 1) ++ [s[s.length - 2 + 1]] := by
            rw [take_append_getElem_singleton s _ h0]
        _ = s.take (s.length - 2 + 1 + 1) := take_append_getElem_singleton s _ h1
        _ = s := t3
    rw [this]
  · rw [if_neg h3]
    simp

/-- C4 witness: the three-byte string `a/b` decodes to itself. -/
theorem percent_decode_plain_witness :
    37 ∉ bytes "a/b" ∧
    percent_decode (bytes "a/b" ++ []) (bytes "a/b").length = some (bytes "a/b" ++ [0]) :=
  ⟨by decide, percent_decode_plain (bytes "a/b") [] (by decide)⟩

/-- C3. The code at the failing inputs: the three-byte encoding `%41` of `A` is
returned undecoded, and for the path part `/%41` of `/%41?x` (the encoding
`/%41` of `/A`, ending in an escape and followed in memory by `?x`) the two
bytes after the input are copied into the result. -/
theorem percent_decode_escape_not_decoded :
    percent_encoding (bytes "A") (bytes "%41") ∧
    percent_decode (bytes "%41") 3 = some (bytes "%41" ++ [0]) ∧
    percent_encoding (bytes "/A") (bytes "/%41") ∧
    percent_decode (bytes "/%41?x") 4 = some (bytes "/A?x" ++ [0]) := by
  refine ⟨?_, by decide, ?_, by decide⟩
  · exact percent_encoding.cons 65 [] [37, 52, 49] []
      (encodes_byte.escape 65 52 49 (by decide) (by decide) (by decide)) percent_encoding.nil
  · exact percent_encoding.cons 47 [65] [47] [37, 52, 49] (encodes_byte.literal 47)
      (percent_encoding.cons 65 [] [37, 52, 49] []
        (encodes_byte.escape 65 52 49 (by decide) (by decide) (by decide)) percent_encoding.nil)

/-! ## Request-body accumulation -/

theorem to_int64_small (x : Int) (h0 : 0 ≤ x) (h1 : x < 9223372036854775808) : to_int64 x = x := by
  unfold to_int64; omega

theorem to_size_t_natCast (n : Nat) (h : n < 18446744073709551616) : to_size_t (n : Int) = n := by
  unfold to_size_t; omega

theorem realloc_length (junk : Nat) (data : List Nat) (n : Nat) :
    (realloc junk data n).length = n := by
  simp [realloc]; omega

theorem realloc_take (junk : Nat) (data : List Nat) (n k : Nat) (hk : k ≤ n)
    (hd : k ≤ data.length) : (realloc junk data n).take k = data.take k := by
  simp only [realloc, List.take_take, min_eq_left hk]
  rw [List.take_append_of_le_length hd]

theorem length_one_eq_singleton (l : List Nat) (h : l.length = 1) : ∃ x, l = [x] := by
  match l, h with
  | [x], _ => exact ⟨x, rfl⟩

theorem set_last_append (l : List Nat) (x y : Nat) (n : Nat) (h : l.length = n) :
    (l ++ [x]).set n y = l ++ [y] := by
  subst h
  induction l with
  | nil => rfl
  | cons a t ih => simp [List.set, ih]

theorem data_chunk_step (junk : Nat) (rst_rv : Int) (s : http2_stream_data) (d c : List Nat)
    (hinv : body_holds s d)
    (hB : d.length + c.length < 16777216) :
    server_on_data_chunk_recv_callback junk rst_rv s c =
      ({ s with request_body := some ⟨d ++ c ++ [0], ((d.length + c.length : Nat) : Int),
          d.length + c.length, false⟩ }, [], 0) := by
  obtain ⟨hlast, hlen, hpos, hdata⟩ := hinv
  have hdl : d.length ≤ (current_body s).data.length := by
    have := congrArg List.length hdata
    simp at this; omega
  unfold server_on_data_chunk_recv_callback
  simp only [hlast, hlen, hpos, Bool.false_eq_true, if_false]
  have e1 : to_int64 ((d.length : Int) + (c.length : Int)) = ((d.length + c.length : Nat) : Int) := by
    rw [to_int64_small] <;> omega
  have hmax : ¬ (((d.length + c.length : Nat) : Int) ≥ MRB_HTTP2_MAX_POST_DATA_SIZE) := by
    have : MRB_HTTP2_MAX_POST_DATA_SIZE = 16777216 := by
      unfold MRB_HTTP2_MAX_POST_DATA_SIZE; rfl
    rw [this]; omega
  simp only [e1, hmax, if_false]
  have e2 : to_size_t (((d.length + c.length : Nat) : Int) + 1) = d.length + c.length + 1 := by
    have := to_size_t_natCast (d.length + c.length + 1) (by omega)
    simpa using this
  have e3 : to_size_t (((d.length + c.length : Nat) : Int) - (d.length : Int)) = c.length := by
    unfold to_size_t; omega
  have e4 : to_size_t ((d.length + c.length : Nat) : Int) = d.length + c.length :=
    to_size_t_natCast _ (by omega)
  simp only [e2, e3, e4]
  have hD := realloc_take junk (current_body s).data (d.length + c.length + 1) d.length
    (by omega) hdl
  have hL := realloc_length junk (current_body s).data (d.length + c.length + 1)
  rw [hdata] at hD
  generalize realloc junk _ (d.length + c.length + 1) = D at hD hL
  obtain ⟨x, hx⟩ := length_one_eq_singleton (D.drop (d.length + c.length)) (by simp [hL])
  have hm : memcpy_at D d.length c c.length = (d ++ c) ++ [x] := by
    simp [memcpy_at, hD, hx]
  rw [hm, set_last_append (d ++ c) x 0 (d.length + c.length) (by simp)]


theorem max_post_data_size_eq : MRB_HTTP2_MAX_POST_DATA_SIZE = 16777216 := by
  unfold MRB_HTTP2_MAX_POST_DATA_SIZE; rfl

theorem body_holds_after_step (s : http2_stream_data) (d c : List Nat) :
    body_holds { s with request_body := some ⟨d ++ c ++ [0], ((d.length + c.length : Nat) : Int),
          d.length + c.length, false⟩ } (d ++ c) := by
  simp [body_holds, current_body, ← List.append_assoc]

theorem data_chunk_truncating_step (junk : Nat) (rst_rv : Int) (s : http2_stream_data)
    (d c : List Nat) (hinv : body_holds s d) (hB : 16777216 ≤ d.length + c.length)
    (hd : d.length < 16777216) (hc : c.length < 4611686018427387904) :
    server_on_data_chunk_recv_callback junk rst_rv s c =
      ({ s with request_body := some ({ (current_body s) with len := MRB_HTTP2_MAX_POST_DATA_SIZE, last := true }) },
        [Event.nghttp2_submit_rst_stream s.stream_id rst_rv],
        if rst_rv ≠ 0 then NGHTTP2_ERR_CALLBACK_FAILURE else 0) := by
  obtain ⟨hlast, hlen, hpos, hdata⟩ := hinv
  unfold server_on_data_chunk_recv_callback
  simp only [hlast, hlen, Bool.false_eq_true, if_false]
  have e1 : to_int64 ((d.length : Int) + (c.length : Int)) = ((d.length + c.length : Nat) : Int) := by
    rw [to_int64_small] <;> omega
  have hmax : ((d.length + c.length : Nat) : Int) ≥ MRB_HTTP2_MAX_POST_DATA_SIZE := by
    rw [max_post_data_size_eq]; omega
  simp only [e1, hmax, if_true]
  split <;> rfl

theorem data_chunk_after_last (junk : Nat) (rst_rv : Int) (s : http2_stream_data)
    (c : List Nat) (hlast : (current_body s).last = true) :
    server_on_data_chunk_recv_callback junk rst_rv s c =
      ({ s with request_body := some (current_body s) },
        [Event.nghttp2_submit_rst_stream s.stream_id rst_rv],
        if rst_rv ≠ 0 then NGHTTP2_ERR_CALLBACK_FAILURE else 0) := by
  unfold server_on_data_chunk_recv_callback
  simp only [hlast, if_true]
  split <;> rfl

theorem deliver_chunks_append (junk : Nat) (s : http2_stream_data) (a b : List delivery) :
    deliver_chunks junk s (a ++ b) =
      ((deliver_chunks junk (deliver_chunks junk s a).1 b).1,
        (deliver_chunks junk s a).2 ++ (deliver_chunks junk (deliver_chunks junk s a).1 b).2) := by
  induction a generalizing s with
  | nil => simp [deliver_chunks]
  | cons d rest ih => simp [deliver_chunks, ih]

theorem concat_chunks_append (a b : List delivery) :
    concat_chunks (a ++ b) = concat_chunks a ++ concat_chunks b := by
  induction a with
  | nil => rfl
  | cons d rest ih => simp [concat_chunks, ih]

theorem deliver_chunks_holds (junk : Nat) (chunks : List delivery) (s : http2_stream_data)
    (d : List Nat) (hinv : body_holds s d)
    (hB : d.length + (concat_chunks chunks).length < 16777216) :
    body_holds (deliver_chunks junk s chunks).1 (d ++ concat_chunks chunks) ∧
    (deliver_chunks junk s chunks).2 = [] ∧
    (deliver_chunks junk s chunks).1.stream_id = s.stream_id := by
  induction chunks generalizing s d with
  | nil => simpa [deliver_chunks, concat_chunks] using hinv
  | cons c rest ih =>
    simp only [concat_chunks, List.length_append] at hB
    have hstep := data_chunk_step junk c.rst_rv s d c.data hinv (by omega)
    have := ih _ (d ++ c.data) (body_holds_after_step s d c.data) (by simp; omega)
    simp only [deliver_chunks, hstep, concat_chunks, List.nil_append]
    simpa [List.append_assoc] using this

theorem deliver_chunks_after_last (junk : Nat) (post : List delivery) (s : http2_stream_data)
    (hlast : (current_body s).last = true) :
    current_body (deliver_chunks junk s post).1 = current_body s ∧
    (deliver_chunks junk s post).2 = rst_events s.stream_id post := by
  induction post generalizing s with
  | nil => simp [deliver_chunks, rst_events]
  | cons c rest ih =>
    have hstep := data_chunk_after_last junk c.rst_rv s c.data hlast
    have := ih { s with request_body := some (current_body s) } (by simpa [current_body] using hlast)
    simp only [deliver_chunks, hstep]
    constructor
    · rw [this.1]; simp [current_body]
    · rw [this.2]; simp [rst_events]

theorem deliver_chunks_truncate (junk : Nat) (s : http2_stream_data)
    (pre : List delivery) (c : delivery) (post : List delivery)
    (hs : s.request_body = none)
    (hpre : (concat_chunks pre).length < 16777216)
    (hc : 16777216 ≤ (concat_chunks pre).length + c.data.length)
    (hsz : c.data.length < 4611686018427387904) :
    (current_body (deliver_chunks junk s (pre ++ c :: post)).1).last = true ∧
    (current_body (deliver_chunks junk s (pre ++ c :: post)).1).len = 16777216 ∧
    (current_body (deliver_chunks junk s (pre ++ c :: post)).1).pos = (concat_chunks pre).length ∧
    (current_body (deliver_chunks junk s (pre ++ c :: post)).1).data.take (concat_chunks pre).length
      = concat_chunks pre ∧
    (deliver_chunks junk s (pre ++ c :: post)).2 = rst_events s.stream_id (c :: post) := by
  have h0 : body_holds s [] := by simp [body_holds, current_body, hs]
  obtain ⟨hinv, hev, hid⟩ := deliver_chunks_holds junk pre s [] h0 (by simpa using hpre)
  simp only [List.nil_append] at hinv
  have hstep := data_chunk_truncating_step junk c.rst_rv _ _ c.data hinv hc hpre hsz
  have hpost := deliver_chunks_after_last junk post
    { (deliver_chunks junk s pre).1 with request_body := some ({ (current_body (deliver_chunks junk s pre).1) with len := MRB_HTTP2_MAX_POST_DATA_SIZE, last := true }) }
    (by simp [current_body])
  obtain ⟨_, hlen, hpos, hdata⟩ := hinv
  rw [deliver_chunks_append]
  simp only [deliver_chunks, hstep, hev, List.nil_append]
  rw [hpost.1, hpost.2]
  simp [current_body, rst_events, hid, max_post_data_size_eq]
  simp [current_body] at hpos hdata
  exact ⟨hpos, hdata⟩

theorem deliver_chunks_exact (junk : Nat) (rest : List delivery) (s : http2_stream_data)
    (d : List Nat) (c : delivery) (hinv : body_holds s d)
    (hB : d.length + (concat_chunks (c :: rest)).length < 16777216) :
    deliver_chunks junk s (c :: rest) =
      ({ s with request_body := some ⟨d ++ concat_chunks (c :: rest) ++ [0],
          ((d.length + (concat_chunks (c :: rest)).length : Nat) : Int),
          d.length + (concat_chunks (c :: rest)).length, false⟩ }, []) := by
  induction rest generalizing s d c with
  | nil =>
    simp only [concat_chunks, List.append_nil] at hB ⊢
    have hstep := data_chunk_step junk c.rst_rv s d c.data hinv hB
    simp [deliver_chunks, hstep]
  | cons c2 rest ih =>
    have hB2 := hB
    simp only [concat_chunks, List.length_append] at hB2
    have hstep := data_chunk_step junk c.rst_rv s d c.data hinv (by omega)
    have := ih _ (d ++ c.data) c2 (body_holds_after_step s d c.data)
      (by simp only [concat_chunks, List.length_append]; omega)
    rw [deliver_chunks, hstep]
    simp only [this, List.nil_append]
    simp [concat_chunks, List.append_assoc, Nat.add_assoc]

theorem concat_chunks_replicate_length (n : Nat) (d : delivery) :
    (concat_chunks (List.replicate n d)).length = n * d.data.length := by
  induction n with
  | zero => simp [concat_chunks]
  | succ k ih => simp [List.replicate_succ, concat_chunks, ih]; ring

theorem countP_rst_events (id : Int) (ds : List delivery) :
    (rst_events id ds).countP Event.is_rst = ds.length := by
  induction ds with
  | nil => rfl
  | cons d rest ih =>
    simp only [rst_events, List.map_cons, List.length_cons] at ih ⊢
    rw [List.countP_cons_of_pos _ _ (by rfl), ih]

/-- C5. Deliveries to a stream without a body record, at least one, totalling
`B < 2^24` bytes: the body buffer is the concatenation of the chunks in delivery
order followed by NUL (so the byte at offset `B` is NUL), recorded length and
write position are `B`, the body is not marked truncated, and no event at all
happened, in particular no stream reset was submitted. -/
theorem request_body_accumulates (junk : Nat) (s : http2_stream_data)
    (chunks : List delivery) (hs : s.request_body = none) (hne : chunks ≠ [])
    (hB : (concat_chunks chunks).length < 16777216) :
    ∃ b, (deliver_chunks junk s chunks).1.request_body = some b ∧
      b.data = concat_chunks chunks ++ [0] ∧
      b.data[(concat_chunks chunks).length]? = some 0 ∧
      b.len = ((concat_chunks chunks).length : Int) ∧
      b.pos = (concat_chunks chunks).length ∧
      b.last = false ∧
      (deliver_chunks junk s chunks).2 = [] := by
  cases chunks with
  | nil => exact absurd rfl hne
  | cons c rest =>
    have h0 : body_holds s [] := by simp [body_holds, current_body, hs]
    have := deliver_chunks_exact junk rest s [] c h0 (by simpa using hB)
    rw [this]
    refine ⟨_, rfl, ?_, ?_, ?_, ?_, rfl, rfl⟩
    · simp
    · simp
    · simp
    · simp

/-- C5 witness: three chunks `[1,2,3]`, `[]`, `[4,5]` delivered to a new
stream. -/
theorem request_body_accumulates_witness :
    (create_http2_stream_data 1).request_body = none ∧
    ([⟨[1, 2, 3], 0⟩, ⟨[], 0⟩, ⟨[4, 5], 0⟩] : List delivery) ≠ [] ∧
    (concat_chunks [⟨[1, 2, 3], 0⟩, ⟨[], 0⟩, ⟨[4, 5], 0⟩]).length < 16777216 ∧
    ∃ b, (deliver_chunks 99 (create_http2_stream_data 1)
        [⟨[1, 2, 3], 0⟩, ⟨[], 0⟩, ⟨[4, 5], 0⟩]).1.request_body = some b ∧
      b.data = concat_chunks [⟨[1, 2, 3], 0⟩, ⟨[], 0⟩, ⟨[4, 5], 0⟩] ++ [0] ∧
      b.data[(concat_chunks [⟨[1, 2, 3], 0⟩, ⟨[], 0⟩, ⟨[4, 5], 0⟩]).length]? = some 0 ∧
      b.len = ((concat_chunks [⟨[1, 2, 3], 0⟩, ⟨[], 0⟩, ⟨[4, 5], 0⟩]).length : Int) ∧
      b.pos = (concat_chunks [⟨[1, 2, 3], 0⟩, ⟨[], 0⟩, ⟨[4, 5], 0⟩]).length ∧
      b.last = false ∧
      (deliver_chunks 99 (create_http2_stream_data 1)
        [⟨[1, 2, 3], 0⟩, ⟨[], 0⟩, ⟨[4, 5], 0⟩]).2 = [] :=
  ⟨rfl, by simp, by decide,
    request_body_accumulates 99 (create_http2_stream_data 1)
      [⟨[1, 2, 3], 0⟩, ⟨[], 0⟩, ⟨[4, 5], 0⟩] rfl (by simp) (by decide)⟩

/-- C6, as stated, fails: 1024 chunks of 16384 bytes (16 MiB in total) followed
by one more one-byte chunk, every reset submission accepted.  The stream is
marked truncated and two stream resets are submitted, not one. -/
theorem reset_submitted_twice :
    (current_body (deliver_chunks 0 (create_http2_stream_data 1)
      (List.replicate 1023 ⟨List.replicate 16384 0, 0⟩ ++
        ⟨List.replicate 16384 0, 0⟩ :: [⟨[1], 0⟩])).1).last = true ∧
    (deliver_chunks 0 (create_http2_stream_data 1)
      (List.replicate 1023 ⟨List.replicate 16384 0, 0⟩ ++
        ⟨List.replicate 16384 0, 0⟩ :: [⟨[1], 0⟩])).2.countP Event.is_rst = 2 ∧
    ¬ (deliver_chunks 0 (create_http2_stream_data 1)
      (List.replicate 1023 ⟨List.replicate 16384 0, 0⟩ ++
        ⟨List.replicate 16384 0, 0⟩ :: [⟨[1], 0⟩])).2.countP Event.is_rst = 1 := by
  have h := deliver_chunks_truncate 0 (create_http2_stream_data 1)
    (List.replicate 1023 ⟨List.replicate 16384 0, 0⟩) ⟨List.replicate 16384 0, 0⟩ [⟨[1], 0⟩] rfl
    (by rw [concat_chunks_replicate_length]; simp only [List.length_replicate]; decide)
    (by rw [concat_chunks_replicate_length]; simp only [List.length_replicate]; decide)
    (by simp only [List.length_replicate]; decide)
  obtain ⟨h1, _, _, _, h5⟩ := h
  have hc := countP_rst_events (create_http2_stream_data 1).stream_id
    [⟨List.replicate 16384 0, 0⟩, ⟨[1], 0⟩]
  rw [← h5] at hc
  refine ⟨h1, hc, ?_⟩
  rw [hc]; decide

/-- C6 amended. When the running total first reaches the 16 MiB limit at chunk
`c` (chunks before it total less than 2^24 bytes, `c` is shorter than 2^62
bytes), the stream is marked truncated with recorded length 2^24, the bytes
accumulated before `c` are kept, and stream resets are submitted once by `c`
and once more by every chunk delivered after it: `1 + post.length` in all. -/
theorem reset_per_chunk_from_truncation (junk : Nat) (s : http2_stream_data)
    (pre : List delivery) (c : delivery) (post : List delivery)
    (hs : s.request_body = none)
    (hpre : (concat_chunks pre).length < 16777216)
    (hc : 16777216 ≤ (concat_chunks pre).length + c.data.length)
    (hsz : c.data.length < 4611686018427387904) :
    (current_body (deliver_chunks junk s (pre ++ c :: post)).1).last = true ∧
    (current_body (deliver_chunks junk s (pre ++ c :: post)).1).len = 16777216 ∧
    (current_body (deliver_chunks junk s (pre ++ c :: post)).1).data.take
      (concat_chunks pre).length = concat_chunks pre ∧
    (deliver_chunks junk s (pre ++ c :: post)).2 = rst_events s.stream_id (c :: post) ∧
    (deliver_chunks junk s (pre ++ c :: post)).2.countP Event.is_rst = 1 + post.length := by
  obtain ⟨h1, h2, _, h4, h5⟩ := deliver_chunks_truncate junk s pre c post hs hpre hc hsz
  refine ⟨h1, h2, h4, h5, ?_⟩
  rw [h5, countP_rst_events]; simp; omega

/-- C6 amended, witness: 1024 chunks of 16384 bytes and no chunk after the
truncating one, so exactly one reset. -/
theorem reset_per_chunk_from_truncation_witness :
    (create_http2_stream_data 1).request_body = none ∧
    (concat_chunks (List.replicate 1023 ⟨List.replicate 16384 0, 0⟩)).length < 16777216 ∧
    16777216 ≤ (concat_chunks (List.replicate 1023 ⟨List.replicate 16384 0, 0⟩)).length +
      (⟨List.replicate 16384 0, 0⟩ : delivery).data.length ∧
    (current_body (deliver_chunks 0 (create_http2_stream_data 1)
      (List.replicate 1023 ⟨List.replicate 16384 0, 0⟩ ++
        ⟨List.replicate 16384 0, 0⟩ :: [])).1).last = true ∧
    (deliver_chunks 0 (create_http2_stream_data 1)
      (List.replicate 1023 ⟨List.replicate 16384 0, 0⟩ ++
        ⟨List.replicate 16384 0, 0⟩ :: [])).2.countP Event.is_rst
      = 1 + ([] : List delivery).length :=
  have hpre : (concat_chunks (List.replicate 1023 ⟨List.replicate 16384 0, 0⟩)).length
      < 16777216 := by
    rw [concat_chunks_replicate_length]; simp only [List.length_replicate]; decide
  have hc : 16777216 ≤ (concat_chunks (List.replicate 1023 ⟨List.replicate 16384 0, 0⟩)).length +
      (⟨List.replicate 16384 0, 0⟩ : delivery).data.length := by
    rw [concat_chunks_replicate_length]; simp only [List.length_replicate]; decide
  have h := reset_per_chunk_from_truncation 0 (create_http2_stream_data 1)
    (List.replicate 1023 ⟨List.replicate 16384 0, 0⟩) ⟨List.replicate 16384 0, 0⟩ [] rfl
    hpre hc (by simp only [List.length_replicate]; decide)
  ⟨rfl, hpre, hc, h.1, h.2.2.2.2⟩

/-! ## Events of the pipeline -/

theorem emits_only_refl (P : Event → Prop) (w : World) : emits_only P w w :=
  ⟨[], by simp, by simp⟩

theorem emits_only_trans {P : Event → Prop} {a b c : World}
    (h1 : emits_only P a b) (h2 : emits_only P b c) : emits_only P a c := by
  obtain ⟨e1, t1, p1⟩ := h1
  obtain ⟨e2, t2, p2⟩ := h2
  refine ⟨e1 ++ e2, by rw [t2, t1, List.append_assoc], ?_⟩
  intro e he
  rcases List.mem_append.mp he with h | h
  · exact p1 e h
  · exact p2 e h

theorem emits_only_mono {P Q : Event → Prop} {a b : World} (h : emits_only P a b)
    (hPQ : ∀ e, P e → Q e) : emits_only Q a b := by
  obtain ⟨evs, t, p⟩ := h
  exact ⟨evs, t, fun e he => hPQ e (p e he)⟩

theorem emits_only_same_trace {P : Event → Prop} {a b : World} (c : World)
    (h : emits_only P a b) (hc : c.trace = b.trace) : emits_only P a c := by
  obtain ⟨evs, t, p⟩ := h
  exact ⟨evs, by rw [hc, t], p⟩

theorem emits_only_emit {P : Event → Prop} {a b : World} (e : Event)
    (h : emits_only P a b) (he : P e) : emits_only P a (b.emit e) := by
  obtain ⟨evs, t, p⟩ := h
  refine ⟨evs ++ [e], by simp [World.emit, t], ?_⟩
  intro x hx
  rcases List.mem_append.mp hx with h | h
  · exact p x h
  · simp at h; subst h; exact he

theorem emits_only_set_r {P : Event → Prop} {a b : World} (r : request_rec)
    (h : emits_only P a b) : emits_only P a (b.set_r r) :=
  emits_only_same_trace _ h rfl

theorem emits_only_set_stream {P : Event → Prop} {a b : World} (s : http2_stream_data)
    (h : emits_only P a b) : emits_only P a (b.set_stream s) :=
  emits_only_same_trace _ h rfl

theorem emits_only_set_phase {P : Event → Prop} {a b : World} (p : phase_t)
    (h : emits_only P a b) : emits_only P a (b.set_phase p) :=
  emits_only_same_trace _ h rfl

theorem emits_only_set_pipe {P : Event → Prop} {a b : World} (p : List Nat)
    (h : emits_only P a b) : emits_only P a (b.set_pipe p) :=
  emits_only_same_trace _ h rfl

theorem emits_only_set_view {P : Event → Prop} {a b : World} (v : hook_view)
    (h : emits_only P a b) : emits_only P a (b.set_view v) :=
  emits_only_same_trace _ h rfl

theorem emits_only_set_upstream_handles {P : Event → Prop} {a b : World} (x y : Bool)
    (h : emits_only P a b) : emits_only P a (b.set_upstream_handles x y) :=
  emits_only_same_trace _ h rfl

theorem emits_only_callback {P : Event → Prop} {a b : World} (env : Env) (flag : Bool)
    (cb : cb_id) (h : emits_only P a b) (hcb : P (Event.yield cb)) :
    emits_only P a (callback_ruby_block env b flag cb) := by
  unfold callback_ruby_block
  dsimp only
  by_cases h1 : flag = false ∨ b.cb_list cb = false
  · rw [if_pos h1]; exact h
  · rw [if_neg h1]
    by_cases h2 : b.ivar cb = true
    · rw [if_pos h2]
      have h3 := emits_only_set_view (env.block cb (b.emit (Event.yield cb)).view)
        (emits_only_emit (Event.yield cb) h hcb)
      by_cases h4 : cb = cb_id.content_cb
      · rw [if_pos h4]; exact emits_only_same_trace _ h3 rfl
      · rw [if_neg h4]; exact h3
    · rw [if_neg h2]; exact h

theorem emits_only_run_fixups {P : Event → Prop} {a b : World} (env : Env)
    (cfg : mrb_http2_config_t) (h : emits_only P a b) (hcb : P (Event.yield cb_id.fixups_cb)) :
    emits_only P a (run_fixups env cfg b) := by
  unfold run_fixups
  by_cases hc : cfg.callback = true
  · rw [if_pos hc]; exact emits_only_callback env _ _ (emits_only_set_phase _ h) hcb
  · rw [if_neg hc]; exact h

theorem emits_only_send {P : Event → Prop} {a b : World} (rcb : read_callback) (env : Env)
    (cfg : mrb_http2_config_t) (nva : List nghttp2_nv) (h : emits_only P a b)
    (hP : ∀ e, e.in_send = true → P e) :
    emits_only P a (send_response_with rcb env cfg b nva).1 := by
  unfold send_response_with
  dsimp only
  have h1 := emits_only_emit
    (Event.nghttp2_submit_response b.stream.stream_id nva rcb env.submit_response_rv) h
    (hP _ rfl)
  by_cases hrv : env.submit_response_rv ≠ 0
  · rw [if_pos hrv]
    exact emits_only_emit _ (emits_only_set_r _ h1) (hP _ rfl)
  · rw [if_neg hrv]
    by_cases hcb : cfg.callback = true
    · rw [if_pos hcb]
      exact emits_only_emit _ (emits_only_set_r _
        (emits_only_callback env _ _ (emits_only_set_phase _ h1) (hP _ rfl))) (hP _ rfl)
    · rw [if_neg hcb]
      exact emits_only_emit _ (emits_only_set_r _ h1) (hP _ rfl)

theorem emits_only_pipe_failed {P : Event → Prop} {a b : World} (env : Env)
    (h : emits_only P a b) (hP : ∀ id rv, P (Event.nghttp2_submit_rst_stream id rv)) :
    emits_only P a (pipe_failed env b).1 := by
  unfold pipe_failed
  dsimp only
  by_cases h1 : env.submit_rst_stream_rv ≠ 0
  · rw [if_pos h1]; exact emits_only_emit _ h (hP _ _)
  · rw [if_neg h1]; exact emits_only_emit _ h (hP _ _)

theorem in_send_in_error_reply (e : Event) (h : e.in_send = true) : e.in_error_reply = true := by
  cases e with
  | yield cb => cases cb <;> first | rfl | (simp [Event.in_send] at h)
  | _ => first | rfl | (simp [Event.in_send] at h)

theorem error_reply_tail (env : Env) (cfg : mrb_http2_config_t) (b : World) :
    emits_only (fun e => e.in_error_reply = true) (b.emit (Event.error_reply b.r.status))
      (error_reply env cfg b).1 := by
  have hS : ∀ e : Event, e.in_send = true → e.in_error_reply = true := in_send_in_error_reply
  have h0 := emits_only_refl (fun e : Event => e.in_error_reply = true)
    (b.emit (Event.error_reply b.r.status))
  unfold error_reply
  dsimp only
  split_ifs
  · exact emits_only_pipe_failed env (emits_only_emit _ (emits_only_set_r _ h0) rfl)
      (fun _ _ => rfl)
  · exact emits_only_set_r _ (emits_only_emit _ (emits_only_send _ env cfg _
      (emits_only_run_fixups env cfg (emits_only_set_r _ (emits_only_set_stream _
        (emits_only_emit _ (emits_only_emit _ (emits_only_set_pipe _
          (emits_only_emit _ (emits_only_set_r _ h0) rfl)) rfl) rfl)))
        rfl) hS) rfl)
  · exact emits_only_set_r _ (emits_only_send _ env cfg _
      (emits_only_run_fixups env cfg (emits_only_set_r _ (emits_only_set_stream _
        (emits_only_emit _ (emits_only_emit _ (emits_only_set_pipe _
          (emits_only_emit _ (emits_only_set_r _ h0) rfl)) rfl) rfl)))
        rfl) hS)

theorem emits_only_error_reply {P : Event → Prop} {a b : World} (env : Env)
    (cfg : mrb_http2_config_t) (h : emits_only P a b)
    (hE : P (Event.error_reply b.r.status))
    (hP : ∀ e, e.in_error_reply = true → P e) :
    emits_only P a (error_reply env cfg b).1 :=
  emits_only_trans (emits_only_emit _ h hE) (emits_only_mono (error_reply_tail env cfg b) hP)

theorem reply_result_fst (res : World × Int) : (reply_result res).1 = res.1 := by
  unfold reply_result
  split_ifs <;> rfl

theorem emits_only_reject_with {P : Event → Prop} {a b : World} (env : Env)
    (cfg : mrb_http2_config_t) (status : Nat) (h : emits_only P a b)
    (hE : ∀ st, P (Event.error_reply st))
    (hP : ∀ e, e.in_error_reply = true → P e) :
    emits_only P a (reject_with env cfg b status).1 := by
  unfold reject_with
  rw [reply_result_fst]
  exact emits_only_error_reply env cfg (emits_only_set_r _ h) (hE _) hP

theorem starts_none_of_in_error_reply (e : Event) (h : e.in_error_reply = true) :
    e.starts = none := by
  cases e with
  | call f => simp [Event.in_error_reply, Event.in_send] at h
  | «open» f fd => simp [Event.in_error_reply, Event.in_send] at h
  | _ => rfl

theorem starts_none_of_in_send (e : Event) (h : e.in_send = true) : e.starts = none :=
  starts_none_of_in_error_reply e (in_send_in_error_reply e h)

theorem upstream_reply_quiet {a b : World} (env : Env) (cfg : mrb_http2_config_t)
    (h : emits_only (fun e => e.starts = none) a b) :
    emits_only (fun e => e.starts = none) a (upstream_reply env cfg b).1 := by
  unfold upstream_reply send_upstream_response
  dsimp only
  split_ifs
  · exact emits_only_emit _ (emits_only_send _ env cfg _
      (emits_only_run_fixups env cfg (emits_only_emit _ h rfl) rfl) starts_none_of_in_send) rfl
  · exact emits_only_send _ env cfg _
      (emits_only_run_fixups env cfg (emits_only_emit _ h rfl) rfl) starts_none_of_in_send

theorem finish_pipe_reply_quiet {a b : World} (env : Env) (cfg : mrb_http2_config_t)
    (h : emits_only (fun e => e.starts = none) a b) :
    emits_only (fun e => e.starts = none) a (finish_pipe_reply env cfg b).1 := by
  unfold finish_pipe_reply send_response
  dsimp only
  split_ifs
  · exact emits_only_set_r _ (emits_only_emit _ (emits_only_send _ env cfg _
      (emits_only_run_fixups env cfg (emits_only_set_r _ (emits_only_set_stream _
        (emits_only_emit _ h rfl))) rfl) starts_none_of_in_send) rfl)
  · exact emits_only_set_r _ (emits_only_send _ env cfg _
      (emits_only_run_fixups env cfg (emits_only_set_r _ (emits_only_set_stream _
        (emits_only_emit _ h rfl))) rfl) starts_none_of_in_send)
  · exact emits_only_set_r _ (emits_only_emit _ (emits_only_send _ env cfg _
      (emits_only_run_fixups env cfg (emits_only_set_r _ (emits_only_set_stream _
        (emits_only_emit _ (emits_only_emit _ (emits_only_set_pipe _ h) rfl) rfl))) rfl)
      starts_none_of_in_send) rfl)
  · exact emits_only_set_r _ (emits_only_send _ env cfg _
      (emits_only_run_fixups env cfg (emits_only_set_r _ (emits_only_set_stream _
        (emits_only_emit _ (emits_only_emit _ (emits_only_set_pipe _ h) rfl) rfl))) rfl)
      starts_none_of_in_send)

theorem content_cb_reply_tail (env : Env) (cfg : mrb_http2_config_t) (b : World) :
    emits_only (fun e => e.starts = none) (b.emit (Event.call reply_fn.content_cb_reply))
      (content_cb_reply env cfg b).1 := by
  have h0 := emits_only_refl (fun e : Event => e.starts = none)
    (b.emit (Event.call reply_fn.content_cb_reply))
  unfold content_cb_reply
  dsimp only
  split_ifs
  · exact emits_only_pipe_failed env (emits_only_emit _ h0 rfl) (fun _ _ => rfl)
  · exact finish_pipe_reply_quiet env cfg (emits_only_set_r _
      (emits_only_callback env _ _ (emits_only_set_phase _ (emits_only_set_r _
        (emits_only_set_pipe _ (emits_only_emit _ h0 rfl)))) rfl))
  · exact finish_pipe_reply_quiet env cfg (emits_only_set_r _ (emits_only_set_r _
        (emits_only_set_pipe _ (emits_only_emit _ h0 rfl))))

theorem mruby_reply_tail (env : Env) (cfg : mrb_http2_config_t) (b : World) :
    emits_only (fun e => e.starts = none) (b.emit (Event.call reply_fn.mruby_reply))
      (mruby_reply env cfg b).1 := by
  have h0 := emits_only_refl (fun e : Event => e.starts = none)
    (b.emit (Event.call reply_fn.mruby_reply))
  unfold mruby_reply
  dsimp only
  split_ifs
  · exact emits_only_emit _ h0 rfl
  · exact emits_only_pipe_failed env (emits_only_emit _ (emits_only_emit _ h0 rfl) rfl)
      (fun _ _ => rfl)
  · exact finish_pipe_reply_quiet env cfg (emits_only_set_r _ (emits_only_set_view _
      (emits_only_emit _ (emits_only_set_r _ (emits_only_set_pipe _
        (emits_only_emit _ (emits_only_emit _ h0 rfl) rfl))) rfl)))
  · exact finish_pipe_reply_quiet env cfg (emits_only_set_r _ (emits_only_set_view _
      (emits_only_emit _ (emits_only_set_r _ (emits_only_set_pipe _
        (emits_only_emit _ (emits_only_emit _ h0 rfl) rfl))) rfl)))

theorem send_custom_response_quiet {a b : World} (env : Env) (cfg : mrb_http2_config_t)
    (h : emits_only (fun e => e.starts = none) a b) :
    emits_only (fun e => e.starts = none) a (mrb_http2_send_custom_response env cfg b).1 := by
  unfold mrb_http2_send_custom_response send_response
  dsimp only
  split_ifs
  · exact emits_only_emit _ (emits_only_send _ env cfg _
      (emits_only_run_fixups env cfg (emits_only_set_r _ (emits_only_emit _ h rfl)) rfl)
      starts_none_of_in_send) rfl
  · exact emits_only_send _ env cfg _
      (emits_only_run_fixups env cfg (emits_only_set_r _ (emits_only_emit _ h rfl)) rfl)
      starts_none_of_in_send
  · exact emits_only_emit _ (emits_only_send _ env cfg _
      (emits_only_run_fixups env cfg (emits_only_set_r _ (emits_only_emit _ h rfl)) rfl)
      starts_none_of_in_send) rfl
  · exact emits_only_send _ env cfg _
      (emits_only_run_fixups env cfg (emits_only_set_r _ (emits_only_emit _ h rfl)) rfl)
      starts_none_of_in_send

theorem send_200_response_quiet {a b : World} (env : Env) (cfg : mrb_http2_config_t)
    (h : emits_only (fun e => e.starts = none) a b) :
    emits_only (fun e => e.starts = none) a (mrb_http2_send_200_response env cfg b).1 := by
  unfold mrb_http2_send_200_response send_response
  dsimp only
  split_ifs
  · exact emits_only_emit _ (emits_only_set_r _ (emits_only_send _ env cfg _
      (emits_only_run_fixups env cfg (emits_only_set_r _ (emits_only_emit _ h rfl)) rfl)
      starts_none_of_in_send)) rfl
  · exact emits_only_set_r _ (emits_only_send _ env cfg _
      (emits_only_run_fixups env cfg (emits_only_set_r _ (emits_only_emit _ h rfl)) rfl)
      starts_none_of_in_send)

theorem static_file_reply_tail (env : Env) (cfg : mrb_http2_config_t) (b : World) :
    emits_only (fun e => e.starts = none)
      (b.emit (Event.open b.r.filename (env.open_fd b.r.filename)))
      (static_file_reply env cfg b).1 := by
  have h0 := emits_only_refl (fun e : Event => e.starts = none)
    (b.emit (Event.open b.r.filename (env.open_fd b.r.filename)))
  unfold static_file_reply
  dsimp only
  split_ifs
  · exact emits_only_reject_with env cfg _ h0 (fun _ => rfl) starts_none_of_in_error_reply
  · split
    · exact emits_only_reject_with env cfg _ (emits_only_emit _ (emits_only_set_stream _ h0) rfl)
        (fun _ => rfl) starts_none_of_in_error_reply
    · split_ifs
      · exact send_custom_response_quiet env cfg (emits_only_set_stream _ (emits_only_set_r _
          (emits_only_set_r _ (emits_only_emit _ (emits_only_set_stream _ h0) rfl))))
      · exact send_200_response_quiet env cfg (emits_only_set_stream _ (emits_only_set_r _
          (emits_only_set_r _ (emits_only_emit _ (emits_only_set_stream _ h0) rfl))))
      · exact send_custom_response_quiet env cfg (emits_only_set_stream _ (emits_only_set_r _
          (emits_only_emit _ (emits_only_set_stream _ h0) rfl)))
      · exact send_200_response_quiet env cfg (emits_only_set_stream _ (emits_only_set_r _
          (emits_only_emit _ (emits_only_set_stream _ h0) rfl)))

theorem http_request_done_trace (env : Env) (cfg : mrb_http2_config_t) (w : World)
    (uh : List Nat) (req : Option evhttp_request) :
    (http_request_done env cfg w uh req).trace = w.trace := by
  unfold http_request_done
  cases req with
  | none => rfl
  | some req =>
    dsimp only
    split <;> rfl

theorem read_upstream_response_tail (env : Env) (cfg : mrb_http2_config_t) (b : World)
    (up : mrb_http2_upstream) (host : List Nat) :
    emits_only (fun e => e.starts = none)
      (b.emit (Event.call reply_fn.read_upstream_response))
      (read_upstream_response env cfg b up host).1 := by
  have h0 := emits_only_refl (fun e : Event => e.starts = none)
    (b.emit (Event.call reply_fn.read_upstream_response))
  unfold read_upstream_response
  dsimp only
  split_ifs
  all_goals
    first
    | exact emits_only_set_upstream_handles _ _ h0
    | (refine emits_only_emit _ (emits_only_set_r _ (emits_only_set_upstream_handles _ _ h0)) ?_
       rfl)
    | (refine emits_only_same_trace _ ?_ (http_request_done_trace _ _ _ _ _)
       refine emits_only_emit _ (emits_only_set_r _ (emits_only_set_upstream_handles _ _ h0)) ?_
       rfl)

theorem strategies_run_append (a b : List Event) :
    strategies_run (a ++ b) = strategies_run a ++ strategies_run b := by
  simp [strategies_run, List.filterMap_append]

theorem strategies_run_quiet (evs : List Event) (h : ∀ e ∈ evs, e.starts = none) :
    strategies_run evs = [] := by
  induction evs with
  | nil => rfl
  | cons e rest ih =>
    have he := h e (by simp)
    have hr := ih (fun x hx => h x (by simp [hx]))
    simp only [strategies_run] at hr ⊢
    rw [List.filterMap_cons_none he, hr]

theorem storage_and_access_quiet (env : Env) (cfg : mrb_http2_config_t) (w : World)
    (path : List Nat) :
    emits_only (fun e => e.starts = none) w (storage_and_access env cfg w path) := by
  have h0 := emits_only_refl (fun e : Event => e.starts = none) w
  unfold storage_and_access
  dsimp only
  split_ifs
  · exact emits_only_callback env _ _ (emits_only_set_phase _
      (emits_only_callback env _ _ (emits_only_set_phase _
        (emits_only_set_r _ (emits_only_emit _ h0 rfl))) rfl)) rfl
  · exact emits_only_set_r _ (emits_only_emit _ h0 rfl)

theorem upstream_host_some_iff (cfg : mrb_http2_config_t) (r : request_rec) :
    (upstream_host cfg r).isSome = true ↔ (cfg.upstream = true ∧ host_configured r = true) := by
  unfold upstream_host host_configured
  cases hu : cfg.upstream <;> cases hr : r.upstream with
  | none => simp
  | some up => cases hh : up.host <;> simp [hh]

/-- The events of `dispatch`: one event that starts the selected strategy,
followed by events that start none. -/
theorem dispatch_starts (env : Env) (cfg : mrb_http2_config_t) (w : World) :
    ∃ hd rest, (dispatch env cfg w).1.trace = w.trace ++ hd :: rest ∧
      hd.starts = some (selected_strategy cfg w) ∧ ∀ e ∈ rest, e.starts = none := by
  unfold dispatch
  cases hup : upstream_host cfg w.r with
  | some p =>
    obtain ⟨up, host⟩ := p
    have hsel : selected_strategy cfg w = strategy.upstream_proxy := by
      have := (upstream_host_some_iff cfg w.r).mp (by simp [hup])
      simp [selected_strategy, this]
    have h1 := read_upstream_response_tail env cfg w up host
    have h2 : emits_only (fun e => e.starts = none)
        (w.emit (Event.call reply_fn.read_upstream_response))
        (if (read_upstream_response env cfg w up host).2 ≠ 0 then
          ((read_upstream_response env cfg w up host).1, NGHTTP2_ERR_CALLBACK_FAILURE)
        else
          if (upstream_reply env cfg (read_upstream_response env cfg w up host).1).2 ≠ 0 then
            ((upstream_reply env cfg (read_upstream_response env cfg w up host).1).1,
              NGHTTP2_ERR_CALLBACK_FAILURE)
          else ((upstream_reply env cfg (read_upstream_response env cfg w up host).1).1, 0)).1 := by
      split_ifs
      · exact h1
      · exact upstream_reply_quiet env cfg h1
      · exact upstream_reply_quiet env cfg h1
    obtain ⟨evs, ht, hq⟩ := h2
    refine ⟨Event.call reply_fn.read_upstream_response, evs, ?_, by rw [hsel]; rfl, hq⟩
    simp only [World.emit, List.append_assoc, List.singleton_append] at ht
    exact ht
  | none =>
    have hno : ¬ (cfg.upstream = true ∧ host_configured w.r = true) := by
      intro h
      have := (upstream_host_some_iff cfg w.r).mpr h
      simp [hup] at this
    dsimp only
    by_cases hm : w.r.mruby = true ∨ w.r.shared_mruby = true
    · rw [if_pos hm, reply_result_fst]
      have hsel : selected_strategy cfg w = strategy.embedded_script := by
        simp [selected_strategy, hno, hm]
      obtain ⟨evs, ht, hq⟩ := mruby_reply_tail env cfg (w.set_r (set_status_record w.r HTTP_OK))
      refine ⟨Event.call reply_fn.mruby_reply, evs, ?_, by rw [hsel]; rfl, hq⟩
      simpa [World.emit, World.set_r] using ht
    · rw [if_neg hm]
      by_cases hc : cfg.callback = true ∧ w.cb_list cb_id.content_cb = true
      · rw [if_pos hc, reply_result_fst]
        have hsel : selected_strategy cfg w = strategy.content_hook := by
          simp [selected_strategy, hno, hm, hc]
        obtain ⟨evs, ht, hq⟩ :=
          content_cb_reply_tail env cfg (w.set_r (set_status_record w.r HTTP_OK))
        refine ⟨Event.call reply_fn.content_cb_reply, evs, ?_, by rw [hsel]; rfl, hq⟩
        simpa [World.emit, World.set_r] using ht
      · rw [if_neg hc]
        have hsel : selected_strategy cfg w = strategy.static_file := by
          simp [selected_strategy, hno, hm, hc]
        obtain ⟨evs, ht, hq⟩ := static_file_reply_tail env cfg w
        refine ⟨Event.open w.r.filename (env.open_fd w.r.filename), evs, ?_,
          by rw [hsel]; rfl, hq⟩
        simpa [World.emit] using ht

theorem read_request_trace (env : Env) (cfg : mrb_http2_config_t) (w : World) :
    (read_request env cfg w).trace = w.trace := by
  unfold read_request
  dsimp only
  split_ifs <;> rfl

theorem read_request_stream (env : Env) (cfg : mrb_http2_config_t) (w : World) :
    (read_request env cfg w).stream = w.stream := by
  unfold read_request
  dsimp only
  split_ifs <;> rfl

theorem set_status_record_503 (r : request_rec) :
    (set_status_record r HTTP_SERVICE_UNAVAILABLE).status = 503 := by
  simp [set_status_record, HTTP_SERVICE_UNAVAILABLE]

theorem reject_with_503_events (env : Env) (cfg : mrb_http2_config_t) (w : World)
    (hw : w.trace = []) :
    ∃ rest, (reject_with env cfg w HTTP_SERVICE_UNAVAILABLE).1.trace
        = Event.error_reply 503 :: rest ∧ ∀ e ∈ rest, e.in_error_reply = true := by
  unfold reject_with
  rw [reply_result_fst]
  obtain ⟨evs, ht, hq⟩ := error_reply_tail env cfg
    (w.set_r (set_status_record w.r HTTP_SERVICE_UNAVAILABLE))
  refine ⟨evs, ?_, hq⟩
  rw [ht]
  simp [World.emit, World.set_r, hw, set_status_record_503]

theorem pipeline_events_rejected (env : Env) (cfg : mrb_http2_config_t) (w : World)
    (h : w.stream.request_path = none ∨
      ∃ path, w.stream.request_path = some path ∧ check_path path = false) :
    pipeline_events env cfg w =
      (reject_with env cfg (read_request env cfg { w with trace := [] })
        HTTP_SERVICE_UNAVAILABLE).1.trace := by
  unfold pipeline_events mrb_http2_process_request
  dsimp only
  have hs := read_request_stream env cfg { w with trace := [] }
  rcases h with h | ⟨path, hp, hc⟩
  · have : (read_request env cfg { w with trace := [] }).stream.request_path = none := by
      rw [hs]; exact h
    rw [this]
  · have : (read_request env cfg { w with trace := [] }).stream.request_path = some path := by
      rw [hs]; exact hp
    rw [this]
    simp only [hc, if_true]

theorem pipeline_events_accepted (env : Env) (cfg : mrb_http2_config_t) (w : World)
    (path : List Nat) (hp : w.stream.request_path = some path) (hc : check_path path = true) :
    pipeline_events env cfg w =
      (if (after_access_checker env cfg w path).r.status ≠ 0 ∧
          (after_access_checker env cfg w path).r.status ≠ HTTP_OK then
        reply_result (error_reply env cfg (after_access_checker env cfg w path))
      else dispatch env cfg (after_access_checker env cfg w path)).1.trace := by
  unfold pipeline_events mrb_http2_process_request after_access_checker
  dsimp only
  have hs := read_request_stream env cfg { w with trace := [] }
  have : (read_request env cfg { w with trace := [] }).stream.request_path = some path := by
    rw [hs]; exact hp
  rw [this]
  simp only [hc, Bool.true_eq_false, if_false]

theorem after_access_checker_events (env : Env) (cfg : mrb_http2_config_t) (w : World)
    (path : List Nat) :
    ∀ e ∈ (after_access_checker env cfg w path).trace, e.starts = none := by
  obtain ⟨evs, ht, hq⟩ := storage_and_access_quiet env cfg
    (read_request env cfg { w with trace := [] }) path
  unfold after_access_checker
  rw [ht, read_request_trace]
  simpa using hq

/-- C7. When the request path is missing or fails `check_path`, the run starts
`error_reply` with status 503 and does nothing else: every later event is one
`error_reply` produces, so no filesystem path is computed, the map-to-storage
and access-checker hooks are not invoked, no file is opened and no dispatch
strategy is started. -/
theorem rejected_path_answers_503 (env : Env) (cfg : mrb_http2_config_t) (w : World)
    (h : w.stream.request_path = none ∨
      ∃ path, w.stream.request_path = some path ∧ check_path path = false) :
    ∃ rest, pipeline_events env cfg w = Event.error_reply 503 :: rest ∧
      (∀ e ∈ rest, e.in_error_reply = true) ∧
      (∀ e ∈ pipeline_events env cfg w,
        (∀ f, e ≠ Event.strcat_filename f) ∧
        e ≠ Event.yield cb_id.map_to_storage_cb ∧
        e ≠ Event.yield cb_id.access_checker_cb ∧
        (∀ f fd, e ≠ Event.open f fd) ∧
        (∀ f ok, e ≠ Event.fopen f ok) ∧
        e.starts = none) := by
  rw [pipeline_events_rejected env cfg w h]
  obtain ⟨rest, ht, hq⟩ := reject_with_503_events env cfg
    (read_request env cfg { w with trace := [] }) (by rw [read_request_trace])
  refine ⟨rest, ht, hq, ?_⟩
  rw [ht]
  intro e he
  rcases List.mem_cons.mp he with h1 | h1
  · subst h1
    refine ⟨?_, ?_, ?_, ?_, ?_, rfl⟩ <;> intros <;> simp
  · have hc := hq e h1
    refine ⟨?_, ?_, ?_, ?_, ?_, starts_none_of_in_error_reply e hc⟩
    · intro f hf; subst hf; simp [Event.in_error_reply, Event.in_send] at hc
    · intro hf; subst hf; simp [Event.in_error_reply, Event.in_send] at hc
    · intro hf; subst hf; simp [Event.in_error_reply, Event.in_send] at hc
    · intro f fd hf; subst hf; simp [Event.in_error_reply, Event.in_send] at hc
    · intro f ok hf; subst hf; simp [Event.in_error_reply, Event.in_send] at hc

/-- C7 witness: the request path `/../etc/passwd`. -/
theorem rejected_path_answers_503_witness :
    ((sample_world (some (bytes "/../etc/passwd" ++ [0]))).stream.request_path = none ∨
      ∃ path, (sample_world (some (bytes "/../etc/passwd" ++ [0]))).stream.request_path
        = some path ∧ check_path path = false) ∧
    ∃ rest, pipeline_events sample_env sample_cfg
        (sample_world (some (bytes "/../etc/passwd" ++ [0]))) = Event.error_reply 503 :: rest ∧
      (∀ e ∈ rest, e.in_error_reply = true) ∧
      (∀ e ∈ pipeline_events sample_env sample_cfg
          (sample_world (some (bytes "/../etc/passwd" ++ [0]))),
        (∀ f, e ≠ Event.strcat_filename f) ∧
        e ≠ Event.yield cb_id.map_to_storage_cb ∧
        e ≠ Event.yield cb_id.access_checker_cb ∧
        (∀ f fd, e ≠ Event.open f fd) ∧
        (∀ f ok, e ≠ Event.fopen f ok) ∧
        e.starts = none) :=
  ⟨Or.inr ⟨_, rfl, by decide⟩,
    rejected_path_answers_503 sample_env sample_cfg
      (sample_world (some (bytes "/../etc/passwd" ++ [0]))) (Or.inr ⟨_, rfl, by decide⟩)⟩

theorem pipeline_events_dispatch (env : Env) (cfg : mrb_http2_config_t) (w : World)
    (path : List Nat) (hp : w.stream.request_path = some path) (hc : check_path path = true)
    (hs : (after_access_checker env cfg w path).r.status = 0 ∨
      (after_access_checker env cfg w path).r.status = 200) :
    ∃ hd rest, pipeline_events env cfg w =
        (after_access_checker env cfg w path).trace ++ hd :: rest ∧
      hd.starts = some (selected_strategy cfg (after_access_checker env cfg w path)) ∧
      (∀ e ∈ rest, e.starts = none) ∧
      strategies_run (pipeline_events env cfg w) =
        [selected_strategy cfg (after_access_checker env cfg w path)] := by
  have hno : ¬ ((after_access_checker env cfg w path).r.status ≠ 0 ∧
      (after_access_checker env cfg w path).r.status ≠ HTTP_OK) := by
    unfold HTTP_OK
    rcases hs with h | h <;> simp [h]
  rw [pipeline_events_accepted env cfg w path hp hc, if_neg hno]
  obtain ⟨hd, rest, ht, hh, hq⟩ := dispatch_starts env cfg (after_access_checker env cfg w path)
  refine ⟨hd, rest, ht, hh, hq, ?_⟩
  rw [ht, strategies_run_append,
    strategies_run_quiet _ (after_access_checker_events env cfg w path)]
  have : strategies_run (hd :: rest) = [selected_strategy cfg (after_access_checker env cfg w path)] := by
    have hr := strategies_run_quiet rest hq
    simp only [strategies_run] at hr ⊢
    rw [List.filterMap_cons_some hh, hr]
  simpa using this

theorem pipeline_events_short_circuit (env : Env) (cfg : mrb_http2_config_t) (w : World)
    (path : List Nat) (hp : w.stream.request_path = some path) (hc : check_path path = true)
    (hs : (after_access_checker env cfg w path).r.status ≠ 0 ∧
      (after_access_checker env cfg w path).r.status ≠ 200) :
    ∃ rest, pipeline_events env cfg w =
        (after_access_checker env cfg w path).trace ++
          Event.error_reply (after_access_checker env cfg w path).r.status :: rest ∧
      (∀ e ∈ rest, e.in_error_reply = true) ∧
      strategies_run (pipeline_events env cfg w) = [] := by
  have hyes : (after_access_checker env cfg w path).r.status ≠ 0 ∧
      (after_access_checker env cfg w path).r.status ≠ HTTP_OK := hs
  rw [pipeline_events_accepted env cfg w path hp hc, if_pos hyes, reply_result_fst]
  obtain ⟨evs, ht, hq⟩ := error_reply_tail env cfg (after_access_checker env cfg w path)
  simp only [World.emit, List.append_assoc, List.singleton_append] at ht
  refine ⟨evs, ht, hq, ?_⟩
  rw [ht, strategies_run_append,
    strategies_run_quiet _ (after_access_checker_events env cfg w path)]
  apply strategies_run_quiet
  intro e he
  rcases List.mem_cons.mp he with h1 | h1
  · subst h1; rfl
  · exact starts_none_of_in_error_reply e (hq e h1)

/-- C8. For a request that passes path validation and whose status after the
access-checker phase is 0 or 200, the run starts exactly one dispatch strategy,
the one selected by the first condition that holds in the order upstream proxy,
embedded script, content hook, static file. -/
theorem dispatch_runs_selected_strategy (env : Env) (cfg : mrb_http2_config_t) (w : World)
    (path : List Nat) (hp : w.stream.request_path = some path) (hc : check_path path = true)
    (hs : (after_access_checker env cfg w path).r.status = 0 ∨
      (after_access_checker env cfg w path).r.status = 200) :
    strategies_run (pipeline_events env cfg w) =
      [selected_strategy cfg (after_access_checker env cfg w path)] := by
  obtain ⟨_, _, _, _, _, h⟩ := pipeline_events_dispatch env cfg w path hp hc hs
  exact h

/-- C8 witness: `/index.html` with no upstream, no script flag and no content
hook is served by the static-file strategy. -/
theorem dispatch_runs_selected_strategy_witness :
    (sample_world (some (bytes "/index.html" ++ [0]))).stream.request_path
      = some (bytes "/index.html" ++ [0]) ∧
    check_path (bytes "/index.html" ++ [0]) = true ∧
    ((after_access_checker sample_env sample_cfg
        (sample_world (some (bytes "/index.html" ++ [0])))
        (bytes "/index.html" ++ [0])).r.status = 0 ∨
      (after_access_checker sample_env sample_cfg
        (sample_world (some (bytes "/index.html" ++ [0])))
        (bytes "/index.html" ++ [0])).r.status = 200) ∧
    strategies_run (pipeline_events sample_env sample_cfg
        (sample_world (some (bytes "/index.html" ++ [0])))) =
      [selected_strategy sample_cfg (after_access_checker sample_env sample_cfg
        (sample_world (some (bytes "/index.html" ++ [0]))) (bytes "/index.html" ++ [0]))] :=
  ⟨rfl, by decide, Or.inl (by decide),
    dispatch_runs_selected_strategy sample_env sample_cfg
      (sample_world (some (bytes "/index.html" ++ [0]))) (bytes "/index.html" ++ [0])
      rfl (by decide) (Or.inl (by decide))⟩

/-- C9. After the access-checker phase: if the status is set and is not 200,
the next event is the entry of `error_reply` with that status, only events of
`error_reply` follow and no dispatch strategy is started; if the status is 0 or
200, the next event starts the selected dispatch strategy and exactly that
strategy is started. -/
theorem access_checker_status_decides (env : Env) (cfg : mrb_http2_config_t) (w : World)
    (path : List Nat) (hp : w.stream.request_path = some path) (hc : check_path path = true) :
    (((after_access_checker env cfg w path).r.status ≠ 0 ∧
        (after_access_checker env cfg w path).r.status ≠ 200) →
      ∃ rest, pipeline_events env cfg w =
          (after_access_checker env cfg w path).trace ++
            Event.error_reply (after_access_checker env cfg w path).r.status :: rest ∧
        (∀ e ∈ rest, e.in_error_reply = true) ∧
        strategies_run (pipeline_events env cfg w) = []) ∧
    (((after_access_checker env cfg w path).r.status = 0 ∨
        (after_access_checker env cfg w path).r.status = 200) →
      ∃ hd rest, pipeline_events env cfg w =
          (after_access_checker env cfg w path).trace ++ hd :: rest ∧
        hd.starts = some (selected_strategy cfg (after_access_checker env cfg w path)) ∧
        (∀ e ∈ rest, e.starts = none) ∧
        strategies_run (pipeline_events env cfg w) =
          [selected_strategy cfg (after_access_checker env cfg w path)]) :=
  ⟨pipeline_events_short_circuit env cfg w path hp hc,
    pipeline_events_dispatch env cfg w path hp hc⟩

/-- C9 witness: `/index.html` with an access-checker block that sets status
403. -/
theorem access_checker_status_decides_witness :
    (sample_world (some (bytes "/index.html" ++ [0]))).stream.request_path
      = some (bytes "/index.html" ++ [0]) ∧
    check_path (bytes "/index.html" ++ [0]) = true ∧
    (after_access_checker forbidding_env sample_cfg
      (sample_world (some (bytes "/index.html" ++ [0]))) (bytes "/index.html" ++ [0])).r.status
      = 403 ∧
    ∃ rest, pipeline_events forbidding_env sample_cfg
        (sample_world (some (bytes "/index.html" ++ [0]))) =
        (after_access_checker forbidding_env sample_cfg
          (sample_world (some (bytes "/index.html" ++ [0]))) (bytes "/index.html" ++ [0])).trace ++
          Event.error_reply (after_access_checker forbidding_env sample_cfg
            (sample_world (some (bytes "/index.html" ++ [0])))
            (bytes "/index.html" ++ [0])).r.status :: rest ∧
      (∀ e ∈ rest, e.in_error_reply = true) ∧
      strategies_run (pipeline_events forbidding_env sample_cfg
        (sample_world (some (bytes "/index.html" ++ [0])))) = [] :=
  ⟨rfl, by decide, by decide,
    (access_checker_status_decides forbidding_env sample_cfg
      (sample_world (some (bytes "/index.html" ++ [0]))) (bytes "/index.html" ++ [0])
      rfl (by decide)).1 (by decide)⟩

/-! ## The logging hook -/

theorem registered_callback (env : Env) (hk : hooks_keep_logging env) (b : World) (flag : Bool)
    (cb : cb_id) (hr : logging_registered b) :
    logging_registered (callback_ruby_block env b flag cb) := by
  unfold callback_ruby_block
  dsimp only
  have hv : logging_registered
      ((b.emit (Event.yield cb)).set_view (env.block cb (b.emit (Event.yield cb)).view)) := by
    have := hk.1 cb (b.emit (Event.yield cb)).view
    exact ⟨this.1.trans hr.1, this.2.trans hr.2⟩
  split_ifs with h1 h2 h3
  · exact hr
  · subst h3
    refine ⟨?_, ?_⟩
    · simpa [World.clear_content_cb, Function.update] using hv.1
    · simpa [World.clear_content_cb, Function.update] using hv.2
  · exact hv
  · exact hr

theorem registered_run_fixups (env : Env) (hk : hooks_keep_logging env)
    (cfg : mrb_http2_config_t) (b : World) (hr : logging_registered b) :
    logging_registered (run_fixups env cfg b) := by
  unfold run_fixups
  split_ifs
  · exact registered_callback env hk _ _ _ hr
  · exact hr

theorem send_response_with_snd (rcb : read_callback) (env : Env) (cfg : mrb_http2_config_t)
    (b : World) (nva : List nghttp2_nv) :
    (send_response_with rcb env cfg b nva).2 = if env.submit_response_rv ≠ 0 then -1 else 0 := by
  unfold send_response_with
  dsimp only
  split_ifs <;> rfl

theorem send_response_with_failed (rcb : read_callback) (env : Env)
    (cfg : mrb_http2_config_t) (b : World) (nva : List nghttp2_nv)
    (hrv : env.submit_response_rv ≠ 0) :
    (send_response_with rcb env cfg b nva).1.trace = b.trace ++
      [Event.nghttp2_submit_response b.stream.stream_id nva rcb env.submit_response_rv,
        Event.mrb_http2_request_rec_free] := by
  unfold send_response_with
  dsimp only
  rw [if_pos hrv]
  simp [World.emit, World.set_r]

theorem send_response_with_logged (rcb : read_callback) (env : Env)
    (cfg : mrb_http2_config_t) (b : World) (nva : List nghttp2_nv)
    (hcb : cfg.callback = true) (hr : logging_registered b)
    (hrv : env.submit_response_rv = 0) :
    (send_response_with rcb env cfg b nva).1.trace = b.trace ++
      [Event.nghttp2_submit_response b.stream.stream_id nva rcb 0,
        Event.yield cb_id.logging_cb, Event.mrb_http2_request_rec_free] := by
  unfold send_response_with callback_ruby_block
  dsimp only
  have h1 : ¬ (env.submit_response_rv ≠ 0) := by simp [hrv]
  rw [if_neg h1, if_pos hcb]
  have h2 : ¬ (cfg.callback = false ∨
      ((b.emit (Event.nghttp2_submit_response b.stream.stream_id nva rcb
        env.submit_response_rv)).set_phase phase_t.MRB_HTTP2_SERVER_LOGGING).cb_list
        cb_id.logging_cb = false) := by
    have := hr.1
    simp [hcb, World.set_phase, World.set_r, World.emit, this]
  have h3 : ((b.emit (Event.nghttp2_submit_response b.stream.stream_id nva rcb
        env.submit_response_rv)).set_phase phase_t.MRB_HTTP2_SERVER_LOGGING).ivar
        cb_id.logging_cb = true := hr.2
  rw [if_neg h2, if_pos h3]
  simp [World.emit, World.set_r, World.set_view, World.set_phase, hrv]

theorem before_submit_not_logged (e : Event) (h : e.before_submit) : e.not_logged := by
  refine ⟨h.1, ?_⟩
  intro sid nva rcb he
  subst he
  exact absurd h.2 (by simp [Event.is_submit_response])

theorem logs_never {a c : World} (h : emits_only Event.not_logged a c) :
    logs_once_or_never a c := by
  obtain ⟨evs, ht, hq⟩ := h
  exact Or.inr ⟨evs, ht, hq⟩

theorem logs_after_failed_send {a b c : World} (rcb : read_callback) (env : Env)
    (cfg : mrb_http2_config_t) (nva : List nghttp2_nv)
    (h : emits_only Event.before_submit a b)
    (hres : (send_response_with rcb env cfg b nva).2 ≠ 0)
    (hc : emits_only Event.not_logged (send_response_with rcb env cfg b nva).1 c) :
    logs_once_or_never a c := by
  have hrv : env.submit_response_rv ≠ 0 := by
    intro h0
    rw [send_response_with_snd] at hres
    simp [h0] at hres
  apply logs_never
  refine emits_only_trans (emits_only_mono h before_submit_not_logged) (emits_only_trans ?_ hc)
  refine ⟨_, send_response_with_failed rcb env cfg b nva hrv, ?_⟩
  intro e he
  simp only [List.mem_cons, List.mem_singleton, List.not_mem_nil, or_false] at he
  rcases he with h1 | h1
  · subst h1
    refine ⟨by simp, ?_⟩
    intro sid nva2 rcb2 he
    injection he with _ _ _ h4
    exact hrv h4
  · subst h1
    exact ⟨by simp, by simp⟩

theorem logs_after_send {a b : World} (rcb : read_callback) (env : Env)
    (cfg : mrb_http2_config_t) (nva : List nghttp2_nv)
    (hcb : cfg.callback = true)
    (h : emits_only Event.before_submit a b) (hr : logging_registered b)
    (hres : ¬ (send_response_with rcb env cfg b nva).2 ≠ 0) :
    logs_once_or_never a (send_response_with rcb env cfg b nva).1 := by
  have hrv : env.submit_response_rv = 0 := by
    by_contra h0
    rw [send_response_with_snd, if_pos h0] at hres
    simp at hres
  obtain ⟨evs, ht, hq⟩ := h
  refine Or.inl ⟨evs ++ [Event.nghttp2_submit_response b.stream.stream_id nva rcb 0,
      Event.yield cb_id.logging_cb, Event.mrb_http2_request_rec_free], ?_,
    ⟨evs, _, _, _, rfl, hq⟩⟩
  rw [send_response_with_logged rcb env cfg b nva hcb hr hrv, ht, List.append_assoc]

theorem logs_same_trace {a b : World} (c : World) (h : logs_once_or_never a b)
    (hc : c.trace = b.trace) : logs_once_or_never a c := by
  unfold logs_once_or_never at h ⊢
  rw [hc]; exact h

theorem logs_set_r {a b : World} (r : request_rec) (h : logs_once_or_never a b) :
    logs_once_or_never a (b.set_r r) :=
  logs_same_trace _ h rfl

theorem registered_of_same {b c : World} (h1 : c.cb_list = b.cb_list) (h2 : c.ivar = b.ivar)
    (hr : logging_registered b) : logging_registered c := by
  unfold logging_registered at hr ⊢
  rw [h1, h2]; exact hr

theorem registered_set_r {b : World} (r : request_rec) (hr : logging_registered b) :
    logging_registered (b.set_r r) := hr

theorem registered_set_stream {b : World} (s : http2_stream_data)
    (hr : logging_registered b) : logging_registered (b.set_stream s) := hr

theorem registered_set_pipe {b : World} (p : List Nat) (hr : logging_registered b) :
    logging_registered (b.set_pipe p) := hr

theorem registered_set_phase {b : World} (p : phase_t) (hr : logging_registered b) :
    logging_registered (b.set_phase p) := hr

theorem registered_emit {b : World} (e : Event) (hr : logging_registered b) :
    logging_registered (b.emit e) := hr

theorem registered_set_upstream_handles {b : World} (x y : Bool)
    (hr : logging_registered b) : logging_registered (b.set_upstream_handles x y) := hr

theorem error_reply_logs (env : Env) (hk : hooks_keep_logging env) (cfg : mrb_http2_config_t)
    (hcb : cfg.callback = true) {a b : World} (h : emits_only Event.before_submit a b)
    (hr : logging_registered b) : logs_once_or_never a (error_reply env cfg b).1 := by
  have h0 : emits_only Event.before_submit a (b.emit (Event.error_reply b.r.status)) :=
    emits_only_emit _ h ⟨by simp, rfl⟩
  unfold error_reply send_response
  dsimp only
  split_ifs with h1 h2
  · apply logs_never
    refine emits_only_pipe_failed env (emits_only_emit _ (emits_only_set_r _
      (emits_only_mono h0 before_submit_not_logged)) ?_) (fun _ _ => ?_)
    all_goals exact ⟨by simp, by simp⟩
  · refine logs_after_failed_send _ env cfg _
      (emits_only_run_fixups env cfg (emits_only_set_r _ (emits_only_set_stream _
        (emits_only_emit _ (emits_only_emit _ (emits_only_set_pipe _
          (emits_only_emit _ (emits_only_set_r _ h0) ?_)) ?_) ?_))) ?_) h2
      (emits_only_set_r _ (emits_only_emit _ (emits_only_refl _ _) ?_))
    all_goals first | exact ⟨by simp, rfl⟩ | exact ⟨by simp, by simp⟩
  · refine logs_set_r _ (logs_after_send _ env cfg _ hcb
      (emits_only_run_fixups env cfg (emits_only_set_r _ (emits_only_set_stream _
        (emits_only_emit _ (emits_only_emit _ (emits_only_set_pipe _
          (emits_only_emit _ (emits_only_set_r _ h0) ?_)) ?_) ?_))) ?_)
      (registered_run_fixups env hk cfg _ (registered_set_r _ (registered_set_stream _
        (registered_emit _ (registered_emit _ (registered_set_pipe _ (registered_emit _
          (registered_set_r _ (registered_emit _ hr))))))))) h2)
    all_goals exact ⟨by simp, rfl⟩

theorem registered_script (env : Env) (hk : hooks_keep_logging env) {b : World}
    (hr : logging_registered b) : logging_registered (b.set_view (env.script b.view).1) := by
  have := hk.2 b.view
  exact ⟨this.1.trans hr.1, this.2.trans hr.2⟩

theorem reject_with_logs (env : Env) (hk : hooks_keep_logging env) (cfg : mrb_http2_config_t)
    (hcb : cfg.callback = true) (status : Nat) {a b : World}
    (h : emits_only Event.before_submit a b) (hr : logging_registered b) :
    logs_once_or_never a (reject_with env cfg b status).1 := by
  unfold reject_with
  rw [reply_result_fst]
  exact error_reply_logs env hk cfg hcb (emits_only_set_r _ h) (registered_set_r _ hr)

theorem upstream_reply_logs (env : Env) (hk : hooks_keep_logging env)
    (cfg : mrb_http2_config_t) (hcb : cfg.callback = true) {a b : World}
    (h : emits_only Event.before_submit a b) (hr : logging_registered b) :
    logs_once_or_never a (upstream_reply env cfg b).1 := by
  unfold upstream_reply send_upstream_response
  dsimp only
  split_ifs with h2
  · refine logs_after_failed_send _ env cfg _
      (emits_only_run_fixups env cfg (emits_only_emit _ h ?_) ?_) h2
      (emits_only_emit _ (emits_only_refl _ _) ?_)
    all_goals first | exact ⟨by simp, rfl⟩ | exact ⟨by simp, by simp⟩
  · refine logs_after_send _ env cfg _ hcb
      (emits_only_run_fixups env cfg (emits_only_emit _ h ?_) ?_)
      (registered_run_fixups env hk cfg _ (registered_emit _ hr)) h2
    all_goals exact ⟨by simp, rfl⟩

theorem finish_pipe_reply_logs (env : Env) (hk : hooks_keep_logging env)
    (cfg : mrb_http2_config_t) (hcb : cfg.callback = true) {a b : World}
    (h : emits_only Event.before_submit a b) (hr : logging_registered b) :
    logs_once_or_never a (finish_pipe_reply env cfg b).1 := by
  unfold finish_pipe_reply send_response
  dsimp only
  split_ifs with h1 h2 h3
  · refine logs_after_failed_send _ env cfg _
      (emits_only_run_fixups env cfg (emits_only_set_r _ (emits_only_set_stream _
        (emits_only_emit _ h ?_))) ?_) h2
      (emits_only_set_r _ (emits_only_emit _ (emits_only_refl _ _) ?_))
    all_goals first | exact ⟨by simp, rfl⟩ | exact ⟨by simp, by simp⟩
  · refine logs_set_r _ (logs_after_send _ env cfg _ hcb
      (emits_only_run_fixups env cfg (emits_only_set_r _ (emits_only_set_stream _
        (emits_only_emit _ h ?_))) ?_)
      (registered_run_fixups env hk cfg _ (registered_set_r _ (registered_set_stream _
        (registered_emit _ hr)))) h2)
    all_goals exact ⟨by simp, rfl⟩
  · refine logs_after_failed_send _ env cfg _
      (emits_only_run_fixups env cfg (emits_only_set_r _ (emits_only_set_stream _
        (emits_only_emit _ (emits_only_emit _ (emits_only_set_pipe _ h) ?_) ?_))) ?_) h3
      (emits_only_set_r _ (emits_only_emit _ (emits_only_refl _ _) ?_))
    all_goals first | exact ⟨by simp, rfl⟩ | exact ⟨by simp, by simp⟩
  · refine logs_set_r _ (logs_after_send _ env cfg _ hcb
      (emits_only_run_fixups env cfg (emits_only_set_r _ (emits_only_set_stream _
        (emits_only_emit _ (emits_only_emit _ (emits_only_set_pipe _ h) ?_) ?_))) ?_)
      (registered_run_fixups env hk cfg _ (registered_set_r _ (registered_set_stream _
        (registered_emit _ (registered_emit _ (registered_set_pipe _ hr)))))) h3)
    all_goals exact ⟨by simp, rfl⟩

theorem content_cb_reply_logs (env : Env) (hk : hooks_keep_logging env)
    (cfg : mrb_http2_config_t) (hcb : cfg.callback = true) {a b : World}
    (h : emits_only Event.before_submit a b) (hr : logging_registered b) :
    logs_once_or_never a (content_cb_reply env cfg b).1 := by
  have h0 : emits_only Event.before_submit a
      ((b.emit (Event.call reply_fn.content_cb_reply)).emit (Event.pipe env.pipe_rv)) :=
    emits_only_emit _ (emits_only_emit _ h ⟨by simp, rfl⟩) ⟨by simp, rfl⟩
  unfold content_cb_reply
  dsimp only
  split_ifs with h1
  · apply logs_never
    refine emits_only_pipe_failed env (emits_only_mono h0 before_submit_not_logged)
      (fun _ _ => ?_)
    exact ⟨by simp, by simp⟩
  · refine finish_pipe_reply_logs env hk cfg hcb (emits_only_set_r _
      (emits_only_callback env _ _ (emits_only_set_phase _ (emits_only_set_r _
        (emits_only_set_pipe _ h0))) ?_))
      (registered_set_r _ (registered_callback env hk _ _ _ (registered_set_phase _
        (registered_set_r _ (registered_set_pipe _ (registered_emit _
          (registered_emit _ hr)))))))
    exact ⟨by simp, rfl⟩

theorem mruby_reply_logs (env : Env) (hk : hooks_keep_logging env)
    (cfg : mrb_http2_config_t) (hcb : cfg.callback = true) {a b : World}
    (h : emits_only Event.before_submit a b) (hr : logging_registered b) :
    logs_once_or_never a (mruby_reply env cfg b).1 := by
  have h0 : emits_only Event.before_submit a
      ((b.emit (Event.call reply_fn.mruby_reply)).emit
        (Event.fopen (b.emit (Event.call reply_fn.mruby_reply)).r.filename
          (env.fopen_ok (b.emit (Event.call reply_fn.mruby_reply)).r.filename))) :=
    emits_only_emit _ (emits_only_emit _ h ⟨by simp, rfl⟩) ⟨by simp, rfl⟩
  unfold mruby_reply
  dsimp only
  split_ifs with h1 h2 h3
  · exact logs_never (emits_only_mono h0 before_submit_not_logged)
  · apply logs_never
    refine emits_only_pipe_failed env (emits_only_emit _
      (emits_only_mono h0 before_submit_not_logged) ?_) (fun _ _ => ?_)
    all_goals exact ⟨by simp, by simp⟩
  · refine finish_pipe_reply_logs env hk cfg hcb (emits_only_set_r _ (emits_only_set_view _
      (emits_only_emit _ (emits_only_set_r _ (emits_only_set_pipe _
        (emits_only_emit _ h0 ?_))) ?_)))
      (registered_set_r _ (registered_script env hk (registered_emit _ (registered_set_r _
        (registered_set_pipe _ (registered_emit _ (registered_emit _
          (registered_emit _ hr))))))))
    all_goals exact ⟨by simp, rfl⟩
  · refine finish_pipe_reply_logs env hk cfg hcb (emits_only_set_r _ (emits_only_set_view _
      (emits_only_emit _ (emits_only_set_r _ (emits_only_set_pipe _
        (emits_only_emit _ h0 ?_))) ?_)))
      (registered_set_r _ (registered_script env hk (registered_emit _ (registered_set_r _
        (registered_set_pipe _ (registered_emit _ (registered_emit _
          (registered_emit _ hr))))))))
    all_goals exact ⟨by simp, rfl⟩

theorem send_custom_response_logs (env : Env) (hk : hooks_keep_logging env)
    (cfg : mrb_http2_config_t) (hcb : cfg.callback = true) {a b : World}
    (h : emits_only Event.before_submit a b) (hr : logging_registered b) :
    logs_once_or_never a (mrb_http2_send_custom_response env cfg b).1 := by
  unfold mrb_http2_send_custom_response send_response
  dsimp only
  split_ifs with h1 h2 h3
  · refine logs_after_failed_send _ env cfg _
      (emits_only_run_fixups env cfg (emits_only_set_r _ (emits_only_emit _ h ?_)) ?_) h2
      (emits_only_emit _ (emits_only_refl _ _) ?_)
    all_goals first | exact ⟨by simp, rfl⟩ | exact ⟨by simp, by simp⟩
  · refine logs_after_send _ env cfg _ hcb
      (emits_only_run_fixups env cfg (emits_only_set_r _ (emits_only_emit _ h ?_)) ?_)
      (registered_run_fixups env hk cfg _ (registered_set_r _ (registered_emit _ hr))) h2
    all_goals exact ⟨by simp, rfl⟩
  · refine logs_after_failed_send _ env cfg _
      (emits_only_run_fixups env cfg (emits_only_set_r _ (emits_only_emit _ h ?_)) ?_) h3
      (emits_only_emit _ (emits_only_refl _ _) ?_)
    all_goals first | exact ⟨by simp, rfl⟩ | exact ⟨by simp, by simp⟩
  · refine logs_after_send _ env cfg _ hcb
      (emits_only_run_fixups env cfg (emits_only_set_r _ (emits_only_emit _ h ?_)) ?_)
      (registered_run_fixups env hk cfg _ (registered_set_r _ (registered_emit _ hr))) h3
    all_goals exact ⟨by simp, rfl⟩

theorem send_200_response_logs (env : Env) (hk : hooks_keep_logging env)
    (cfg : mrb_http2_config_t) (hcb : cfg.callback = true) {a b : World}
    (h : emits_only Event.before_submit a b) (hr : logging_registered b) :
    logs_once_or_never a (mrb_http2_send_200_response env cfg b).1 := by
  unfold mrb_http2_send_200_response send_response
  dsimp only
  split_ifs with h2
  · refine logs_after_failed_send _ env cfg _
      (emits_only_run_fixups env cfg (emits_only_set_r _ (emits_only_emit _ h ?_)) ?_) h2
      (emits_only_emit _ (emits_only_set_r _ (emits_only_refl _ _)) ?_)
    all_goals first | exact ⟨by simp, rfl⟩ | exact ⟨by simp, by simp⟩
  · refine logs_set_r _ (logs_after_send _ env cfg _ hcb
      (emits_only_run_fixups env cfg (emits_only_set_r _ (emits_only_emit _ h ?_)) ?_)
      (registered_run_fixups env hk cfg _ (registered_set_r _ (registered_emit _ hr))) h2)
    all_goals exact ⟨by simp, rfl⟩

theorem static_file_reply_logs (env : Env) (hk : hooks_keep_logging env)
    (cfg : mrb_http2_config_t) (hcb : cfg.callback = true) {a b : World}
    (h : emits_only Event.before_submit a b) (hr : logging_registered b) :
    logs_once_or_never a (static_file_reply env cfg b).1 := by
  have h0 : emits_only Event.before_submit a
      (b.emit (Event.open b.r.filename (env.open_fd b.r.filename))) :=
    emits_only_emit _ h ⟨by simp, rfl⟩
  have r0 : logging_registered (b.emit (Event.open b.r.filename (env.open_fd b.r.filename))) :=
    registered_emit _ hr
  unfold static_file_reply
  dsimp only
  split_ifs with h1
  · exact reject_with_logs env hk cfg hcb _ h0 r0
  · split
    · refine reject_with_logs env hk cfg hcb _
        (emits_only_emit _ (emits_only_set_stream _ h0) ?_)
        (registered_emit _ (registered_set_stream _ r0))
      exact ⟨by simp, rfl⟩
    · split_ifs
      · refine send_custom_response_logs env hk cfg hcb (emits_only_set_stream _
          (emits_only_set_r _ (emits_only_set_r _ (emits_only_emit _
            (emits_only_set_stream _ h0) ?_))))
          (registered_set_stream _ (registered_set_r _ (registered_set_r _ (registered_emit _
            (registered_set_stream _ r0)))))
        exact ⟨by simp, rfl⟩
      · refine send_200_response_logs env hk cfg hcb (emits_only_set_stream _
          (emits_only_set_r _ (emits_only_set_r _ (emits_only_emit _
            (emits_only_set_stream _ h0) ?_))))
          (registered_set_stream _ (registered_set_r _ (registered_set_r _ (registered_emit _
            (registered_set_stream _ r0)))))
        exact ⟨by simp, rfl⟩
      · refine send_custom_response_logs env hk cfg hcb (emits_only_set_stream _
          (emits_only_set_r _ (emits_only_emit _ (emits_only_set_stream _ h0) ?_)))
          (registered_set_stream _ (registered_set_r _ (registered_emit _
            (registered_set_stream _ r0))))
        exact ⟨by simp, rfl⟩
      · refine send_200_response_logs env hk cfg hcb (emits_only_set_stream _
          (emits_only_set_r _ (emits_only_emit _ (emits_only_set_stream _ h0) ?_)))
          (registered_set_stream _ (registered_set_r _ (registered_emit _
            (registered_set_stream _ r0))))
        exact ⟨by simp, rfl⟩

theorem http_request_done_cb_list (env : Env) (cfg : mrb_http2_config_t) (w : World)
    (uh : List Nat) (req : Option evhttp_request) :
    (http_request_done env cfg w uh req).cb_list = w.cb_list ∧
    (http_request_done env cfg w uh req).ivar = w.ivar := by
  unfold http_request_done
  cases req with
  | none => exact ⟨rfl, rfl⟩
  | some req =>
    dsimp only
    split <;> exact ⟨rfl, rfl⟩

theorem read_upstream_response_before (env : Env) (cfg : mrb_http2_config_t) {a b : World}
    (up : mrb_http2_upstream) (host : List Nat)
    (h : emits_only Event.before_submit a b) (hr : logging_registered b) :
    emits_only Event.before_submit a (read_upstream_response env cfg b up host).1 ∧
    logging_registered (read_upstream_response env cfg b up host).1 := by
  have h0 : emits_only Event.before_submit a
      (b.emit (Event.call reply_fn.read_upstream_response)) :=
    emits_only_emit _ h ⟨by simp, rfl⟩
  have r0 : logging_registered (b.emit (Event.call reply_fn.read_upstream_response)) :=
    registered_emit _ hr
  unfold read_upstream_response
  dsimp only
  split_ifs
  all_goals
    first
    | exact ⟨emits_only_set_upstream_handles _ _ h0, registered_set_upstream_handles _ _ r0⟩
    | (refine ⟨emits_only_emit _ (emits_only_set_r _ (emits_only_set_upstream_handles _ _ h0)) ?_,
         registered_emit _ (registered_set_r _ (registered_set_upstream_handles _ _ r0))⟩
       exact ⟨by simp, rfl⟩)
    | (refine ⟨emits_only_same_trace _ ?_ (http_request_done_trace _ _ _ _ _),
         registered_of_same (http_request_done_cb_list _ _ _ _ _).1
           (http_request_done_cb_list _ _ _ _ _).2
           (registered_emit _ (registered_set_r _ (registered_set_upstream_handles _ _ r0)))⟩
       refine emits_only_emit _ (emits_only_set_r _ (emits_only_set_upstream_handles _ _ h0)) ?_
       exact ⟨by simp, rfl⟩)

theorem dispatch_logs (env : Env) (hk : hooks_keep_logging env)
    (cfg : mrb_http2_config_t) (hcb : cfg.callback = true) {a b : World}
    (h : emits_only Event.before_submit a b) (hr : logging_registered b) :
    logs_once_or_never a (dispatch env cfg b).1 := by
  unfold dispatch
  cases hup : upstream_host cfg b.r with
  | some p =>
    obtain ⟨up, host⟩ := p
    obtain ⟨h1, r1⟩ := read_upstream_response_before env cfg up host h hr
    dsimp only
    split_ifs
    · exact logs_never (emits_only_mono h1 before_submit_not_logged)
    · exact upstream_reply_logs env hk cfg hcb h1 r1
    · exact upstream_reply_logs env hk cfg hcb h1 r1
  | none =>
    dsimp only
    split_ifs
    · rw [reply_result_fst]
      exact mruby_reply_logs env hk cfg hcb (emits_only_set_r _ h) (registered_set_r _ hr)
    · rw [reply_result_fst]
      exact content_cb_reply_logs env hk cfg hcb (emits_only_set_r _ h) (registered_set_r _ hr)
    · exact static_file_reply_logs env hk cfg hcb h hr

theorem storage_and_access_before (env : Env) (hk : hooks_keep_logging env)
    (cfg : mrb_http2_config_t) (b : World) (path : List Nat) (hr : logging_registered b) :
    emits_only Event.before_submit b (storage_and_access env cfg b path) ∧
    logging_registered (storage_and_access env cfg b path) := by
  have h0 := emits_only_refl Event.before_submit b
  unfold storage_and_access
  dsimp only
  split_ifs
  · refine ⟨emits_only_callback env _ _ (emits_only_set_phase _
      (emits_only_callback env _ _ (emits_only_set_phase _
        (emits_only_set_r _ (emits_only_emit _ h0 ?_))) ?_)) ?_,
      registered_callback env hk _ _ _ (registered_set_phase _
        (registered_callback env hk _ _ _ (registered_set_phase _
          (registered_set_r _ (registered_emit _ hr)))))⟩
    all_goals exact ⟨by simp, rfl⟩
  · refine ⟨emits_only_set_r _ (emits_only_emit _ h0 ?_),
      registered_set_r _ (registered_emit _ hr)⟩
    exact ⟨by simp, rfl⟩

theorem read_request_cb_list (env : Env) (cfg : mrb_http2_config_t) (w : World) :
    (read_request env cfg w).cb_list = w.cb_list ∧ (read_request env cfg w).ivar = w.ivar := by
  unfold read_request
  dsimp only
  split_ifs <;> exact ⟨rfl, rfl⟩

theorem process_request_logs (env : Env) (hk : hooks_keep_logging env)
    (cfg : mrb_http2_config_t) (hcb : cfg.callback = true) (w : World)
    (hr : logging_registered w) :
    logs_once_or_never w (mrb_http2_process_request env cfg w).1 := by
  have h0 : emits_only Event.before_submit w (read_request env cfg w) :=
    emits_only_same_trace _ (emits_only_refl _ w) (read_request_trace env cfg w)
  have r0 : logging_registered (read_request env cfg w) :=
    registered_of_same (read_request_cb_list env cfg w).1 (read_request_cb_list env cfg w).2 hr
  unfold mrb_http2_process_request
  dsimp only
  split
  · exact reject_with_logs env hk cfg hcb _ h0 r0
  · split_ifs
    · exact reject_with_logs env hk cfg hcb _ h0 r0
    · rw [reply_result_fst]
      obtain ⟨h1, r1⟩ := storage_and_access_before env hk cfg (read_request env cfg w) _ r0
      exact error_reply_logs env hk cfg hcb (emits_only_trans h0 h1) r1
    · obtain ⟨h1, r1⟩ := storage_and_access_before env hk cfg (read_request env cfg w) _ r0
      exact dispatch_logs env hk cfg hcb (emits_only_trans h0 h1) r1

/-- C10, as stated, fails: with callbacks enabled and the logging hook
registered, a run whose `nghttp2_submit_response` fails and a run whose `pipe`
fails never invoke the logging hook. -/
theorem logging_skipped_on_failure :
    sample_cfg.callback = true ∧
    logging_registered (sample_world (some (bytes "/index.html" ++ [0]))) ∧
    logging_registered (sample_world none) ∧
    (pipeline_events failing_submit_env sample_cfg
      (sample_world (some (bytes "/index.html" ++ [0])))).count
        (Event.yield cb_id.logging_cb) = 0 ∧
    (pipeline_events failing_pipe_env sample_cfg (sample_world none)).count
        (Event.yield cb_id.logging_cb) = 0 :=
  ⟨rfl, ⟨rfl, rfl⟩, ⟨rfl, rfl⟩, by decide, by decide⟩

/-- C10 amended. With callbacks enabled, the logging hook registered and no
block or script changing that registration, a run either ends with a
successful `nghttp2_submit_response` followed at once by the one invocation of
the logging hook (and then `mrb_http2_request_rec_free`), nothing before them
being a logging invocation or a submission, or it contains no invocation of the
logging hook and no successful submission. -/
theorem logging_after_successful_submission (env : Env) (cfg : mrb_http2_config_t)
    (w : World) (hcb : cfg.callback = true) (hk : hooks_keep_logging env)
    (hr : logging_registered w) :
    (∃ pre sid nva rcb, pipeline_events env cfg w =
        pre ++ [Event.nghttp2_submit_response sid nva rcb 0, Event.yield cb_id.logging_cb,
          Event.mrb_http2_request_rec_free] ∧
      ∀ e ∈ pre, e ≠ Event.yield cb_id.logging_cb ∧ e.is_submit_response = false) ∨
    (∀ e ∈ pipeline_events env cfg w, e ≠ Event.yield cb_id.logging_cb ∧
      ∀ sid nva rcb, e ≠ Event.nghttp2_submit_response sid nva rcb 0) := by
  have h := process_request_logs env hk cfg hcb { w with trace := [] } hr
  unfold pipeline_events
  rcases h with ⟨evs, ht, hl⟩ | ⟨evs, ht, hn⟩
  · left
    obtain ⟨pre, sid, nva, rcb, he, hp⟩ := hl
    refine ⟨pre, sid, nva, rcb, ?_, hp⟩
    rw [ht, he]; rfl
  · right
    rw [ht]
    intro e he
    exact hn e (by simpa using he)

/-- C10 amended, witness: `/index.html` served with every step succeeding. -/
theorem logging_after_successful_submission_witness :
    sample_cfg.callback = true ∧ hooks_keep_logging sample_env ∧
    logging_registered (sample_world (some (bytes "/index.html" ++ [0]))) ∧
    ((∃ pre sid nva rcb, pipeline_events sample_env sample_cfg
          (sample_world (some (bytes "/index.html" ++ [0]))) =
        pre ++ [Event.nghttp2_submit_response sid nva rcb 0, Event.yield cb_id.logging_cb,
          Event.mrb_http2_request_rec_free] ∧
      ∀ e ∈ pre, e ≠ Event.yield cb_id.logging_cb ∧ e.is_submit_response = false) ∨
    (∀ e ∈ pipeline_events sample_env sample_cfg
          (sample_world (some (bytes "/index.html" ++ [0]))),
      e ≠ Event.yield cb_id.logging_cb ∧
      ∀ sid nva rcb, e ≠ Event.nghttp2_submit_response sid nva rcb 0)) :=
  ⟨rfl, ⟨fun _ _ => ⟨rfl, rfl⟩, fun _ => ⟨rfl, rfl⟩⟩, ⟨rfl, rfl⟩,
    logging_after_successful_submission sample_env sample_cfg
      (sample_world (some (bytes "/index.html" ++ [0]))) rfl
      ⟨fun _ _ => ⟨rfl, rfl⟩, fun _ => ⟨rfl, rfl⟩⟩ ⟨rfl, rfl⟩⟩

/-! ## Failure of the upstream fetch -/

theorem storage_and_access_emits {P : Event → Prop} (env : Env) (cfg : mrb_http2_config_t)
    (w : World) (path : List Nat) (hy : ∀ cb, P (Event.yield cb))
    (hs : ∀ f, P (Event.strcat_filename f)) :
    emits_only P w (storage_and_access env cfg w path) := by
  have h0 := emits_only_refl P w
  unfold storage_and_access
  dsimp only
  split_ifs
  · exact emits_only_callback env _ _ (emits_only_set_phase _
      (emits_only_callback env _ _ (emits_only_set_phase _
        (emits_only_set_r _ (emits_only_emit _ h0 (hs _)))) (hy _))) (hy _)
  · exact emits_only_set_r _ (emits_only_emit _ h0 (hs _))

theorem read_upstream_response_emits {P : Event → Prop} (env : Env)
    (cfg : mrb_http2_config_t) (b : World) (up : mrb_http2_upstream) (host : List Nat)
    (hc : P (Event.call reply_fn.read_upstream_response))
    (hm : ∀ post uri rv, P (Event.evhttp_make_request post uri rv)) :
    emits_only P b (read_upstream_response env cfg b up host).1 := by
  have h0 := emits_only_emit (Event.call reply_fn.read_upstream_response)
    (emits_only_refl P b) hc
  unfold read_upstream_response
  dsimp only
  split_ifs
  all_goals
    first
    | exact emits_only_set_upstream_handles _ _ h0
    | exact emits_only_emit _ (emits_only_set_r _ (emits_only_set_upstream_handles _ _ h0))
        (hm _ _ _)
    | exact emits_only_same_trace _
        (emits_only_emit _ (emits_only_set_r _ (emits_only_set_upstream_handles _ _ h0))
          (hm _ _ _)) (http_request_done_trace _ _ _ _ _)

/-- C11, as stated, fails: with proxying enabled and an upstream host set, a
run whose upstream connection cannot be created, a run whose request cannot be
made and a run that gets no upstream response each return
`NGHTTP2_ERR_CALLBACK_FAILURE`, not 0, and submit no stream reset. -/
theorem upstream_failure_not_reset :
    pipeline_result failing_connection_env proxy_cfg
        (proxy_world (some (bytes "/index.html" ++ [0]))) = -902 ∧
    (pipeline_events failing_connection_env proxy_cfg
        (proxy_world (some (bytes "/index.html" ++ [0])))).countP Event.is_rst = 0 ∧
    pipeline_result failing_request_env proxy_cfg
        (proxy_world (some (bytes "/index.html" ++ [0]))) = -902 ∧
    (pipeline_events failing_request_env proxy_cfg
        (proxy_world (some (bytes "/index.html" ++ [0])))).countP Event.is_rst = 0 ∧
    pipeline_result sample_env proxy_cfg
        (proxy_world (some (bytes "/index.html" ++ [0]))) = -902 ∧
    (pipeline_events sample_env proxy_cfg
        (proxy_world (some (bytes "/index.html" ++ [0])))).countP Event.is_rst = 0 :=
  ⟨by decide, by decide, by decide, by decide, by decide, by decide⟩

/-- C11 amended. For a request that passes path validation, whose status after
the access-checker phase is 0 or 200 and for which proxying applies: when
`read_upstream_response` returns non-zero, `mrb_http2_process_request` returns
`NGHTTP2_ERR_CALLBACK_FAILURE` (which is not 0) to the protocol engine, and the
run submits neither a stream reset nor a response. -/
theorem upstream_failure_fails_callback (env : Env) (cfg : mrb_http2_config_t) (w : World)
    (path : List Nat) (up : mrb_http2_upstream) (host : List Nat)
    (hp : w.stream.request_path = some path) (hc : check_path path = true)
    (hs : (after_access_checker env cfg w path).r.status = 0 ∨
      (after_access_checker env cfg w path).r.status = 200)
    (hu : upstream_host cfg (after_access_checker env cfg w path).r = some (up, host))
    (hf : (read_upstream_response env cfg (after_access_checker env cfg w path) up host).2
      ≠ 0) :
    pipeline_result env cfg w = NGHTTP2_ERR_CALLBACK_FAILURE ∧
    NGHTTP2_ERR_CALLBACK_FAILURE ≠ 0 ∧
    ∀ e ∈ pipeline_events env cfg w, e.is_rst = false ∧ e.is_submit_response = false := by
  have hst : ¬ ((after_access_checker env cfg w path).r.status ≠ 0 ∧
      (after_access_checker env cfg w path).r.status ≠ HTTP_OK) := by
    unfold HTTP_OK
    rcases hs with h | h <;> simp [h]
  have hrun : mrb_http2_process_request env cfg { w with trace := [] } =
      ((read_upstream_response env cfg (after_access_checker env cfg w path) up host).1,
        NGHTTP2_ERR_CALLBACK_FAILURE) := by
    unfold mrb_http2_process_request
    dsimp only
    have hs2 := read_request_stream env cfg { w with trace := [] }
    have hp2 : (read_request env cfg { w with trace := [] }).stream.request_path
        = some path := by rw [hs2]; exact hp
    rw [hp2]
    simp only [hc, Bool.true_eq_false, if_false]
    change (if (after_access_checker env cfg w path).r.status ≠ 0 ∧
        (after_access_checker env cfg w path).r.status ≠ HTTP_OK then _
      else dispatch env cfg (after_access_checker env cfg w path)) = _
    rw [if_neg hst]
    unfold dispatch
    rw [hu]
    dsimp only
    rw [if_pos hf]
  refine ⟨by unfold pipeline_result; rw [hrun], by decide, ?_⟩
  unfold pipeline_events
  rw [hrun]
  have h1 : emits_only Event.no_reset_no_response
      (read_request env cfg { w with trace := [] }) (after_access_checker env cfg w path) :=
    storage_and_access_emits env cfg _ path (fun _ => ⟨rfl, rfl⟩) (fun _ => ⟨rfl, rfl⟩)
  have h2 : emits_only Event.no_reset_no_response (after_access_checker env cfg w path)
      (read_upstream_response env cfg (after_access_checker env cfg w path) up host).1 :=
    read_upstream_response_emits env cfg _ up host ⟨rfl, rfl⟩ (fun _ _ _ => ⟨rfl, rfl⟩)
  obtain ⟨evs, ht, hq⟩ := emits_only_trans h1 h2
  rw [read_request_trace] at ht
  intro e he
  rw [ht] at he
  exact hq e (by simpa using he)

/-- C11 amended, witness: `/index.html` proxied to an upstream whose
connection cannot be created. -/
theorem upstream_failure_fails_callback_witness :
    pipeline_result failing_connection_env proxy_cfg
        (proxy_world (some (bytes "/index.html" ++ [0]))) = NGHTTP2_ERR_CALLBACK_FAILURE ∧
    NGHTTP2_ERR_CALLBACK_FAILURE ≠ 0 ∧
    ∀ e ∈ pipeline_events failing_connection_env proxy_cfg
        (proxy_world (some (bytes "/index.html" ++ [0]))),
      e.is_rst = false ∧ e.is_submit_response = false :=
  upstream_failure_fails_callback failing_connection_env proxy_cfg
    (proxy_world (some (bytes "/index.html" ++ [0]))) (bytes "/index.html" ++ [0])
    sample_upstream (bytes "origin") rfl (by decide) (Or.inl (by decide)) (by decide)
    (by decide)

/-! ## The upstream request -/

theorem memcmp_literal_eq_zero_iff (lit key rest : List Nat) (h0 : 0 ∉ lit) :
    memcmp lit (key ++ 0 :: rest) lit.length = 0 ↔ lit <+: key := by
  induction lit generalizing key with
  | nil => simp [memcmp]
  | cons a t ih =>
    have ha : a ≠ 0 := fun e => h0 (by simp [e])
    have ht : 0 ∉ t := fun h => h0 (by simp [h])
    cases key with
    | nil =>
      simp [memcmp, ha]
    | cons k ks =>
      by_cases hak : a = k
      · subst hak
        have e : memcmp (a :: t) (a :: ks ++ 0 :: rest) (a :: t).length
            = memcmp t (ks ++ 0 :: rest) t.length := by simp [memcmp]
        rw [e, ih ks ht]
        simp [List.prefix_cons_inj]
      · have : (a : Int) - (k : Int) ≠ 0 := by omega
        simp [memcmp, hak, this, List.cons_prefix_cons]

theorem memcmp_eq_zero_comm (a b : List Nat) (n : Nat) :
    memcmp a b n = 0 ↔ memcmp b a n = 0 := by
  induction n generalizing a b with
  | zero => simp [memcmp]
  | succ k ih =>
    cases a with
    | nil => cases b <;> simp [memcmp]
    | cons x xs =>
      cases b with
      | nil => simp [memcmp]
      | cons y ys =>
        by_cases hxy : x = y
        · subst hxy; simp [memcmp, ih xs ys]
        · have hyx : ¬ y = x := fun e => hxy e.symm
          have h1 : (x : Int) - (y : Int) ≠ 0 := by omega
          have h2 : (y : Int) - (x : Int) ≠ 0 := by omega
          simp [memcmp, hxy, hyx, h1, h2]

theorem starts_with_cookie_iff (nv : nghttp2_nv) :
    memcmp (bytes "cookie") (nv.name ++ [0]) 6 = 0 ↔ starts_with_cookie nv = true := by
  have h := memcmp_literal_eq_zero_iff (bytes "cookie") nv.name [] (by decide)
  have e : (bytes "cookie").length = 6 := by decide
  rw [e] at h
  rw [h, starts_with_cookie, List.isPrefixOf_iff_prefix]

theorem forward_request_header_eq (acc : List evkeyval × Option (List Nat))
    (nv : nghttp2_nv) :
    forward_request_header acc nv =
      if starts_with_cookie nv = true then
        (acc.1, some (acc.2.getD [] ++ nv.value ++ bytes "; "))
      else (acc.1 ++ [forwarded_copy nv], acc.2) := by
  unfold forward_request_header
  by_cases h : starts_with_cookie nv = true
  · rw [if_pos ((starts_with_cookie_iff nv).mpr h), if_pos h]
    cases acc.2 <;> rfl
  · rw [if_neg (fun x => h ((starts_with_cookie_iff nv).mp x)), if_neg h]
    rfl

/-- The header loop of `read_upstream_response`: the headers whose name does
not begin with `cookie` are copied in order, and the values of the others are
appended to the cookie buffer. -/
theorem forward_request_headers_foldl (hs : List nghttp2_nv)
    (acc : List evkeyval × Option (List Nat)) :
    hs.foldl forward_request_header acc =
      (acc.1 ++ (hs.filter (fun nv => !starts_with_cookie nv)).map forwarded_copy,
        if hs.any starts_with_cookie = true then
          some (acc.2.getD [] ++ joined_values (hs.filter starts_with_cookie))
        else acc.2) := by
  induction hs generalizing acc with
  | nil => simp [joined_values]
  | cons nv rest ih =>
    rw [List.foldl_cons, ih, forward_request_header_eq]
    by_cases h : starts_with_cookie nv = true
    · simp only [h, if_true, List.filter_cons, Bool.not_true, Bool.false_eq_true, if_false,
        List.any_cons, Bool.true_or, Option.getD_some, joined_values]
      by_cases hr : rest.any starts_with_cookie = true
      · simp [hr, List.append_assoc]
      · have hn : rest.filter starts_with_cookie = [] := by
          rw [List.filter_eq_nil_iff]
          intro a ha hs
          exact hr (List.any_eq_true.mpr ⟨a, ha, hs⟩)
        simp [hr, hn, joined_values]
    · have h' : starts_with_cookie nv = false := by
        cases hb : starts_with_cookie nv
        · rfl
        · exact absurd hb h
      simp [h', List.filter_cons, List.any_cons]

/-- What `read_upstream_response` forwards of the request headers: a copy of
every header whose name does not begin with `cookie`, in order, and then, when
some name begins with `cookie`, one `Cookie` header with the joined values. -/
theorem forwarded_headers_eq (hs : List nghttp2_nv) :
    forwarded_headers hs =
      (hs.filter (fun nv => !starts_with_cookie nv)).map forwarded_copy ++
        if hs.any starts_with_cookie = true then
          [⟨bytes "Cookie", cstr (joined_values (hs.filter starts_with_cookie) ++ [0])⟩]
        else [] := by
  unfold forwarded_headers
  dsimp only
  rw [forward_request_headers_foldl]
  by_cases h : hs.any starts_with_cookie = true
  · simp only [h, if_true, Option.getD_none, List.nil_append, evhttp_add_header]
    rfl
  · simp only [h, if_false, List.nil_append, Bool.false_eq_true, List.append_nil]

/-- The output headers of the upstream request are the headers the server
adds itself (`Host` and possibly `Connection`) followed by the forwarded
request headers. -/
theorem make_upstream_request_headers (r : request_rec) (up : mrb_http2_upstream)
    (host : List Nat) :
    (make_upstream_request r up host).output_headers
      = (make_upstream_request { r with reqhdr := [] } up host).output_headers
        ++ forwarded_headers r.reqhdr := by
  unfold make_upstream_request forwarded_headers
  dsimp only
  simp only [forward_request_headers_foldl, List.foldl_nil]
  by_cases h : r.reqhdr.any starts_with_cookie = true
  · simp [h, evhttp_add_header]
  · simp [h, evhttp_add_header]
/-- C12. Scenario E holds: the request headers `cookie: a=1` and `cookie: b=2`
are forwarded as the one header `Cookie: a=1; b=2; `.  But a request header
that is not named `cookie` and whose name begins with these six bytes, here
`cookie2: x`, is not forwarded individually: its value is put into a `Cookie`
header, also when the request has no header named `cookie`. -/
theorem cookie_prefix_coalesced :
    forwarded_headers [⟨bytes "cookie", bytes "a=1"⟩, ⟨bytes "cookie", bytes "b=2"⟩]
      = [⟨bytes "Cookie", bytes "a=1; b=2; "⟩] ∧
    forwarded_headers [⟨bytes "accept", bytes "*/*"⟩, ⟨bytes "cookie2", bytes "x"⟩]
      = [⟨bytes "accept", bytes "*/*"⟩, ⟨bytes "Cookie", bytes "x; "⟩] ∧
    (make_upstream_request
        (request_with (bytes "GET") [⟨bytes "accept", bytes "*/*"⟩, ⟨bytes "cookie2", bytes "x"⟩])
        sample_upstream (bytes "origin")).output_headers
      = [⟨bytes "Host", bytes "origin:8080"⟩, ⟨bytes "accept", bytes "*/*"⟩,
          ⟨bytes "Cookie", bytes "x; "⟩] :=
  ⟨by decide, by decide, by decide⟩

/-- The method of the upstream request is `POST` exactly when the first four
bytes of the stream method are `POST`. -/
theorem make_upstream_request_method (r : request_rec) (up : mrb_http2_upstream)
    (host : List Nat) :
    (make_upstream_request r up host).method = evhttp_cmd_type.EVHTTP_REQ_POST
      ↔ bytes "POST" <+: r.method := by
  have h := memcmp_literal_eq_zero_iff (bytes "POST") r.method [] (by decide)
  have e : (bytes "POST").length = 4 := by decide
  rw [e, memcmp_eq_zero_comm] at h
  unfold make_upstream_request
  dsimp only
  by_cases hm : memcmp (r.method ++ [0]) (bytes "POST") 4 = 0
  · simp only [hm, decide_True, if_true, true_iff]
    exact h.mp hm
  · simp only [hm, decide_False, Bool.false_eq_true, if_false]
    constructor
    · intro hx; cases hx
    · intro hp; exact absurd (h.mpr hp) hm

/-- When the upstream connection and the request object exist,
`read_upstream_response` calls `evhttp_make_request` with the method and URI of
`make_upstream_request`. -/
theorem read_upstream_response_request (env : Env) (cfg : mrb_http2_config_t) (w : World)
    (up : mrb_http2_upstream) (host : List Nat)
    (hconn : w.upstream_conn = true ∨ env.upstream_conn_ok = true)
    (hnew : env.evhttp_request_new_ok = true) :
    (read_upstream_response env cfg w up host).1.trace =
      w.trace ++ [Event.call reply_fn.read_upstream_response,
        Event.evhttp_make_request
          (decide ((make_upstream_request w.r up host).method
            = evhttp_cmd_type.EVHTTP_REQ_POST))
          (make_upstream_request w.r up host).uri env.evhttp_make_request_rv] := by
  have hpost : decide ((make_upstream_request w.r up host).method
      = evhttp_cmd_type.EVHTTP_REQ_POST)
      = decide (memcmp (w.r.method ++ [0]) (bytes "POST") 4 = 0) := by
    unfold make_upstream_request
    dsimp only
    by_cases hm : memcmp (w.r.method ++ [0]) (bytes "POST") 4 = 0 <;> simp [hm]
  have huri : (make_upstream_request w.r up host).uri
      = (match up.uri with
        | none => bytes "/"
        | some u => u) := rfl
  rw [hpost, huri]
  have hc : (if w.upstream_conn = false then env.upstream_conn_ok else w.upstream_conn)
      = true := by
    rcases hconn with h | h
    · simp [h]
    · by_cases h2 : w.upstream_conn = false
      · simp [h2, h]
      · simp [h2]
  unfold read_upstream_response
  dsimp only [World.emit, World.set_upstream_handles, World.set_r]
  rw [hc]
  simp only [Bool.true_eq_false, if_false, hnew]
  split_ifs
  · simp
  · rw [http_request_done_trace]; simp
  · rw [http_request_done_trace]; simp

/-- C13. The stream method `POSTX` is not `POST`, yet the upstream request is
made with `POST` (and `POST` itself and `GET` are sent as `POST` and `GET`). -/
theorem post_prefix_sent_as_post :
    (make_upstream_request (request_with (bytes "POSTX") []) sample_upstream
      (bytes "origin")).method = evhttp_cmd_type.EVHTTP_REQ_POST ∧
    (read_upstream_response sample_env proxy_cfg
      ((proxy_world none).set_r (request_with (bytes "POSTX") [])) sample_upstream
      (bytes "origin")).1.trace =
      [Event.call reply_fn.read_upstream_response,
        Event.evhttp_make_request true (bytes "/") 0] ∧
    (make_upstream_request (request_with (bytes "POST") []) sample_upstream
      (bytes "origin")).method = evhttp_cmd_type.EVHTTP_REQ_POST ∧
    (make_upstream_request (request_with (bytes "GET") []) sample_upstream
      (bytes "origin")).method = evhttp_cmd_type.EVHTTP_REQ_GET :=
  ⟨by decide, by decide, by decide, by decide⟩

/-! ## Rewriting of `Location` -/

theorem digitChar_ne_slash (n : Nat) : (Nat.digitChar n).toNat ≠ 47 := by
  by_cases h : n < 16
  · interval_cases n <;> decide
  · have e : Nat.digitChar n = '*' := by
      unfold Nat.digitChar
      iterate 16 rw [if_neg (by omega)]
    rw [e]; decide

theorem toDigitsCore_ne_slash (fuel n : Nat) (ds : List Char)
    (h : ∀ c ∈ ds, c.toNat ≠ 47) : ∀ c ∈ Nat.toDigitsCore 10 fuel n ds, c.toNat ≠ 47 := by
  induction fuel generalizing n ds with
  | zero => simpa [Nat.toDigitsCore] using h
  | succ f ih =>
    have hd : ∀ c ∈ Nat.digitChar (n % 10) :: ds, c.toNat ≠ 47 := by
      intro c hc
      rcases List.mem_cons.mp hc with e | e
      · rw [e]; exact digitChar_ne_slash _
      · exact h c e
    unfold Nat.toDigitsCore
    dsimp only
    split_ifs
    · exact hd
    · exact ih _ _ hd

theorem toDigitsCore_ne_nil (fuel n : Nat) (ds : List Char) :
    Nat.toDigitsCore 10 (fuel + 1) n ds ≠ [] := by
  induction fuel generalizing n ds with
  | zero =>
    unfold Nat.toDigitsCore
    dsimp only
    split_ifs
    · simp
    · simp [Nat.toDigitsCore]
  | succ f ih =>
    unfold Nat.toDigitsCore
    dsimp only
    split_ifs
    · simp
    · exact ih _ _

/-- The text printed for a port starts with a character other than `/`. -/
theorem decimal_head (i : Int) : ∃ d ds, decimal i = d :: ds ∧ d ≠ 47 := by
  cases i with
  | ofNat n =>
    have hne : Nat.toDigits 10 n ≠ [] := toDigitsCore_ne_nil n n []
    have hall := toDigitsCore_ne_slash (n + 1) n [] (by simp)
    have e : decimal (Int.ofNat n) = (Nat.toDigits 10 n).map Char.toNat := rfl
    rw [e]
    cases hl : Nat.toDigits 10 n with
    | nil => exact absurd hl hne
    | cons c cs =>
      refine ⟨c.toNat, cs.map Char.toNat, rfl, ?_⟩
      apply hall
      show c ∈ Nat.toDigits 10 n
      rw [hl]; simp
  | negSucc n => exact ⟨45, bytes (Nat.repr (n + 1)), rfl, by decide⟩

theorem getElem?_of_prefix {needle M : List Nat} (h : needle <+: M) (i : Nat)
    (hi : i < needle.length) : M[i]? = needle[i]? := by
  obtain ⟨t, rfl⟩ := h
  exact List.getElem?_append_left hi

/-- The first occurrence found by `strstrFrom`: a needle that follows `pre`
and occurs at no earlier offset is found at offset `pre.length`. -/
theorem strstrFrom_first (needle pre post : List Nat)
    (h : ∀ k, k < pre.length → ¬ needle <+: (pre ++ needle ++ post).drop k) :
    strstrFrom needle (pre ++ needle ++ post) = some pre.length := by
  induction pre with
  | nil =>
    have hp : needle.isPrefixOf (needle ++ post) = true :=
      List.isPrefixOf_iff_prefix.mpr (List.prefix_append _ _)
    cases hl : needle ++ post with
    | nil =>
      rw [hl] at hp
      simp [strstrFrom, hl, hp]
    | cons b rest =>
      rw [hl] at hp
      simp [strstrFrom, hl, hp]
  | cons a p ih =>
    have h0 : ¬ needle <+: a :: (p ++ needle ++ post) := by
      have := h 0 (by simp)
      simpa using this
    have hp : ¬ (needle.isPrefixOf (a :: (p ++ needle ++ post)) = true) :=
      fun x => h0 (List.isPrefixOf_iff_prefix.mp x)
    have ih' := ih (fun k hk => by
      have := h (k + 1) (by simp; omega)
      simpa using this)
    have e : (a :: p) ++ needle ++ post = a :: (p ++ needle ++ post) := by simp
    rw [e, strstrFrom, if_neg hp, ih']
    rfl

theorem http_colon_index (i : Nat) (h : (bytes "http://")[i]? = some 58) : i = 4 := by
  have hlt : i < 7 := by
    by_contra hge
    have : (bytes "http://").length ≤ i := by
      have e : (bytes "http://").length = 7 := by decide
      omega
    rw [List.getElem?_eq_none this] at h
    cases h
  interval_cases i <;> first | rfl | (exfalso; revert h; decide)

/-- In `http://` followed by `host:port` the string `host:port` does not occur
before offset 7 when the host contains no colon. -/
theorem no_early_host (host ds path : List Nat) (d : Nat) (hc : 58 ∉ host) (hd : d ≠ 47)
    (k : Nat) (hk : k < 7) :
    ¬ (host ++ 58 :: d :: ds) <+:
      (bytes "http://" ++ (host ++ 58 :: d :: ds) ++ path).drop k := by
  intro hpre
  have e7 : (bytes "http://").length = 7 := by decide
  have h1 := getElem?_of_prefix hpre host.length (by simp)
  have h2 := getElem?_of_prefix hpre (host.length + 1) (by simp)
  rw [List.getElem?_drop] at h1 h2
  have n1 : (host ++ 58 :: d :: ds)[host.length]? = some 58 := by
    rw [List.getElem?_append_right (le_refl _)]; simp
  have n2 : (host ++ 58 :: d :: ds)[host.length + 1]? = some d := by
    rw [List.getElem?_append_right (by omega)]; simp
  rw [n1] at h1
  rw [n2] at h2
  rw [List.append_assoc] at h1 h2
  by_cases hlt : k + host.length < 7
  · rw [List.getElem?_append_left (by rw [e7]; omega)] at h1
    have h4 := http_colon_index _ h1
    have h5 : k + (host.length + 1) = 5 := by omega
    rw [h5, List.getElem?_append_left (by rw [e7]; omega)] at h2
    have : (bytes "http://")[5]? = some 47 := by decide
    rw [this] at h2
    exact hd (Option.some.inj h2).symm
  · rw [List.getElem?_append_right (by rw [e7]; omega), e7, List.append_assoc,
      List.getElem?_append_left (by omega)] at h1
    exact hc (List.mem_iff_getElem?.mpr ⟨_, h1⟩)

theorem strrep_at (pre before after post : List Nat) (hb : before ≠ [])
    (h : ∀ k, k < pre.length → ¬ before <+: (pre ++ before ++ post).drop k) :
    mrb_http2_strrep (pre ++ before ++ post) before after = pre ++ after ++ post := by
  unfold mrb_http2_strrep
  rw [if_neg hb, strstrFrom_first before pre post h]
  dsimp only
  rw [List.append_assoc pre before post, List.take_left, List.drop_append, List.drop_left]

/-- The substitution of the upstream `host:port` after `http://` by the
authority. -/
theorem strrep_host (host path authority : List Nat) (port : Int) (hc : 58 ∉ host) :
    mrb_http2_strrep (bytes "http://" ++ (host ++ bytes ":" ++ decimal port) ++ path)
      (host ++ bytes ":" ++ decimal port) authority
      = bytes "http://" ++ authority ++ path := by
  obtain ⟨d, ds, hd, hne⟩ := decimal_head port
  have hU : host ++ bytes ":" ++ decimal port = host ++ 58 :: d :: ds := by
    rw [hd]; simp [bytes]
  rw [hU]
  exact strrep_at _ _ _ _ (by simp) (fun k hk =>
    no_early_host host ds path d hc hne k (by
      have e7 : (bytes "http://").length = 7 := by decide
      omega))

/-- The two substitutions turn a `Location` value that names the upstream
`host:port` after `http://` into the front scheme and authority. -/
theorem location_substitutions_eq (env : Env) (r : request_rec) (host path : List Nat)
    (port : Int) (hrep : env.mrb_http2_strrep = mrb_http2_strrep) (hc : 58 ∉ host)
    (hs : r.scheme = bytes "http" ∨ r.scheme = bytes "https") :
    location_substitutions env r (host ++ bytes ":" ++ decimal port)
      (bytes "http://" ++ (host ++ bytes ":" ++ decimal port) ++ path)
      = r.scheme ++ bytes "://" ++ r.authority ++ path := by
  have h1 := strrep_host host path r.authority port hc
  unfold location_substitutions
  rw [hrep]
  dsimp only
  rw [h1]
  rcases hs with hs | hs
  · have hl : ¬ (r.scheme.length = 5 ∧
        memcmp (bytes "http://" ++ r.authority ++ path ++ [0]) (r.scheme ++ [0])
          r.scheme.length ≠ 0) := by
      rw [hs]; intro h; exact absurd h.1 (by decide)
    rw [if_neg hl, hs]
    simp [bytes]
  · have hl : r.scheme.length = 5 ∧
        memcmp (bytes "http://" ++ r.authority ++ path ++ [0]) (r.scheme ++ [0])
          r.scheme.length ≠ 0 := by
      rw [hs]
      refine ⟨by decide, ?_⟩
      simp [bytes, memcmp]
    rw [if_pos hl, hs]
    have e : bytes "http://" ++ r.authority ++ path
        = [] ++ bytes "http" ++ (bytes "://" ++ r.authority ++ path) := by simp [bytes]
    rw [e, strrep_at [] (bytes "http") (bytes "https") _ (by decide) (by simp)]
    simp [bytes]

/-- With the front scheme `http` and an authority at least as long as the
upstream `host:port`, the rewriting of `http://<host>:<port><path>` stays
inside its block and gives `http://<authority><path>`. -/
theorem rewrite_location_http (env : Env) (r : request_rec) (host path : List Nat)
    (port : Int) (hrep : env.mrb_http2_strrep = mrb_http2_strrep) (hc : 58 ∉ host)
    (hs : r.scheme = bytes "http")
    (hl : (host ++ bytes ":" ++ decimal port).length ≤ r.authority.length)
    (hsz : (bytes "http://" ++ r.authority ++ path).length + 1 < 18446744073709551616) :
    rewrite_location env r (host ++ bytes ":" ++ decimal port)
      (bytes "http://" ++ (host ++ bytes ":" ++ decimal port) ++ path)
      = some (bytes "http://" ++ r.authority ++ path) := by
  have h1 := strrep_host host path r.authority port hc
  have hsize : location_buf_size r (host ++ bytes ":" ++ decimal port)
      (bytes "http://" ++ (host ++ bytes ":" ++ decimal port) ++ path)
      = (bytes "http://" ++ r.authority ++ path).length + 1 := by
    unfold location_buf_size
    have e : (((bytes "http://" ++ (host ++ bytes ":" ++ decimal port) ++ path).length : Nat)
          : Int) - (((host ++ bytes ":" ++ decimal port).length : Nat) : Int)
          + ((r.authority.length : Nat) : Int) + 1
        = (((bytes "http://" ++ r.authority ++ path).length + 1 : Nat) : Int) := by
      simp only [List.length_append]
      push_cast
      ring
    rw [e, to_size_t_natCast _ hsz]
  have hcopy : (bytes "http://" ++ (host ++ bytes ":" ++ decimal port) ++ path).length + 1
      ≤ (bytes "http://" ++ r.authority ++ path).length + 1 := by
    have e1 : (bytes "http://" ++ (host ++ bytes ":" ++ decimal port) ++ path).length
        = (bytes "http://").length + (host ++ bytes ":" ++ decimal port).length + path.length := by
      simp only [List.length_append]
    have e2 : (bytes "http://" ++ r.authority ++ path).length
        = (bytes "http://").length + r.authority.length + path.length := by
      simp only [List.length_append]
    omega
  have hl5 : ¬ (r.scheme.length = 5 ∧
      memcmp (bytes "http://" ++ r.authority ++ path ++ [0]) (r.scheme ++ [0])
        r.scheme.length ≠ 0) := by
    rw [hs]; intro h; exact absurd h.1 (by decide)
  unfold rewrite_location
  dsimp only
  rw [hsize, if_pos hcopy, hrep, h1, if_pos (le_refl _), if_neg hl5]

theorem fixup_status_header_front (r : request_rec) :
    (fixup_status_header r).authority = r.authority ∧
    (fixup_status_header r).scheme = r.scheme := by
  unfold fixup_status_header
  dsimp only
  split
  · exact ⟨rfl, rfl⟩
  · split <;> exact ⟨rfl, rfl⟩

theorem translate_upstream_header_front (env : Env) (cfg : mrb_http2_config_t)
    (uh : List Nat) (acc acc1 : request_rec × Bool) (h : evkeyval)
    (e : translate_upstream_header env cfg uh acc h = some acc1) :
    acc1.1.authority = acc.1.authority ∧
    acc1.1.scheme = acc.1.scheme ∧
    acc.1.reshdrs <+: acc1.1.reshdrs := by
  unfold translate_upstream_header at e
  split_ifs at e
  all_goals
    first
    | (cases e
       exact ⟨rfl, rfl, List.prefix_refl _⟩)
    | (cases e
       exact ⟨rfl, rfl, List.prefix_append _ _⟩)
    | (split at e
       · cases e
         exact ⟨rfl, rfl, List.prefix_append _ _⟩
       · cases e)

theorem translate_upstream_headers_front (env : Env) (cfg : mrb_http2_config_t)
    (uh : List Nat) (hs : List evkeyval) (acc res : request_rec × Bool)
    (e : translate_upstream_headers env cfg uh hs acc = some res) :
    res.1.authority = acc.1.authority ∧
    res.1.scheme = acc.1.scheme ∧
    acc.1.reshdrs <+: res.1.reshdrs := by
  induction hs generalizing acc with
  | nil =>
    rw [translate_upstream_headers] at e
    cases e
    exact ⟨rfl, rfl, List.prefix_refl _⟩
  | cons h rest ih =>
    rw [translate_upstream_headers] at e
    cases h1 : translate_upstream_header env cfg uh acc h with
    | none =>
      rw [h1] at e
      cases e
    | some acc1 =>
      rw [h1] at e
      obtain ⟨a1, s1, p1⟩ := translate_upstream_header_front env cfg uh acc acc1 h h1
      obtain ⟨a2, s2, p2⟩ := ih acc1 e
      exact ⟨a2.trans a1, s2.trans s1, p1.trans p2⟩

theorem translate_location (env : Env) (cfg : mrb_http2_config_t) (uh value : List Nat)
    (acc : request_rec × Bool) :
    translate_upstream_header env cfg uh acc ⟨bytes "Location", value⟩
      = (rewrite_location env acc.1 uh value).map
          (fun buf => (push_reshdr acc.1 ⟨bytes "Location", buf⟩, acc.2)) := by
  unfold translate_upstream_header
  dsimp only
  rw [if_neg (by decide), if_neg (by decide), if_neg (by decide), if_neg (by decide),
    if_neg (by decide), if_neg (by decide), if_pos (by decide)]
  cases rewrite_location env acc.1 uh value <;> rfl

theorem rewrite_location_congr (env : Env) (r r' : request_rec) (uh value : List Nat)
    (ha : r'.authority = r.authority) (hs : r'.scheme = r.scheme) :
    rewrite_location env r' uh value = rewrite_location env r uh value := by
  unfold rewrite_location location_buf_size
  rw [ha, hs]

/-- When the header loop stays inside its blocks, every `Location` header of
the upstream response appears in the translated headers with its value
rewritten for the record the loop started with. -/
theorem translate_upstream_headers_location (env : Env) (cfg : mrb_http2_config_t)
    (uh value : List Nat) (hs : List evkeyval) (acc res : request_rec × Bool)
    (hm : ⟨bytes "Location", value⟩ ∈ hs)
    (e : translate_upstream_headers env cfg uh hs acc = some res) :
    ∃ buf, rewrite_location env acc.1 uh value = some buf ∧
      ⟨bytes "Location", buf⟩ ∈ res.1.reshdrs := by
  induction hs generalizing acc with
  | nil => simp at hm
  | cons h rest ih =>
    rw [translate_upstream_headers] at e
    cases h1 : translate_upstream_header env cfg uh acc h with
    | none =>
      rw [h1] at e
      cases e
    | some acc1 =>
      rw [h1] at e
      obtain ⟨a1, s1, _⟩ := translate_upstream_header_front env cfg uh acc acc1 h h1
      rcases List.mem_cons.mp hm with e0 | e0
      · obtain ⟨_, _, p⟩ := translate_upstream_headers_front env cfg uh rest acc1 res e
        rw [← e0, translate_location] at h1
        cases hr : rewrite_location env acc.1 uh value with
        | none =>
          rw [hr] at h1
          cases h1
        | some buf =>
          rw [hr] at h1
          cases h1
          exact ⟨buf, rfl, p.subset (by simp [push_reshdr])⟩
      · obtain ⟨buf, hb, hmem⟩ := ih acc1 e0 e
        rw [rewrite_location_congr env acc.1 _ uh value a1 s1] at hb
        exact ⟨buf, hb, hmem⟩

/-- A run of `http_request_done` that stays inside its blocks leaves the
header `Location: http://<authority><path>` for an upstream header `Location:
http://<host>:<port><path>`, when the front scheme is `http` and the authority
is at least as long as the upstream `host:port`. -/
theorem location_rewritten_in_block (env : Env) (cfg : mrb_http2_config_t) (w : World)
    (req : evhttp_request) (host path : List Nat) (port : Int)
    (hrep : env.mrb_http2_strrep = mrb_http2_strrep) (hc : 58 ∉ host)
    (hport : (decimal port).length ≤ 5) (hs : w.r.scheme = bytes "http")
    (hl : (host ++ bytes ":" ++ decimal port).length ≤ w.r.authority.length)
    (hsz : (bytes "http://" ++ w.r.authority ++ path).length + 1 < 18446744073709551616)
    (hm : ⟨bytes "Location", bytes "http://" ++ (host ++ bytes ":" ++ decimal port) ++ path⟩
      ∈ req.input_headers)
    (hf : (http_request_done env cfg w
      ((host ++ bytes ":" ++ decimal port).take (host.length + 6)) (some req)).fault = false) :
    ⟨bytes "Location", bytes "http://" ++ w.r.authority ++ path⟩ ∈
      (http_request_done env cfg w
        ((host ++ bytes ":" ++ decimal port).take (host.length + 6)) (some req)).r.reshdrs := by
  have hU : (host ++ bytes ":" ++ decimal port).take (host.length + 6)
      = host ++ bytes ":" ++ decimal port := by
    apply List.take_of_length_le
    simp [bytes]; omega
  rw [hU] at hf ⊢
  obtain ⟨ha, hsc⟩ := fixup_status_header_front (set_status_record w.r req.response_code)
  have ha' : (fixup_status_header (set_status_record w.r req.response_code)).authority
      = w.r.authority := ha
  have hs' : (fixup_status_header (set_status_record w.r req.response_code)).scheme
      = w.r.scheme := hsc
  have hrw := rewrite_location_http env
    (fixup_status_header (set_status_record w.r req.response_code)) host path port hrep hc
    (by rw [hs']; exact hs) (by rw [ha']; exact hl) (by rw [ha']; exact hsz)
  rw [ha'] at hrw
  unfold http_request_done at hf ⊢
  dsimp only at hf ⊢
  cases hres : translate_upstream_headers env cfg (host ++ bytes ":" ++ decimal port)
      req.input_headers (fixup_status_header (set_status_record w.r req.response_code), false) with
  | none =>
    rw [hres] at hf
    cases hf
  | some res =>
    obtain ⟨buf, hb, hmem⟩ := translate_upstream_headers_location env cfg _ _ _ _ res hm hres
    rw [hrw] at hb
    cases hb
    dsimp only [World.set_r, World.set_stream]
    split_ifs
    · simp only [push_reshdr, List.mem_append]
      exact Or.inl hmem
    · exact hmem

/-- C14. The code at the upstream header `Location: http://origin:8080/x` from
the upstream `origin:8080` for a request with the front scheme `https` and the
authority `example.com`: the block `buf` has 21 bytes, the rewritten value
`https://example.com/x` and its NUL need 22, so the rewriting writes outside
the block and `http_request_done` leaves the defined behaviour of C instead of
emitting `Location: https://example.com/x`.  With the front scheme `http` and
the same authority the run stays inside the block and emits
`Location: http://example.com/x`. -/
theorem location_rewrite_leaves_block :
    location_buf_size (front_world (bytes "https") (bytes "example.com")).r
      (bytes "origin:8080") (bytes "http://origin:8080/x") = 21 ∧
    (location_substitutions redirecting_env (front_world (bytes "https") (bytes "example.com")).r
      (bytes "origin:8080") (bytes "http://origin:8080/x") ++ [0]).length = 22 ∧
    rewrite_location redirecting_env (front_world (bytes "https") (bytes "example.com")).r
      (bytes "origin:8080") (bytes "http://origin:8080/x") = none ∧
    (http_request_done redirecting_env proxy_cfg
      (front_world (bytes "https") (bytes "example.com")) (bytes "origin:8080")
      (some ⟨302, [⟨bytes "Server", bytes "origin-httpd"⟩,
        ⟨bytes "Location", bytes "http://origin:8080/x"⟩], 0⟩)).fault = true ∧
    (http_request_done redirecting_env proxy_cfg
      (front_world (bytes "http") (bytes "example.com")) (bytes "origin:8080")
      (some ⟨302, [⟨bytes "Server", bytes "origin-httpd"⟩,
        ⟨bytes "Location", bytes "http://origin:8080/x"⟩], 0⟩)).fault = false ∧
    ⟨bytes "Location", bytes "http://example.com/x"⟩ ∈
      (http_request_done redirecting_env proxy_cfg
        (front_world (bytes "http") (bytes "example.com")) (bytes "origin:8080")
        (some ⟨302, [⟨bytes "Server", bytes "origin-httpd"⟩,
          ⟨bytes "Location", bytes "http://origin:8080/x"⟩], 0⟩)).r.reshdrs := by
  refine ⟨by decide, by decide, by decide, by decide, by decide, by decide⟩

/-! ## Translation of the upstream response headers -/

theorem key_is_iff (lit : String) (key : List Nat) (h0 : 0 ∉ bytes lit) :
    key_is lit key = true ↔ key = bytes lit := by
  unfold key_is
  rw [Bool.and_eq_true, decide_eq_true_iff, decide_eq_true_iff,
    memcmp_literal_eq_zero_iff (bytes lit) key [] h0]
  constructor
  · rintro ⟨hl, hp⟩
    exact (hp.eq_of_length hl.symm).symm
  · intro h
    rw [h]
    exact ⟨rfl, List.prefix_refl _⟩

theorem via_prefix_iff (key : List Nat) :
    memcmp (bytes "Via") (key ++ [0]) 3 = 0 ↔ bytes "Via" <+: key :=
  memcmp_literal_eq_zero_iff (bytes "Via") key [] (by decide)

/-- One iteration of the header loop leaves the response headers as they are
exactly for the five hop-by-hop names. -/
theorem translate_drops_iff (env : Env) (cfg : mrb_http2_config_t) (uh : List Nat)
    (acc acc1 : request_rec × Bool) (h : evkeyval)
    (e : translate_upstream_header env cfg uh acc h = some acc1) :
    acc1.1.reshdrs = acc.1.reshdrs ↔ h.key ∈ hop_by_hop := by
  have k1 := key_is_iff "Connection" h.key (by decide)
  have k2 := key_is_iff "Transfer-Encoding" h.key (by decide)
  have k3 := key_is_iff "Keep-Alive" h.key (by decide)
  have k4 := key_is_iff "Proxy-Connection" h.key (by decide)
  have k5 := key_is_iff "Upgrade" h.key (by decide)
  have hv := via_prefix_iff h.key
  have hnot : ¬ key_is "Connection" h.key = true → ¬ key_is "Transfer-Encoding" h.key = true →
      ¬ key_is "Keep-Alive" h.key = true → ¬ key_is "Proxy-Connection" h.key = true →
      ¬ key_is "Upgrade" h.key = true → h.key ∉ hop_by_hop := by
    intro c1 c2 c3 c4 c5 hm
    unfold hop_by_hop at hm
    simp only [List.mem_cons, List.mem_singleton, List.not_mem_nil, or_false] at hm
    rcases hm with e | e | e | e | e
    · exact c1 (k1.mpr e)
    · exact c2 (k2.mpr e)
    · exact c3 (k3.mpr e)
    · exact c4 (k4.mpr e)
    · exact c5 (k5.mpr e)
  have hgrow : ∀ (r : request_rec) (nv : nghttp2_nv),
      ¬ (push_reshdr r nv).reshdrs = r.reshdrs := by
    intro r nv
    simp [push_reshdr]
  unfold translate_upstream_header at e
  split_ifs at e with c0 c1 c2 c3 c4 c5 c6
  · cases e
    have hp := hv.mp c0
    refine ⟨fun x => absurd x (hgrow _ _), fun hm => ?_⟩
    unfold hop_by_hop at hm
    simp only [List.mem_cons, List.mem_singleton, List.not_mem_nil, or_false] at hm
    rcases hm with e | e | e | e | e <;> rw [e] at hp <;> exact absurd hp (by decide)
  · cases e
    exact ⟨fun _ => by rw [k1.mp c1]; decide, fun _ => rfl⟩
  · cases e
    exact ⟨fun _ => by rw [k2.mp c2]; decide, fun _ => rfl⟩
  · cases e
    exact ⟨fun _ => by rw [k3.mp c3]; decide, fun _ => rfl⟩
  · cases e
    exact ⟨fun _ => by rw [k4.mp c4]; decide, fun _ => rfl⟩
  · cases e
    exact ⟨fun _ => by rw [k5.mp c5]; decide, fun _ => rfl⟩
  · split at e
    · cases e
      exact ⟨fun x => absurd x (hgrow _ _), fun hm => absurd hm (hnot c1 c2 c3 c4 c5)⟩
    · cases e
  · cases e
    exact ⟨fun x => absurd x (hgrow _ _), fun hm => absurd hm (hnot c1 c2 c3 c4 c5)⟩

/-- One iteration of the header loop copies a header whose name does not begin
with `Via`, is not hop-by-hop and is not `Location`. -/
theorem translate_copies (env : Env) (cfg : mrb_http2_config_t) (uh : List Nat)
    (acc : request_rec × Bool) (h : evkeyval) (hv : ¬ bytes "Via" <+: h.key)
    (hh : h.key ∉ hop_by_hop) (hl : h.key ≠ bytes "Location") :
    translate_upstream_header env cfg uh acc h
      = some (push_reshdr acc.1 ⟨h.key, h.value⟩, acc.2) := by
  have k1 := key_is_iff "Connection" h.key (by decide)
  have k2 := key_is_iff "Transfer-Encoding" h.key (by decide)
  have k3 := key_is_iff "Keep-Alive" h.key (by decide)
  have k4 := key_is_iff "Proxy-Connection" h.key (by decide)
  have k5 := key_is_iff "Upgrade" h.key (by decide)
  have k6 := key_is_iff "Location" h.key (by decide)
  have n0 : ¬ memcmp (bytes "Via") (h.key ++ [0]) 3 = 0 := fun c =>
    hv ((via_prefix_iff h.key).mp c)
  have n1 : ¬ key_is "Connection" h.key = true := fun c => hh (by rw [k1.mp c]; decide)
  have n2 : ¬ key_is "Transfer-Encoding" h.key = true := fun c => hh (by rw [k2.mp c]; decide)
  have n3 : ¬ key_is "Keep-Alive" h.key = true := fun c => hh (by rw [k3.mp c]; decide)
  have n4 : ¬ key_is "Proxy-Connection" h.key = true := fun c => hh (by rw [k4.mp c]; decide)
  have n5 : ¬ key_is "Upgrade" h.key = true := fun c => hh (by rw [k5.mp c]; decide)
  have n6 : ¬ key_is "Location" h.key = true := fun c => hl (k6.mp c)
  unfold translate_upstream_header
  rw [if_neg n0, if_neg n1, if_neg n2, if_neg n3, if_neg n4, if_neg n5, if_neg n6]

/-- C15. The upstream response header `Via-Upstream: edge-7` is neither `Via`
nor `Location` nor hop-by-hop, yet it is not copied unchanged: its value is
replaced by the server name (and no `via` header is appended).  The header
`Server: origin-httpd` next to it is copied and `Connection: close` is
dropped. -/
theorem via_prefix_value_replaced :
    (http_request_done sample_env proxy_cfg (proxy_world none) (bytes "origin:8080")
      (some ⟨200, [⟨bytes "Server", bytes "origin-httpd"⟩, ⟨bytes "Connection", bytes "close"⟩,
        ⟨bytes "Via-Upstream", bytes "edge-7"⟩], 0⟩)).r.reshdrs
      = [⟨bytes ":status", bytes "200"⟩, ⟨bytes "Server", bytes "origin-httpd"⟩,
          ⟨bytes "Via-Upstream", bytes "mruby-http2"⟩] := by
  decide

/-! ## Worker count -/

theorem to_uint32_small (x : Int) (h0 : 0 ≤ x) (h1 : x < 4294967296) :
    (to_uint32 x : Int) = x := by
  unfold to_uint32
  rw [Int.emod_eq_of_lt h0 h1, Int.toNat_of_nonneg h0]

/-- What `mrb_http2_config_get_worker` returns for a parameter that passes its
checks and does not give a negative `int`: a count from 0 to the maximum. -/
theorem get_worker_in_range (p : platform) (w : mrb_value) (k : Nat)
    (hmax : 0 ≤ p.MRB_HTTP2_WORKER_MAX) (hint : p.MRB_HTTP2_WORKER_MAX < 2147483648)
    (hneg : ∀ n, w = mrb_value.fixnum n → 0 ≤ to_int32 n)
    (hk : mrb_http2_config_get_worker p w = Except.ok k) :
    (k : Int) ≤ p.MRB_HTTP2_WORKER_MAX := by
  have hres : ∀ worker : Int, 0 ≤ worker → worker ≤ p.MRB_HTTP2_WORKER_MAX →
      worker_result p worker = Except.ok k → (k : Int) ≤ p.MRB_HTTP2_WORKER_MAX := by
    intro worker h0 h1 h
    unfold worker_result at h
    injection h with h
    rw [← h]
    by_cases hr : p.reuseport = true
    · rw [if_pos hr, to_uint32_small worker h0 (by omega)]; exact h1
    · rw [if_neg hr, to_uint32_small 0 (le_refl _) (by decide)]; exact hmax
  unfold mrb_http2_config_get_worker at hk
  cases w with
  | mrb_nil => exact hres 0 (le_refl _) hmax hk
  | mrb_true => cases hk
  | mrb_false => cases hk
  | other t => cases hk
  | fixnum n =>
    dsimp only at hk
    split_ifs at hk with h1
    exact hres _ (hneg n rfl) (by omega) hk
  | string s =>
    dsimp only at hk
    split_ifs at hk with h1 h2 h3
    exact hres _ (by omega) (by omega) hk

/-- C16. The worker parameter `-1` is a negative count, yet with port reuse
`mrb_http2_config_get_worker` does not raise: it returns the `unsigned int`
4294967295, which is above the maximum. -/
theorem negative_worker_accepted (p : platform) (hr : p.reuseport = true)
    (hmax : 0 ≤ p.MRB_HTTP2_WORKER_MAX) (hint : p.MRB_HTTP2_WORKER_MAX < 2147483648) :
    mrb_http2_config_get_worker p (mrb_value.fixnum (-1)) = Except.ok 4294967295 ∧
    ¬ ((4294967295 : Int) ≤ p.MRB_HTTP2_WORKER_MAX) := by
  constructor
  · unfold mrb_http2_config_get_worker
    dsimp only
    have e : to_int32 (-1) = -1 := by decide
    rw [e, if_neg (by omega)]
    unfold worker_result
    rw [if_pos hr]
    rfl
  · omega

/-- C16 at a Linux build with a maximum of 64 workers. -/
theorem negative_worker_accepted_witness :
    linux_platform.reuseport = true ∧ 0 ≤ linux_platform.MRB_HTTP2_WORKER_MAX ∧
    linux_platform.MRB_HTTP2_WORKER_MAX < 2147483648 ∧
    mrb_http2_config_get_worker linux_platform (mrb_value.fixnum (-1))
      = Except.ok 4294967295 ∧
    ¬ ((4294967295 : Int) ≤ linux_platform.MRB_HTTP2_WORKER_MAX) :=
  ⟨rfl, by decide, by decide,
    negative_worker_accepted linux_platform rfl (by decide) (by decide)⟩

/-- C17, as stated, fails: without port reuse, `"auto"` with 128 CPUs and a
maximum of 64, the fixnum 65 and the value `true` each raise. -/
theorem downgrade_still_raises :
    other_platform.reuseport = false ∧
    mrb_http2_config_get_worker other_platform (mrb_value.string (bytes "auto"))
      = Except.error "failed sysconf(_SC_NPROCESSORS_ONLN)" ∧
    mrb_http2_config_get_worker other_platform (mrb_value.fixnum 65)
      = Except.error "invalid worker parameter: %S > MRB_HTTP2_WORKER_MAX(%S)" ∧
    mrb_http2_config_get_worker other_platform mrb_value.mrb_true
      = Except.error "invalid worker parmeter: %S" :=
  ⟨rfl, rfl, rfl, rfl⟩

/-- C17 amended. Without port reuse `mrb_http2_config_get_worker` returns 0 for
every worker parameter that passes its checks (nil, `"auto"` with a CPU count
from 0 to the maximum, a fixnum not above the maximum) and raises for every
other parameter. -/
theorem downgrade_after_checks (p : platform) (w : mrb_value) (hr : p.reuseport = false) :
    (worker_passes p w → mrb_http2_config_get_worker p w = Except.ok 0) ∧
    (¬ worker_passes p w → ∃ e, mrb_http2_config_get_worker p w = Except.error e) := by
  have hres : ∀ worker : Int, worker_result p worker = Except.ok 0 := by
    intro worker
    unfold worker_result
    rw [hr]
    rfl
  unfold worker_passes mrb_http2_config_get_worker
  cases w with
  | mrb_nil => exact ⟨fun _ => hres 0, fun h => absurd (Or.inl rfl) h⟩
  | mrb_true => exact ⟨by simp, fun _ => ⟨_, rfl⟩⟩
  | mrb_false => exact ⟨by simp, fun _ => ⟨_, rfl⟩⟩
  | other t => exact ⟨by simp, fun _ => ⟨_, rfl⟩⟩
  | fixnum n =>
    dsimp only
    by_cases h1 : to_int32 n > p.MRB_HTTP2_WORKER_MAX
    · rw [if_pos h1]
      refine ⟨?_, fun _ => ⟨_, rfl⟩⟩
      rintro (h | h | ⟨m, hm, hle⟩)
      · cases h
      · cases h.1
      · injection hm with hm
        subst hm
        omega
    · rw [if_neg h1]
      exact ⟨fun _ => hres _, fun h => absurd (Or.inr (Or.inr ⟨n, rfl, by omega⟩)) h⟩
  | string s =>
    dsimp only
    by_cases hs : s = bytes "auto"
    · rw [if_pos hs]
      by_cases h1 : to_int32 p.nprocessors_onln < 0 ∨
          to_int32 p.nprocessors_onln > p.MRB_HTTP2_WORKER_MAX
      · rw [if_pos h1]
        refine ⟨?_, fun _ => ⟨_, rfl⟩⟩
        rintro (h | h | ⟨m, hm, _⟩)
        · cases h
        · omega
        · cases hm
      · rw [if_neg h1, if_neg (by omega)]
        refine ⟨fun _ => hres _, fun h => absurd (Or.inr (Or.inl ⟨by rw [hs], ?_, ?_⟩)) h⟩
        · omega
        · omega
    · rw [if_neg hs]
      refine ⟨?_, fun _ => ⟨_, rfl⟩⟩
      rintro (h | h | ⟨m, hm, _⟩)
      · cases h
      · injection h.1 with h'
        exact absurd h' hs
      · cases hm

/-- C17 amended, witness: without port reuse the fixnum 8 gives 0. -/
theorem downgrade_after_checks_witness :
    other_platform.reuseport = false ∧
    (worker_passes other_platform (mrb_value.fixnum 8) →
      mrb_http2_config_get_worker other_platform (mrb_value.fixnum 8) = Except.ok 0) ∧
    (¬ worker_passes other_platform (mrb_value.fixnum 8) →
      ∃ e, mrb_http2_config_get_worker other_platform (mrb_value.fixnum 8)
        = Except.error e) :=
  ⟨rfl, downgrade_after_checks other_platform (mrb_value.fixnum 8) rfl⟩

/-! ## TLS key and certificate -/

theorem mrb_str_to_cstr_path (s : List Nat) (h : 0 ∉ s) :
    mrb_str_to_cstr (mrb_value.string s) = Except.ok s := by
  simp [mrb_str_to_cstr, h]

theorem config_cstrs_tls (args : String → mrb_value) (c c' : mrb_http2_config_t)
    (h : config_cstrs args c = Except.ok c') : c'.tls = c.tls := by
  unfold config_cstrs at h
  split at h
  · cases h
  · split at h
    · cases h
    · split at h
      · cases h
      · split at h
        · cases h
        · split at h
          · cases h
          · injection h with h
            rw [← h]

theorem set_config_worker_tls (p : platform) (c c' : mrb_http2_config_t) (val : mrb_value)
    (h : set_config_worker p c val = Except.ok c') : c'.tls = c.tls := by
  unfold set_config_worker at h
  split at h
  · injection h with h
    rw [← h]
  · cases h

/-- After the options before `key`, TLS is enabled unless the `tls` option is
`false`. -/
theorem config_before_key_tls (p : platform) (args : String → mrb_value)
    (c : mrb_http2_config_t) (h : config_before_key p args = Except.ok c) :
    c.tls = mrb_http2_config_define_flag true (args "tls") := by
  unfold config_before_key at h
  split at h
  · cases h
  · rename_i c1 h1
    rw [set_config_worker_tls p _ c _ h]
    have := config_cstrs_tls args _ c1 h1
    exact this

/-- C18. `mrb_http2_s_config_init` raises when TLS is enabled (no `tls` option,
or `tls: true`) and the `key` or the `crt` option is missing.  When the options
before `key` are accepted and give the configuration `c0`: with TLS enabled and
both paths given it returns `c0` with `key` and `cert` set to them; with
`tls: false` it returns `c0` with `key` and `cert` NULL, whatever values were
given for them. -/
theorem tls_key_and_crt (p : platform) (args : String → mrb_value) :
    (tls_enabled args →
      (args "key" = mrb_value.mrb_nil ∨ args "crt" = mrb_value.mrb_nil) →
      ∃ e, mrb_http2_s_config_init p args = Except.error e) ∧
    (∀ c0 k c, tls_enabled args → config_before_key p args = Except.ok c0 →
      args "key" = mrb_value.string k → 0 ∉ k →
      args "crt" = mrb_value.string c → 0 ∉ c →
      mrb_http2_s_config_init p args = Except.ok { c0 with key := some k, cert := some c }) ∧
    (∀ c0, args "tls" = mrb_value.mrb_false → config_before_key p args = Except.ok c0 →
      mrb_http2_s_config_init p args = Except.ok { c0 with key := none, cert := none }) := by
  have hon : tls_enabled args → mrb_http2_config_define_flag true (args "tls") = true := by
    rintro (h | h) <;> rw [h] <;> rfl
  refine ⟨?_, ?_, ?_⟩
  · intro ht hmiss
    unfold mrb_http2_s_config_init
    cases h0 : config_before_key p args with
    | error e => exact ⟨e, rfl⟩
    | ok c0 =>
      have htls : c0.tls = true := by rw [config_before_key_tls p args c0 h0]; exact hon ht
      dsimp only
      cases h1 : set_config_key c0 (args "key") with
      | error e => exact ⟨e, rfl⟩
      | ok c1 =>
        dsimp only
        rcases hmiss with hk | hc
        · unfold set_config_key at h1
          rw [if_pos htls, if_pos hk] at h1
          cases h1
        · have htls1 : c1.tls = true := by
            unfold set_config_key at h1
            rw [if_pos htls] at h1
            split_ifs at h1
            split at h1
            · injection h1 with h1
              rw [← h1]; exact htls
            · cases h1
          unfold set_config_crt
          rw [if_pos htls1, if_pos hc]
          exact ⟨_, rfl⟩
  · intro c0 k c ht h0 hk hk0 hc hc0
    have htls : c0.tls = true := by rw [config_before_key_tls p args c0 h0]; exact hon ht
    unfold mrb_http2_s_config_init
    rw [h0]
    dsimp only
    have e1 : set_config_key c0 (args "key") = Except.ok { c0 with key := some k } := by
      unfold set_config_key
      rw [if_pos htls, hk, if_neg (by simp), mrb_str_to_cstr_path k hk0]
    rw [e1]
    dsimp only
    unfold set_config_crt
    rw [if_pos htls, hc, if_neg (by simp), mrb_str_to_cstr_path c hc0]
  · intro c0 ht h0
    have htls : c0.tls = false := by
      rw [config_before_key_tls p args c0 h0, ht]; rfl
    unfold mrb_http2_s_config_init
    rw [h0]
    dsimp only
    have e1 : set_config_key c0 (args "key") = Except.ok { c0 with key := none } := by
      unfold set_config_key
      rw [if_neg (by rw [htls]; simp)]
    rw [e1]
    dsimp only
    unfold set_config_crt
    rw [if_neg (by rw [htls]; simp)]

/-- C18 at concrete options: port 8080 with `key: "k.pem"`, `crt: "c.pem"` and
no `tls` option gives a configuration with both paths; `tls: true` without
`crt` raises; `tls: false` with a key given leaves `key` and `cert` NULL. -/
theorem tls_key_and_crt_witness :
    (mrb_http2_s_config_init linux_platform
      (sample_args mrb_value.mrb_nil (mrb_value.string (bytes "k.pem"))
        (mrb_value.string (bytes "c.pem")))).toOption.map
        (fun c => (c.tls, c.key, c.cert))
      = some (true, some (bytes "k.pem"), some (bytes "c.pem")) ∧
    (∃ e, mrb_http2_s_config_init linux_platform
      (sample_args mrb_value.mrb_true (mrb_value.string (bytes "k.pem")) mrb_value.mrb_nil)
      = Except.error e) ∧
    (mrb_http2_s_config_init linux_platform
      (sample_args mrb_value.mrb_false (mrb_value.string (bytes "k.pem"))
        mrb_value.mrb_nil)).toOption.map (fun c => (c.tls, c.key, c.cert))
      = some (false, none, none) := by
  refine ⟨?_, ?_, ?_⟩
  · obtain ⟨c0, h0⟩ : ∃ c0, config_before_key linux_platform
        (sample_args mrb_value.mrb_nil (mrb_value.string (bytes "k.pem"))
          (mrb_value.string (bytes "c.pem"))) = Except.ok c0 := ⟨_, rfl⟩
    have ht := config_before_key_tls _ _ c0 h0
    rw [(tls_key_and_crt linux_platform _).2.1 c0 (bytes "k.pem") (bytes "c.pem")
      (Or.inl rfl) h0 rfl (by decide) rfl (by decide)]
    simp only [Except.toOption, Option.map_some', ht]
    rfl
  · exact (tls_key_and_crt linux_platform _).1 (Or.inr rfl) (Or.inr rfl)
  · obtain ⟨c0, h0⟩ : ∃ c0, config_before_key linux_platform
        (sample_args mrb_value.mrb_false (mrb_value.string (bytes "k.pem"))
          mrb_value.mrb_nil) = Except.ok c0 := ⟨_, rfl⟩
    have ht := config_before_key_tls _ _ c0 h0
    rw [(tls_key_and_crt linux_platform _).2.2 c0 rfl h0]
    simp only [Except.toOption, Option.map_some', ht]
    rfl

/-! ## Respawn of a worker -/

theorem respawn_scan_first (wpid fork_rv : Int) (pid : Nat → Int) (k : Nat)
    (hpid : pid k = wpid) (n i : Nat) (hi : i ≤ k) (hk : k < i + n)
    (hfirst : ∀ j, i ≤ j → j < k → pid j ≠ wpid) :
    respawn_scan wpid fork_rv pid i n = (Function.update pid k fork_rv, k, 1) := by
  induction n generalizing i with
  | zero => omega
  | succ m ih =>
    unfold respawn_scan
    by_cases hik : i = k
    · subst hik
      rw [if_pos hpid.symm]
    · have hne : ¬ wpid = pid i := fun e => hfirst i (le_refl _) (by omega) e.symm
      rw [if_neg hne]
      exact ih (i + 1) (by omega) (by omega) (fun j h1 h2 => hfirst j (by omega) h2)

/-- C19. In one pass of the monitor loop in which `wait` reports the pid held
by slot `k` (the first slot that holds it): when `prepare_kill` is not set,
`fork` is called once, slot `k` holds what `fork` returned, every other slot is
unchanged and the loop goes on; when `prepare_kill` is set, `fork` is not
called, the table is unchanged and the function returns. -/
theorem respawn_in_same_slot (worker : Nat) (s : supervisor) (wpid fork_rv : Int) (k : Nat)
    (hk : k < worker) (hpid : s.pid k = wpid) (hfirst : ∀ j, j < k → s.pid j ≠ wpid) :
    (s.prepare_kill = false →
      (monitor worker s wpid fork_rv).forks = 1 ∧
      (monitor worker s wpid fork_rv).pid k = fork_rv ∧
      (∀ j, j ≠ k → (monitor worker s wpid fork_rv).pid j = s.pid j) ∧
      (monitor worker s wpid fork_rv).returned = false) ∧
    (s.prepare_kill = true →
      (monitor worker s wpid fork_rv).forks = 0 ∧
      (monitor worker s wpid fork_rv).pid = s.pid ∧
      (monitor worker s wpid fork_rv).returned = true) := by
  constructor
  · intro hf
    have hscan := respawn_scan_first wpid fork_rv s.pid k hpid worker 0 (Nat.zero_le _)
      (by omega) (fun j _ h => hfirst j h)
    unfold monitor
    rw [if_neg (by rw [hf]; simp)]
    dsimp only
    rw [hscan]
    refine ⟨rfl, by simp, ?_, rfl⟩
    intro j hj
    simp [Function.update, hj]
  · intro ht
    unfold monitor
    rw [if_pos ht]
    exact ⟨rfl, rfl, rfl⟩

/-- C19 witness: three workers, worker 102 of slot 1 exits and the new child
is 204. -/
theorem respawn_in_same_slot_witness :
    ((monitor 3 sample_supervisor 102 204).forks = 1 ∧
      (monitor 3 sample_supervisor 102 204).pid 1 = 204 ∧
      (∀ j, j ≠ 1 → (monitor 3 sample_supervisor 102 204).pid j = sample_supervisor.pid j) ∧
      (monitor 3 sample_supervisor 102 204).returned = false) :=
  (respawn_in_same_slot 3 sample_supervisor 102 204 1 (by decide) rfl
    (fun j hj => by
      have e : j = 0 := by omega
      subst e
      decide)).1 rfl

/-! ## Growth of the response header array -/

theorem fixup_status_header_length (r : request_rec) :
    (fixup_status_header r).reshdrs.length ≤ r.reshdrs.length + 1 := by
  unfold fixup_status_header
  dsimp only
  split
  · rename_i h; simp [h, MRB_HTTP2_CREATE_NV_CS]
  · rename_i first rest h
    split <;> simp [h]

theorem set_reshdrs_length (r : request_rec) (key val : List Nat) :
    (mrb_http2_set_reshdrs r key val).1.reshdrs.length ≤ r.reshdrs.length + 1 := by
  unfold mrb_http2_set_reshdrs
  split <;> simp [push_reshdr]

theorem reshdr_op_length (r : request_rec) (op : reshdr_op) :
    (op.apply r).reshdrs.length ≤ r.reshdrs.length + 1 := by
  cases op with
  | set_reshdrs key val => exact set_reshdrs_length r key val
  | fixup_status_header => exact fixup_status_header_length r
  | append name value => simp [reshdr_op.apply, push_reshdr]

theorem apply_reshdr_ops_length (r : request_rec) (ops : List reshdr_op) :
    (apply_reshdr_ops r ops).reshdrs.length ≤ r.reshdrs.length + ops.length := by
  unfold apply_reshdr_ops
  induction ops generalizing r with
  | nil => simp
  | cons op rest ih =>
    rw [List.foldl_cons]
    have h1 := ih (op.apply r)
    have h2 := reshdr_op_length r op
    simp only [List.length_cons]
    omega

theorem apply_appends_length (r : request_rec) (n : Nat) :
    (apply_reshdr_ops r (List.replicate n (reshdr_op.append "server" []))).reshdrs.length
      = r.reshdrs.length + n := by
  unfold apply_reshdr_ops
  induction n generalizing r with
  | zero => simp
  | succ m ih =>
    rw [List.replicate_succ, List.foldl_cons, ih]
    simp [reshdr_op.apply, push_reshdr]
    omega

/-- C20, as stated, fails: no number bounds `reshdrslen` over all sequences of
operations from the empty list; `max + 1` appends give `max + 1` entries. -/
theorem reshdrslen_unbounded :
    ¬ ∃ max : Nat, ∀ ops : List reshdr_op,
      (apply_reshdr_ops sample_rec ops).reshdrs.length ≤ max := by
  rintro ⟨max, h⟩
  have h1 := h (List.replicate (max + 1) (reshdr_op.append "server" []))
  rw [apply_appends_length] at h1
  have : sample_rec.reshdrs.length = 0 := rfl
  omega

/-- C20 amended. No operation that adds response headers checks the maximum;
each adds at most one entry.  Starting from an empty list, a sequence of
operations leaves `reshdrslen` at most the number of operations, hence at most
`max` for a sequence of at most `max` operations. -/
theorem reshdrslen_at_most_operations (r : request_rec) (ops : List reshdr_op) (max : Nat)
    (hr : r.reshdrs = []) (hn : ops.length ≤ max) :
    (apply_reshdr_ops r ops).reshdrs.length ≤ ops.length ∧
    (apply_reshdr_ops r ops).reshdrs.length ≤ max := by
  have h := apply_reshdr_ops_length r ops
  rw [hr] at h
  simp only [List.length_nil, Nat.zero_add] at h
  exact ⟨h, le_trans h hn⟩

/-- C20 amended, witness: a hook sets `x-a` twice and `x-b`, then the status
header is fixed up and `server` is appended: five operations, four entries. -/
theorem reshdrslen_at_most_operations_witness :
    sample_rec.reshdrs = [] ∧
    [reshdr_op.set_reshdrs (bytes "x-a") (bytes "1"),
      reshdr_op.set_reshdrs (bytes "x-b") (bytes "2"),
      reshdr_op.set_reshdrs (bytes "x-a") (bytes "3"),
      reshdr_op.fixup_status_header,
      reshdr_op.append "server" (bytes "mruby-http2")].length ≤ 128 ∧
    (apply_reshdr_ops sample_rec
      [reshdr_op.set_reshdrs (bytes "x-a") (bytes "1"),
        reshdr_op.set_reshdrs (bytes "x-b") (bytes "2"),
        reshdr_op.set_reshdrs (bytes "x-a") (bytes "3"),
        reshdr_op.fixup_status_header,
        reshdr_op.append "server" (bytes "mruby-http2")]).reshdrs.length ≤ 5 ∧
    (apply_reshdr_ops sample_rec
      [reshdr_op.set_reshdrs (bytes "x-a") (bytes "1"),
        reshdr_op.set_reshdrs (bytes "x-b") (bytes "2"),
        reshdr_op.set_reshdrs (bytes "x-a") (bytes "3"),
        reshdr_op.fixup_status_header,
        reshdr_op.append "server" (bytes "mruby-http2")]).reshdrs.length ≤ 128 :=
  ⟨rfl, by decide,
    reshdrslen_at_most_operations sample_rec _ 128 rfl (by decide)⟩

/-! ## `fixup_status_header` with `:status` at a later index -/

/-- When the first `:status` entry is at an index above 0, `fixup_status_header`
leaves every entry after slot 0 where it is, the `:status` entry included,
writes a copy of that entry into slot 0 and appends the former slot-0 entry:
the list grows by one and has one `:status` entry more. -/
theorem fixup_status_header_later_index (r : request_rec) (first : nghttp2_nv)
    (rest : List nghttp2_nv) (k : Nat) (hr : r.reshdrs = first :: rest)
    (hi : mrb_http2_get_nv_id r.reshdrs (bytes ":status") = some (k + 1)) :
    ∃ st, rest[k]? = some st ∧ st.name = bytes ":status" ∧
      (fixup_status_header r).reshdrs = st :: rest ++ [first] := by
  have hlt := mrb_http2_get_nv_id_lt _ _ _ hi
  have hname := mrb_http2_get_nv_id_name _ _ _ first hi
  rw [hr] at hlt hname
  simp only [List.length_cons, Nat.add_lt_add_iff_right] at hlt
  simp only [List.getD_cons_succ] at hname
  rw [List.getD_eq_getElem?_getD, List.getElem?_eq_getElem hlt] at hname
  refine ⟨rest[k], List.getElem?_eq_getElem hlt, by simpa using hname, ?_⟩
  unfold fixup_status_header
  rw [hi]
  simp only [hr]
  simp [List.getD_cons_succ, List.getD_eq_getElem?_getD, List.getElem?_append_left hlt,
    List.getElem?_eq_getElem hlt]

/-- C21. For the response headers `x-a: 1`, `:status: 200`, where `:status`
is at index 1, `fixup_status_header` does not rearrange the two entries: the
result has three entries, `:status` at index 0 and again at index 1, and
`x-a` last, so `:status` occurs twice where it occurred once. -/
theorem status_entry_duplicated :
    (fixup_status_header (response_with
        [⟨bytes "x-a", bytes "1"⟩, ⟨bytes ":status", bytes "200"⟩] (bytes "200"))).reshdrs
      = [⟨bytes ":status", bytes "200"⟩, ⟨bytes ":status", bytes "200"⟩,
          ⟨bytes "x-a", bytes "1"⟩] ∧
    status_count [⟨bytes "x-a", bytes "1"⟩, ⟨bytes ":status", bytes "200"⟩] = 1 ∧
    status_count (fixup_status_header (response_with
        [⟨bytes "x-a", bytes "1"⟩, ⟨bytes ":status", bytes "200"⟩] (bytes "200"))).reshdrs
      = 2 := by
  decide

/-! ## `:status` at index 0 of the submitted headers -/

theorem status_first_append (nva more : List nghttp2_nv) (h : status_first nva) :
    status_first (nva ++ more) := by
  unfold status_first at h ⊢
  cases nva with
  | nil => simp at h
  | cons a t => simpa using h

theorem status_first_push (r : request_rec) (nv : nghttp2_nv) (h : status_first r.reshdrs) :
    status_first (push_reshdr r nv).reshdrs :=
  status_first_append _ _ h

theorem status_first_fixup (r : request_rec) :
    status_first (fixup_status_header r).reshdrs := by
  unfold status_first fixup_status_header
  cases hr : r.reshdrs with
  | nil => simp [MRB_HTTP2_CREATE_NV_CS]
  | cons first rest =>
    cases hi : mrb_http2_get_nv_id (first :: rest) (bytes ":status") with
    | none => simp [MRB_HTTP2_CREATE_NV_CS]
    | some k =>
      have hname := mrb_http2_get_nv_id_name _ _ _ first hi
      have hlt := mrb_http2_get_nv_id_lt _ _ _ hi
      cases k with
      | zero =>
        simp [hr]
        simpa using hname
      | succ j =>
        simp only [List.length_cons, Nat.add_lt_add_iff_right] at hlt
        simp only [List.getD_cons_succ] at hname
        rw [List.getD_eq_getElem?_getD] at hname
        simp [List.getD_cons_succ, List.getElem?_append_left hlt, hname]

theorem status_first_set_reshdrs (r : request_rec) (key val : List Nat)
    (h : status_first r.reshdrs) : status_first (mrb_http2_set_reshdrs r key val).1.reshdrs := by
  unfold mrb_http2_set_reshdrs
  cases hi : mrb_http2_get_nv_id r.reshdrs key with
  | none => exact status_first_push r _ h
  | some i =>
    dsimp only
    have hname := mrb_http2_get_nv_id_name _ _ _ ⟨key, val⟩ hi
    unfold status_first at h ⊢
    cases hr : r.reshdrs with
    | nil => rw [hr] at h; simp at h
    | cons a t =>
      rw [hr] at h hname
      cases i with
      | zero =>
        simp only [List.getD_cons_zero] at hname
        simp only [List.set_cons_zero, List.head?_cons, Option.map_some', Option.some.injEq]
          at h ⊢
        rw [← hname]; exact h
      | succ j => simpa using h

theorem status_first_apply_setter (calls : List (List Nat × List Nat)) (r : request_rec)
    (h : status_first r.reshdrs) : status_first (apply_setter r calls).reshdrs := by
  unfold apply_setter
  induction calls generalizing r with
  | nil => exact h
  | cons c rest ih =>
    rw [List.foldl_cons]
    exact ih _ (status_first_set_reshdrs r c.1 c.2 h)

theorem status_first_run_fixups (env : Env) (hf : fixups_use_setter env)
    (cfg : mrb_http2_config_t) (b : World) (h : status_first b.r.reshdrs) :
    status_first (run_fixups env cfg b).r.reshdrs := by
  unfold run_fixups callback_ruby_block
  dsimp only
  split_ifs with h1 h2 h3 h4
  · exact h
  · cases h4
  · obtain ⟨calls, hc⟩ := hf ((b.set_phase phase_t.MRB_HTTP2_SERVER_FIXUPS).emit
      (Event.yield cb_id.fixups_cb)).view
    show status_first (env.block cb_id.fixups_cb _).r.reshdrs
    rw [hc]
    exact status_first_apply_setter calls _ h
  · exact h
  · exact h

theorem emits_only_send_status {a b : World} (rcb : read_callback) (env : Env)
    (cfg : mrb_http2_config_t) (nva : List nghttp2_nv)
    (h : emits_only Event.status_first a b) (hs : status_first nva) :
    emits_only Event.status_first a (send_response_with rcb env cfg b nva).1 := by
  unfold send_response_with
  dsimp only
  have h1 : emits_only Event.status_first a
      (b.emit (Event.nghttp2_submit_response b.stream.stream_id nva rcb
        env.submit_response_rv)) := emits_only_emit _ h hs
  split_ifs
  · exact emits_only_emit _ (emits_only_set_r _ h1) trivial
  · exact emits_only_emit _ (emits_only_set_r _
      (emits_only_callback env _ _ (emits_only_set_phase _ h1) trivial)) trivial
  · exact emits_only_emit _ (emits_only_set_r _ h1) trivial

/-- The fixups hook followed by the submission, as every reply function ends:
the submitted headers start with `:status` when the headers before the hook
do. -/
theorem fixups_send_status {a b : World} (rcb : read_callback) (env : Env)
    (hf : fixups_use_setter env) (cfg : mrb_http2_config_t)
    (h : emits_only Event.status_first a b) (hs : status_first b.r.reshdrs) :
    emits_only Event.status_first a
      (send_response_with rcb env cfg (run_fixups env cfg b)
        (run_fixups env cfg b).r.reshdrs).1 :=
  emits_only_send_status rcb env cfg _ (emits_only_run_fixups env cfg h trivial)
    (status_first_run_fixups env hf cfg b hs)

theorem error_reply_status (env : Env) (hf : fixups_use_setter env) (cfg : mrb_http2_config_t)
    {a b : World} (h : emits_only Event.status_first a b) :
    emits_only Event.status_first a (error_reply env cfg b).1 := by
  have h0 : emits_only Event.status_first a (b.emit (Event.error_reply b.r.status)) :=
    emits_only_emit _ h trivial
  unfold error_reply send_response
  dsimp only
  split_ifs with h1 h2
  · exact emits_only_pipe_failed env (emits_only_emit _ (emits_only_set_r _ h0) trivial)
      (fun _ _ => trivial)
  · refine emits_only_set_r _ (emits_only_emit _ (fixups_send_status _ env hf cfg
      (emits_only_set_r _ (emits_only_set_stream _ (emits_only_emit _ (emits_only_emit _
        (emits_only_set_pipe _ (emits_only_emit _ (emits_only_set_r _ h0) trivial)) trivial)
          trivial))) ?_) trivial)
    exact status_first_push _ _ (status_first_push _ _ (status_first_push _ _
      (status_first_push _ _ (status_first_fixup _))))
  · refine emits_only_set_r _ (fixups_send_status _ env hf cfg
      (emits_only_set_r _ (emits_only_set_stream _ (emits_only_emit _ (emits_only_emit _
        (emits_only_set_pipe _ (emits_only_emit _ (emits_only_set_r _ h0) trivial)) trivial)
          trivial))) ?_)
    exact status_first_push _ _ (status_first_push _ _ (status_first_push _ _
      (status_first_push _ _ (status_first_fixup _))))

theorem reject_with_status (env : Env) (hf : fixups_use_setter env) (cfg : mrb_http2_config_t)
    (status : Nat) {a b : World} (h : emits_only Event.status_first a b) :
    emits_only Event.status_first a (reject_with env cfg b status).1 := by
  unfold reject_with
  rw [reply_result_fst]
  exact error_reply_status env hf cfg (emits_only_set_r _ h)

theorem upstream_reply_status (env : Env) (hf : fixups_use_setter env)
    (cfg : mrb_http2_config_t) {a b : World} (h : emits_only Event.status_first a b)
    (hs : status_first b.r.reshdrs) :
    emits_only Event.status_first a (upstream_reply env cfg b).1 := by
  unfold upstream_reply send_upstream_response
  dsimp only
  split_ifs with h2
  · exact emits_only_emit _ (fixups_send_status _ env hf cfg (emits_only_emit _ h trivial) hs)
      trivial
  · exact fixups_send_status _ env hf cfg (emits_only_emit _ h trivial) hs

theorem finish_pipe_reply_status (env : Env) (hf : fixups_use_setter env)
    (cfg : mrb_http2_config_t) {a b : World} (h : emits_only Event.status_first a b)
    (hs : status_first b.r.reshdrs) :
    emits_only Event.status_first a (finish_pipe_reply env cfg b).1 := by
  unfold finish_pipe_reply send_response
  dsimp only
  split_ifs with h1 h2 h3
  · exact emits_only_set_r _ (emits_only_emit _ (fixups_send_status _ env hf cfg
      (emits_only_set_r _ (emits_only_set_stream _ (emits_only_emit _ h trivial)))
      (status_first_push _ _ hs)) trivial)
  · exact emits_only_set_r _ (fixups_send_status _ env hf cfg
      (emits_only_set_r _ (emits_only_set_stream _ (emits_only_emit _ h trivial)))
      (status_first_push _ _ hs))
  · exact emits_only_set_r _ (emits_only_emit _ (fixups_send_status _ env hf cfg
      (emits_only_set_r _ (emits_only_set_stream _ (emits_only_emit _ (emits_only_emit _
        (emits_only_set_pipe _ h) trivial) trivial)))
      (status_first_push _ _ hs)) trivial)
  · exact emits_only_set_r _ (fixups_send_status _ env hf cfg
      (emits_only_set_r _ (emits_only_set_stream _ (emits_only_emit _ (emits_only_emit _
        (emits_only_set_pipe _ h) trivial) trivial)))
      (status_first_push _ _ hs))

theorem content_cb_reply_status (env : Env) (hf : fixups_use_setter env)
    (cfg : mrb_http2_config_t) {a b : World} (h : emits_only Event.status_first a b) :
    emits_only Event.status_first a (content_cb_reply env cfg b).1 := by
  have h0 : emits_only Event.status_first a
      ((b.emit (Event.call reply_fn.content_cb_reply)).emit (Event.pipe env.pipe_rv)) :=
    emits_only_emit _ (emits_only_emit _ h trivial) trivial
  unfold content_cb_reply
  dsimp only
  split_ifs with h1
  · exact emits_only_pipe_failed env h0 (fun _ _ => trivial)
  · exact finish_pipe_reply_status env hf cfg (emits_only_set_r _
      (emits_only_callback env _ _ (emits_only_set_phase _ (emits_only_set_r _
        (emits_only_set_pipe _ h0))) trivial))
      (status_first_push _ _ (status_first_push _ _ (status_first_fixup _)))
  · exact finish_pipe_reply_status env hf cfg (emits_only_set_r _ (emits_only_set_r _
        (emits_only_set_pipe _ h0)))
      (status_first_push _ _ (status_first_push _ _ (status_first_fixup _)))

theorem mruby_reply_status (env : Env) (hf : fixups_use_setter env)
    (cfg : mrb_http2_config_t) {a b : World} (h : emits_only Event.status_first a b) :
    emits_only Event.status_first a (mruby_reply env cfg b).1 := by
  have h0 : emits_only Event.status_first a
      ((b.emit (Event.call reply_fn.mruby_reply)).emit
        (Event.fopen (b.emit (Event.call reply_fn.mruby_reply)).r.filename
          (env.fopen_ok (b.emit (Event.call reply_fn.mruby_reply)).r.filename))) :=
    emits_only_emit _ (emits_only_emit _ h trivial) trivial
  unfold mruby_reply
  dsimp only
  split_ifs with h1 h2 h3
  · exact h0
  · exact emits_only_pipe_failed env (emits_only_emit _ h0 trivial) (fun _ _ => trivial)
  · exact finish_pipe_reply_status env hf cfg (emits_only_set_r _ (emits_only_set_view _
      (emits_only_emit _ (emits_only_set_r _ (emits_only_set_pipe _
        (emits_only_emit _ h0 trivial))) trivial)))
      (status_first_push _ _ (status_first_push _ _ (status_first_push _ _
        (status_first_fixup _))))
  · exact finish_pipe_reply_status env hf cfg (emits_only_set_r _ (emits_only_set_view _
      (emits_only_emit _ (emits_only_set_r _ (emits_only_set_pipe _
        (emits_only_emit _ h0 trivial))) trivial)))
      (status_first_push _ _ (status_first_push _ _ (status_first_push _ _
        (status_first_fixup _))))

theorem send_custom_response_status (env : Env) (hf : fixups_use_setter env)
    (cfg : mrb_http2_config_t) {a b : World} (h : emits_only Event.status_first a b) :
    emits_only Event.status_first a (mrb_http2_send_custom_response env cfg b).1 := by
  unfold mrb_http2_send_custom_response send_response
  dsimp only
  split_ifs with h1 h2 h3
  all_goals
    first
    | exact emits_only_emit _ (fixups_send_status _ env hf cfg
        (emits_only_set_r _ (emits_only_emit _ h trivial))
        (status_first_push _ _ (status_first_push _ _ (status_first_push _ _
          (status_first_push _ _ (status_first_fixup _)))))) trivial
    | exact fixups_send_status _ env hf cfg
        (emits_only_set_r _ (emits_only_emit _ h trivial))
        (status_first_push _ _ (status_first_push _ _ (status_first_push _ _
          (status_first_push _ _ (status_first_fixup _)))))

theorem send_200_response_status (env : Env) (hf : fixups_use_setter env)
    (cfg : mrb_http2_config_t) {a b : World} (h : emits_only Event.status_first a b) :
    emits_only Event.status_first a (mrb_http2_send_200_response env cfg b).1 := by
  have hs : ∀ x y z u : List Nat, status_first
      [MRB_HTTP2_CREATE_NV_CS ":status" (bytes "200"), MRB_HTTP2_CREATE_NV_CS "server" x,
        MRB_HTTP2_CREATE_NV_CS "date" y, MRB_HTTP2_CREATE_NV_CS "content-length" z,
        MRB_HTTP2_CREATE_NV_CS "last-modified" u] := fun _ _ _ _ => rfl
  unfold mrb_http2_send_200_response send_response
  dsimp only
  split_ifs with h2
  · exact emits_only_emit _ (emits_only_set_r _ (fixups_send_status _ env hf cfg
      (emits_only_set_r _ (emits_only_emit _ h trivial)) (hs _ _ _ _))) trivial
  · exact emits_only_set_r _ (fixups_send_status _ env hf cfg
      (emits_only_set_r _ (emits_only_emit _ h trivial)) (hs _ _ _ _))

theorem static_file_reply_status (env : Env) (hf : fixups_use_setter env)
    (cfg : mrb_http2_config_t) {a b : World} (h : emits_only Event.status_first a b) :
    emits_only Event.status_first a (static_file_reply env cfg b).1 := by
  have h0 : emits_only Event.status_first a
      (b.emit (Event.open b.r.filename (env.open_fd b.r.filename))) :=
    emits_only_emit _ h trivial
  unfold static_file_reply
  dsimp only
  split_ifs with h1
  · exact reject_with_status env hf cfg _ h0
  · split
    · exact reject_with_status env hf cfg _
        (emits_only_emit _ (emits_only_set_stream _ h0) trivial)
    · split_ifs
      · exact send_custom_response_status env hf cfg (emits_only_set_stream _
          (emits_only_set_r _ (emits_only_set_r _ (emits_only_emit _
            (emits_only_set_stream _ h0) trivial))))
      · exact send_200_response_status env hf cfg (emits_only_set_stream _
          (emits_only_set_r _ (emits_only_set_r _ (emits_only_emit _
            (emits_only_set_stream _ h0) trivial))))
      · exact send_custom_response_status env hf cfg (emits_only_set_stream _
          (emits_only_set_r _ (emits_only_emit _ (emits_only_set_stream _ h0) trivial)))
      · exact send_200_response_status env hf cfg (emits_only_set_stream _
          (emits_only_set_r _ (emits_only_emit _ (emits_only_set_stream _ h0) trivial)))

theorem http_request_done_status (env : Env) (cfg : mrb_http2_config_t) (w : World)
    (uh : List Nat) (req : evhttp_request) :
    status_first (http_request_done env cfg w uh (some req)).r.reshdrs := by
  unfold http_request_done
  dsimp only
  cases hres : translate_upstream_headers env cfg uh req.input_headers
      (fixup_status_header (set_status_record w.r req.response_code), false) with
  | none => exact status_first_fixup _
  | some res =>
    obtain ⟨_, _, ⟨t, ht⟩⟩ := translate_upstream_headers_front env cfg uh req.input_headers
      _ res hres
    have h1 : status_first res.1.reshdrs := by
      rw [← ht]
      exact status_first_append _ _ (status_first_fixup _)
    dsimp only [World.set_r, World.set_stream]
    split_ifs
    · exact status_first_push _ _ h1
    · exact h1

theorem read_upstream_response_status (env : Env) (cfg : mrb_http2_config_t) (b : World)
    (up : mrb_http2_upstream) (host : List Nat)
    (h0 : (read_upstream_response env cfg b up host).2 = 0) :
    status_first (read_upstream_response env cfg b up host).1.r.reshdrs := by
  have key : ∀ (W : World) (uh : List Nat),
      ¬ (http_request_done env cfg W uh env.upstream_response).stream.upstream_req = false →
      status_first (http_request_done env cfg W uh env.upstream_response).r.reshdrs := by
    intro W uh hc
    cases hr : env.upstream_response with
    | none =>
      rw [hr] at hc
      exact absurd rfl hc
    | some req => exact http_request_done_status env cfg _ _ req
  unfold read_upstream_response at h0 ⊢
  dsimp only at h0 ⊢
  split_ifs at h0 ⊢
  all_goals
    first
    | exact key _ _ (by assumption)
    | simp at h0

theorem dispatch_status (env : Env) (hf : fixups_use_setter env) (cfg : mrb_http2_config_t)
    {a b : World} (h : emits_only Event.status_first a b) :
    emits_only Event.status_first a (dispatch env cfg b).1 := by
  unfold dispatch
  cases hup : upstream_host cfg b.r with
  | some p =>
    obtain ⟨up, host⟩ := p
    have h1 : emits_only Event.status_first a (read_upstream_response env cfg b up host).1 :=
      emits_only_trans h (read_upstream_response_emits env cfg b up host trivial
        (fun _ _ _ => trivial))
    have s1 := read_upstream_response_status env cfg b up host
    dsimp only
    split_ifs with c1 c2
    · exact h1
    · exact upstream_reply_status env hf cfg h1 (s1 (by simpa using c1))
    · exact upstream_reply_status env hf cfg h1 (s1 (by simpa using c1))
  | none =>
    dsimp only
    split_ifs
    · rw [reply_result_fst]
      exact mruby_reply_status env hf cfg (emits_only_set_r _ h)
    · rw [reply_result_fst]
      exact content_cb_reply_status env hf cfg (emits_only_set_r _ h)
    · exact static_file_reply_status env hf cfg h

theorem process_request_status (env : Env) (hf : fixups_use_setter env)
    (cfg : mrb_http2_config_t) (w : World) :
    emits_only Event.status_first w (mrb_http2_process_request env cfg w).1 := by
  have h0 : emits_only Event.status_first w (read_request env cfg w) :=
    emits_only_same_trace _ (emits_only_refl _ w) (read_request_trace env cfg w)
  have h1 : ∀ path, emits_only Event.status_first w
      (storage_and_access env cfg (read_request env cfg w) path) := fun path =>
    emits_only_trans h0 (storage_and_access_emits env cfg _ path (fun _ => trivial)
      (fun _ => trivial))
  unfold mrb_http2_process_request
  dsimp only
  split
  · exact reject_with_status env hf cfg _ h0
  · split_ifs
    · exact reject_with_status env hf cfg _ h0
    · rw [reply_result_fst]
      exact error_reply_status env hf cfg (h1 _)
    · exact dispatch_status env hf cfg (h1 _)

/-- C22. When the fixups hook changes the response headers only through the
setter `mrb_http2_set_reshdrs`, whatever the other hooks and the script do,
every header list a run of the pipeline hands to `nghttp2_submit_response` has
an entry named `:status` at index 0. -/
theorem submitted_headers_status_first (env : Env) (cfg : mrb_http2_config_t) (w : World)
    (hf : fixups_use_setter env) :
    ∀ sid nva rcb rv,
      Event.nghttp2_submit_response sid nva rcb rv ∈ pipeline_events env cfg w →
      (nva.head?).map nghttp2_nv.name = some (bytes ":status") := by
  intro sid nva rcb rv hm
  obtain ⟨evs, ht, hq⟩ := process_request_status env hf cfg { w with trace := [] }
  unfold pipeline_events at hm
  rw [ht] at hm
  exact hq _ (by simpa using hm)

theorem header_setting_env_uses_setter : fixups_use_setter header_setting_env :=
  fun _ => ⟨sample_setter_calls, rfl⟩

/-- C22 witness: `/index.html` served while the fixups hook sets
`x-frame-options` and overwrites `:status` through the setter; the submitted
list starts with the overwritten `:status`. -/
theorem submitted_headers_status_first_witness :
    fixups_use_setter header_setting_env ∧
    Event.nghttp2_submit_response 1
      [⟨bytes ":status", bytes "203"⟩, ⟨bytes "server", bytes "mruby-http2"⟩,
        ⟨bytes "date", bytes "Thu, 01 Jan 1970 00:00:01 GMT"⟩,
        ⟨bytes "content-length", bytes "42"⟩,
        ⟨bytes "last-modified", bytes "Thu, 01 Jan 1970 00:00:01 GMT"⟩,
        ⟨bytes "x-frame-options", bytes "DENY"⟩]
      read_callback.file_read_callback 0
      ∈ pipeline_events header_setting_env sample_cfg
        (sample_world (some (bytes "/index.html" ++ [0]))) ∧
    (∀ sid nva rcb rv,
      Event.nghttp2_submit_response sid nva rcb rv
        ∈ pipeline_events header_setting_env sample_cfg
          (sample_world (some (bytes "/index.html" ++ [0]))) →
      (nva.head?).map nghttp2_nv.name = some (bytes ":status")) :=
  ⟨header_setting_env_uses_setter, by decide,
    submitted_headers_status_first header_setting_env sample_cfg
      (sample_world (some (bytes "/index.html" ++ [0]))) header_setting_env_uses_setter⟩

/-! ## `lookup_token` and `server_on_header_callback` -/

theorem callback_of_token (cfg : mrb_http2_config_t) (max : Nat) (s : http2_stream_data)
    (name value tail : List Nat) :
    (lookup_token name = NGHTTP2_TOKEN__PATH →
      server_on_header_callback cfg max s name value tail = store_path cfg s value tail) ∧
    (lookup_token name = NGHTTP2_TOKEN__METHOD →
      server_on_header_callback cfg max s name value tail
        = (store_field 16 value).map (fun m => { s with method := m })) ∧
    (lookup_token name = NGHTTP2_TOKEN__SCHEME →
      server_on_header_callback cfg max s name value tail
        = (store_field 8 value).map (fun c => { s with scheme := c })) ∧
    (lookup_token name = NGHTTP2_TOKEN__AUTHORITY →
      server_on_header_callback cfg max s name value tail
        = (store_field 1024 value).map (fun a => { s with authority := a })) ∧
    (lookup_token name = -1 →
      server_on_header_callback cfg max s name value tail
        = some { s with nva := mrb_http2_add_nv max s.nva ⟨name, value⟩ }) := by
  unfold server_on_header_callback
  dsimp only
  refine ⟨?_, ?_, ?_, ?_, ?_⟩ <;> intro h <;> rw [h] <;>
    simp [NGHTTP2_TOKEN__AUTHORITY, NGHTTP2_TOKEN__METHOD, NGHTTP2_TOKEN__SCHEME,
      NGHTTP2_TOKEN__PATH]

theorem percent_decode_loop_returns (value : List Nat) (valuelen : Nat)
    (hlen : valuelen ≤ value.length) (fuel i : Nat) (res : List Nat)
    (hi : i ≤ valuelen) (hf : valuelen - 2 - i ≤ fuel) :
    ∃ i' res', percent_decode_loop value valuelen fuel i res = some (i', res') ∧
      i' ≤ valuelen ∧ res <+: res' := by
  induction fuel generalizing i res with
  | zero =>
    have hn : ¬ i < valuelen - 2 := by omega
    exact ⟨i, res, by simp [percent_decode_loop, hn], hi, List.prefix_refl _⟩
  | succ f ih =>
    by_cases hlt : i < valuelen - 2
    · have h0 : i < value.length := by omega
      have h1 : i + 1 < value.length := by omega
      have h2 : i + 2 < value.length := by omega
      rw [percent_decode_loop, if_pos hlt, List.getElem?_eq_getElem h0,
        List.getElem?_eq_getElem h1, List.getElem?_eq_getElem h2]
      dsimp only
      split_ifs
      · obtain ⟨i', res', e, hle, hp⟩ := ih (i + 1) (res ++ [value[i]]) (by omega) (by omega)
        exact ⟨i', res', e, hle, (List.prefix_append _ _).trans hp⟩
      · obtain ⟨i', res', e, hle, hp⟩ := ih (i + 3)
          (res ++ [((hex_to_uint value[i + 1] <<< 4) + hex_to_uint value[i + 2]) % 256])
          (by omega) (by omega)
        exact ⟨i', res', e, hle, (List.prefix_append _ _).trans hp⟩
    · exact ⟨i, res, by simp [percent_decode_loop, hlt], hi, List.prefix_refl _⟩

/-- With two readable bytes after the input, `percent_decode` returns. -/
theorem percent_decode_returns (value : List Nat) (valuelen : Nat)
    (hlen : valuelen + 2 ≤ value.length) :
    ∃ r, percent_decode value valuelen = some r := by
  unfold percent_decode
  split_ifs with h3
  · obtain ⟨i, res, e, hle, _⟩ :=
      percent_decode_loop_returns value valuelen (by omega) valuelen 0 [] (by omega) (by omega)
    have h0 : i < value.length := by omega
    have h1 : i + 1 < value.length := by omega
    rw [e]
    simp [List.getElem?_eq_getElem h0, List.getElem?_eq_getElem h1]
  · exact ⟨_, rfl⟩
  · omega

/-- A first byte other than `%` is the first byte of the result. -/
theorem percent_decode_head (c : Nat) (m : List Nat) (valuelen : Nat) (hc : c ≠ 37)
    (h1 : 1 ≤ valuelen) (hlen : valuelen + 2 ≤ (c :: m).length) :
    ∃ q, percent_decode (c :: m) valuelen = some (c :: q) := by
  unfold percent_decode
  split_ifs with h3
  · obtain ⟨n, rfl⟩ : ∃ n, valuelen = n + 1 := ⟨valuelen - 1, by omega⟩
    have hl : (c :: m).length = m.length + 1 := rfl
    have hlt : 0 < n + 1 - 2 := by omega
    have e0 : (c :: m)[0]? = some c := by simp
    have g1 : 0 + 1 < (c :: m).length := by omega
    have g2 : 0 + 2 < (c :: m).length := by omega
    obtain ⟨i, res, e, hle, hp⟩ :=
      percent_decode_loop_returns (c :: m) (n + 1) (by omega) n (0 + 1) ([] ++ [c])
        (by omega) (by omega)
    have step : percent_decode_loop (c :: m) (n + 1) (n + 1) 0 [] = some (i, res) := by
      rw [percent_decode_loop, if_pos hlt, e0, List.getElem?_eq_getElem g1,
        List.getElem?_eq_getElem g2]
      dsimp only
      rw [if_pos (Or.inl hc)]
      exact e
    have h0 : i < (c :: m).length := by omega
    have h1 : i + 1 < (c :: m).length := by omega
    obtain ⟨t, rfl⟩ := hp
    rw [step]
    simp [List.getElem?_eq_getElem h0, List.getElem?_eq_getElem h1]
  · have e : (c :: m).take valuelen = c :: m.take (valuelen - 1) := by
      obtain ⟨n, rfl⟩ : ∃ n, valuelen = n + 1 := ⟨valuelen - 1, by omega⟩
      rfl
    exact ⟨_, by rw [e]; rfl⟩
  · omega

theorem question_index_no_question (value : List Nat) (h : 63 ∉ value) :
    question_index value = value.length := by
  unfold question_index
  rw [List.takeWhile_eq_self_iff.mpr]
  intro b hb
  have : b ≠ 63 := fun e => h (e ▸ hb)
  simpa using this

theorem question_index_first (pre rest : List Nat) (h : 63 ∉ pre) :
    question_index (pre ++ 63 :: rest) = pre.length := by
  unfold question_index
  induction pre with
  | nil => simp
  | cons a t ih =>
    have ha : a ≠ 63 := fun e => h (e ▸ List.mem_cons_self _ _)
    have ht : 63 ∉ t := fun m => h (List.mem_cons_of_mem _ m)
    simp [List.takeWhile_cons, ha, ih ht]

/-- C24. `server_on_header_callback` splits the value of `:path` at its first
literal `?` before decoding (two readable bytes follow the value in memory).
A value without `?` gives the request path `percent_decode(value, valuelen)`
and no query.  A value `pre ++ "?" ++ rest` with no `?` in `pre` gives the
request path `percent_decode(value, |pre|)` and the query
`percent_decode(value + |pre|, valuelen - |pre|)`, which begins with `?`.
Only a literal `?` counts: `pre` may hold `%3F`. -/
theorem path_split_at_first_question (cfg : mrb_http2_config_t) (max : Nat)
    (s : http2_stream_data) (value tail : List Nat) (ht : 2 ≤ tail.length) :
    (63 ∉ value →
      ∃ u s', percent_decode (value ++ tail) value.length = some u ∧
        server_on_header_callback cfg max s (bytes ":path") value tail = some s' ∧
        s'.request_path = some u ∧ s'.request_args = none) ∧
    (∀ pre rest, value = pre ++ 63 :: rest → 63 ∉ pre →
      ∃ p q s', percent_decode (pre ++ 63 :: (rest ++ tail)) pre.length = some p ∧
        percent_decode (63 :: (rest ++ tail)) (rest.length + 1) = some (63 :: q) ∧
        server_on_header_callback cfg max s (bytes ":path") value tail = some s' ∧
        s'.request_path = some p ∧ s'.request_args = some (63 :: q)) := by
  have hcb : server_on_header_callback cfg max s (bytes ":path") value tail
      = store_path cfg s value tail :=
    (callback_of_token cfg max s (bytes ":path") value tail).1 (by decide)
  obtain ⟨u, hu⟩ := percent_decode_returns (value ++ tail) value.length
    (by rw [List.length_append]; omega)
  constructor
  · intro hq
    have hj := question_index_no_question value hq
    have hst : store_path cfg s value tail
        = some { (if cfg.upstream = true then
              { s with percent_encode_uri := some (mrb_http2_strcopy value) } else s) with
            unparsed_uri := some u, request_args := none, request_path := some u } := by
      unfold store_path
      dsimp only
      rw [hu]
      dsimp only
      rw [if_pos hj]
    exact ⟨u, _, hu, hcb.trans hst, rfl, rfl⟩
  · intro pre rest hv hq
    have hj : question_index value = pre.length := by
      rw [hv]; exact question_index_first pre rest hq
    have hmem : value ++ tail = pre ++ 63 :: (rest ++ tail) := by
      rw [hv, List.append_assoc, List.cons_append]
    have hlen : value.length = pre.length + (rest.length + 1) := by
      rw [hv, List.length_append, List.length_cons]
    obtain ⟨p, hp⟩ := percent_decode_returns (pre ++ 63 :: (rest ++ tail)) pre.length
      (by simp only [List.length_append, List.length_cons]; omega)
    obtain ⟨q, hq2⟩ := percent_decode_head 63 (rest ++ tail) (rest.length + 1) (by decide)
      (by omega) (by simp only [List.length_append, List.length_cons]; omega)
    have hdrop : (value ++ tail).drop pre.length = 63 :: (rest ++ tail) := by
      rw [hmem]; exact List.drop_left' rfl
    have hne : ¬ pre.length = value.length := by omega
    have hsub : value.length - pre.length = rest.length + 1 := by omega
    have hst : store_path cfg s value tail
        = some { (if cfg.upstream = true then
              { s with percent_encode_uri := some (mrb_http2_strcopy value) } else s) with
            unparsed_uri := some u, request_path := some p,
            request_args := some (63 :: q) } := by
      unfold store_path
      dsimp only
      rw [hu]
      dsimp only
      rw [hj, if_neg hne, hdrop, hsub, hq2, hmem, hp]
    exact ⟨p, q, _, hp, hq2, hcb.trans hst, rfl, rfl⟩

/-- C24 at the value `/a%3Fb?x=%41` followed by two NUL bytes: the split is at
the literal `?` after `%3F`, and the query is `?x=A`.  The decoded path is
`/a?b?`, since `percent_decode` copies two bytes after the last escape. -/
theorem path_split_at_first_question_witness :
    2 ≤ ([0, 0] : List Nat).length ∧
    (∃ p q s', percent_decode (bytes "/a%3Fb" ++ 63 :: (bytes "x=%41" ++ [0, 0]))
          (bytes "/a%3Fb").length = some p ∧
        percent_decode (63 :: (bytes "x=%41" ++ [0, 0])) ((bytes "x=%41").length + 1)
          = some (63 :: q) ∧
        server_on_header_callback sample_cfg 128 (create_http2_stream_data 1) (bytes ":path")
          (bytes "/a%3Fb?x=%41") [0, 0] = some s' ∧
        s'.request_path = some p ∧ s'.request_args = some (63 :: q)) ∧
    (server_on_header_callback sample_cfg 128 (create_http2_stream_data 1) (bytes ":path")
        (bytes "/a%3Fb?x=%41") [0, 0]).map
      (fun s' => (s'.request_path.map cstr, s'.request_args.map cstr))
      = some (some (bytes "/a?b?"), some (bytes "?x=A")) :=
  ⟨by decide,
    (path_split_at_first_question sample_cfg 128 (create_http2_stream_data 1)
      (bytes "/a%3Fb?x=%41") [0, 0] (by decide)).2 (bytes "/a%3Fb") (bytes "x=%41")
      (by decide) (by decide),
    by decide⟩

/-! ## The read callbacks -/

theorem to_int64_of_range (x : Int) (h0 : -9223372036854775808 ≤ x)
    (h1 : x < 9223372036854775808) : to_int64 x = x := by
  unfold to_int64; omega

theorem upstream_read_callback_eq (s : http2_stream_data) (data_flags : Nat) (nread : Int)
    (h : s.upstream_req = true) :
    upstream_read_callback s data_flags nread = file_read_callback s data_flags nread := by
  unfold upstream_read_callback file_read_callback
  rw [if_neg (by simp [h])]

/-- One call after a successful read, when the subtraction stays in the range
of `int64_t`. -/
theorem file_read_callback_call (s : http2_stream_data) (nread : Int) (hn : 0 ≤ nread)
    (h0 : -9223372036854775808 ≤ s.readleft - nread)
    (h1 : s.readleft - nread < 9223372036854775808) :
    (file_read_callback s NGHTTP2_DATA_FLAG_NONE nread).stream.readleft = s.readleft - nread ∧
    ((file_read_callback s NGHTTP2_DATA_FLAG_NONE nread).eof = true ↔
      (file_read_callback s NGHTTP2_DATA_FLAG_NONE nread).stream.readleft = 0) ∧
    (file_read_callback s NGHTTP2_DATA_FLAG_NONE nread).bytes_returned = nread ∧
    ((file_read_callback s NGHTTP2_DATA_FLAG_NONE nread).eof = true →
      (file_read_callback s NGHTTP2_DATA_FLAG_NONE nread).rv = nread) ∧
    (nread = 0 → s.readleft ≠ 0 →
      (file_read_callback s NGHTTP2_DATA_FLAG_NONE nread).rv
        = NGHTTP2_ERR_TEMPORAL_CALLBACK_FAILURE ∧
      (file_read_callback s NGHTTP2_DATA_FLAG_NONE nread).eof = false) := by
  have e := to_int64_of_range _ h0 h1
  have hne : nread ≠ -1 := by omega
  have hF : ∀ (st : http2_stream_data) (rv : Int),
      (read_outcome.mk st NGHTTP2_DATA_FLAG_NONE rv).eof = false := fun _ _ => by
    simp [read_outcome.eof, NGHTTP2_DATA_FLAG_NONE]
  have hT : ∀ (st : http2_stream_data) (rv : Int),
      (read_outcome.mk st (NGHTTP2_DATA_FLAG_NONE ||| NGHTTP2_DATA_FLAG_EOF) rv).eof = true :=
    fun _ _ => by simp [read_outcome.eof, NGHTTP2_DATA_FLAG_NONE, NGHTTP2_DATA_FLAG_EOF]
  unfold file_read_callback
  rw [if_neg hne]
  dsimp only
  rw [e]
  by_cases hz : s.readleft - nread = 0
  · rw [if_pos (Or.inr hz), if_neg (by simp [hz])]
    refine ⟨rfl, ⟨fun _ => hz, fun _ => hT _ _⟩, ?_, fun _ => rfl, ?_⟩
    · simp [read_outcome.bytes_returned, hn]
    · intro a b; omega
  · by_cases hr : nread = 0
    · rw [if_pos (Or.inl hr), if_pos hz]
      refine ⟨rfl, ⟨fun x => ?_, fun x => absurd x hz⟩, ?_, fun x => ?_,
        fun _ _ => ⟨rfl, hF _ _⟩⟩
      · rw [hF] at x; cases x
      · simp [read_outcome.bytes_returned, NGHTTP2_ERR_TEMPORAL_CALLBACK_FAILURE, hr]
      · rw [hF] at x; cases x
    · rw [if_neg (by simp [hr, hz])]
      refine ⟨rfl, ⟨fun x => ?_, fun x => absurd x hz⟩, ?_,
        fun _ => rfl, fun a => absurd a hr⟩
      · rw [hF] at x; cases x
      · simp [read_outcome.bytes_returned, hn]

theorem read_calls_length (reads : List Int) (s : http2_stream_data) :
    (read_calls s reads).length = reads.length := by
  induction reads generalizing s with
  | nil => rfl
  | cons n rest ih => simp [read_calls, ih]

theorem read_calls_bytes (reads : List Int) (s : http2_stream_data)
    (hpos : ∀ n ∈ reads, 0 ≤ n) (h1 : s.readleft < 9223372036854775808)
    (h0 : -9223372036854775808 ≤ s.readleft - reads.sum) :
    (read_calls s reads).map read_outcome.bytes_returned = reads := by
  induction reads generalizing s with
  | nil => rfl
  | cons n rest ih =>
    have hn : 0 ≤ n := hpos n (List.mem_cons_self _ _)
    have hrest : ∀ m ∈ rest, 0 ≤ m := fun m hm => hpos m (List.mem_cons_of_mem _ hm)
    have hs : 0 ≤ rest.sum := List.sum_nonneg hrest
    rw [List.sum_cons] at h0
    obtain ⟨e, _, hb, _, _⟩ := file_read_callback_call s n hn (by omega) (by omega)
    simp only [read_calls, List.map_cons, hb]
    rw [ih _ hrest (by rw [e]; omega) (by rw [e]; omega)]

theorem read_calls_at (reads : List Int) (s : http2_stream_data)
    (hpos : ∀ n ∈ reads, 0 ≤ n) (h1 : s.readleft < 9223372036854775808)
    (h0 : -9223372036854775808 ≤ s.readleft - reads.sum) (k : Nat) (o : read_outcome)
    (ho : (read_calls s reads)[k]? = some o) :
    ∃ n, reads[k]? = some n ∧
      o.stream.readleft = s.readleft - (reads.take (k + 1)).sum ∧
      (o.eof = true ↔ o.stream.readleft = 0) ∧
      (o.eof = true → o.rv = n) ∧
      (n = 0 → o.stream.readleft ≠ 0 →
        o.rv = NGHTTP2_ERR_TEMPORAL_CALLBACK_FAILURE ∧ o.eof = false) := by
  induction reads generalizing s k with
  | nil => simp [read_calls] at ho
  | cons n rest ih =>
    have hn : 0 ≤ n := hpos n (List.mem_cons_self _ _)
    have hrest : ∀ m ∈ rest, 0 ≤ m := fun m hm => hpos m (List.mem_cons_of_mem _ hm)
    have hs : 0 ≤ rest.sum := List.sum_nonneg hrest
    rw [List.sum_cons] at h0
    obtain ⟨e, he, _, hv, hf⟩ := file_read_callback_call s n hn (by omega) (by omega)
    cases k with
    | zero =>
      simp only [read_calls, List.getElem?_cons_zero, Option.some.injEq] at ho
      subst ho
      refine ⟨n, by simp, ?_, he, hv, ?_⟩
      · simp [e]
      · intro a b
        exact hf a (by rw [e, a] at b; simpa using b)
    | succ k =>
      simp only [read_calls, List.getElem?_cons_succ] at ho
      obtain ⟨m, hm, e2, r⟩ := ih _ hrest (by rw [e]; omega) (by rw [e]; omega) k ho
      refine ⟨m, by simpa using hm, ?_, r⟩
      rw [e2, e, List.take_succ_cons, List.sum_cons]
      omega

/-- C25. For a remaining count `R = readleft` with `0 ≤ R` and successful reads
(whose byte counts are not negative and total at most `2^63`),
`file_read_callback` returns on every call; a call sets the end-of-data flag
if and only if the remaining count after its read is 0, and then the bytes
returned by the calls so far total `R`; with `R = 0` a first read of 0 bytes
signals end-of-data; a read of 0 bytes with a non-zero remaining count returns
`NGHTTP2_ERR_TEMPORAL_CALLBACK_FAILURE` and does not signal end-of-data. -/
theorem eof_iff_readleft_zero (s : http2_stream_data) (reads : List Int)
    (hR : 0 ≤ s.readleft) (hR1 : s.readleft < 9223372036854775808)
    (hpos : ∀ n ∈ reads, 0 ≤ n) (hsum : reads.sum ≤ 9223372036854775808) :
    (read_calls s reads).length = reads.length ∧
    (∀ k o, (read_calls s reads)[k]? = some o →
      (o.eof = true ↔ o.stream.readleft = 0) ∧
      (o.eof = true →
        (((read_calls s reads).take (k + 1)).map read_outcome.bytes_returned).sum
          = s.readleft) ∧
      (reads[k]? = some 0 → o.stream.readleft ≠ 0 →
        o.rv = NGHTTP2_ERR_TEMPORAL_CALLBACK_FAILURE ∧ o.eof = false)) ∧
    (s.readleft = 0 →
      (file_read_callback s NGHTTP2_DATA_FLAG_NONE 0).eof = true ∧
      (file_read_callback s NGHTTP2_DATA_FLAG_NONE 0).rv = 0) := by
  have hb := read_calls_bytes reads s hpos hR1 (by omega)
  refine ⟨read_calls_length reads s, ?_, ?_⟩
  · intro k o ho
    obtain ⟨n, hn, e, he, _, hf⟩ := read_calls_at reads s hpos hR1 (by omega) k o ho
    refine ⟨he, ?_, ?_⟩
    · intro h
      have hz := he.mp h
      rw [List.map_take, hb]
      omega
    · intro h0 hne
      rw [hn] at h0
      exact hf (Option.some.inj h0) hne
  · intro hz
    obtain ⟨e, he, _, hv, _⟩ := file_read_callback_call s 0 (le_refl 0) (by omega) (by omega)
    have h := he.mpr (by rw [e, hz]; rfl)
    exact ⟨h, hv h⟩

/-- C25 on a body of 42 bytes read as 40 and 2 bytes: end-of-data comes with
the second call. -/
theorem eof_iff_readleft_zero_witness :
    ((0 : Int) ≤ ({ (create_http2_stream_data 1) with readleft := 42 }).readleft ∧
      ({ (create_http2_stream_data 1) with readleft := 42 }).readleft < 9223372036854775808 ∧
      (∀ n ∈ ([40, 2] : List Int), 0 ≤ n) ∧
      ([40, 2] : List Int).sum ≤ 9223372036854775808) ∧
    ((read_calls { (create_http2_stream_data 1) with readleft := 42 } [40, 2]).length
        = ([40, 2] : List Int).length ∧
      (∀ k o,
        (read_calls { (create_http2_stream_data 1) with readleft := 42 } [40, 2])[k]? = some o →
        (o.eof = true ↔ o.stream.readleft = 0) ∧
        (o.eof = true →
          (((read_calls { (create_http2_stream_data 1) with readleft := 42 } [40, 2]).take
            (k + 1)).map read_outcome.bytes_returned).sum
            = ({ (create_http2_stream_data 1) with readleft := 42 }).readleft) ∧
        (([40, 2] : List Int)[k]? = some 0 → o.stream.readleft ≠ 0 →
          o.rv = NGHTTP2_ERR_TEMPORAL_CALLBACK_FAILURE ∧ o.eof = false)) ∧
      (({ (create_http2_stream_data 1) with readleft := 42 }).readleft = 0 →
        (file_read_callback { (create_http2_stream_data 1) with readleft := 42 }
          NGHTTP2_DATA_FLAG_NONE 0).eof = true ∧
        (file_read_callback { (create_http2_stream_data 1) with readleft := 42 }
          NGHTTP2_DATA_FLAG_NONE 0).rv = 0)) ∧
    (read_calls { (create_http2_stream_data 1) with readleft := 42 } [40, 2]).map
        (fun o => (o.rv, o.eof, o.stream.readleft))
      = [(40, false, 2), (2, true, 0)] ∧
    (read_calls { (create_http2_stream_data 1) with readleft := 42 } [40, 0]).map
        (fun o => (o.rv, o.eof, o.stream.readleft))
      = [(40, false, 2), (NGHTTP2_ERR_TEMPORAL_CALLBACK_FAILURE, false, 2)] :=
  ⟨⟨by decide, by decide, by decide, by decide⟩,
    eof_iff_readleft_zero { (create_http2_stream_data 1) with readleft := 42 } [40, 2]
      (by decide) (by decide) (by decide) (by decide),
    by decide, by decide⟩

/-! ## The bounds of the `method`, `scheme` and `authority` fields -/

theorem field_writes_in_bounds_iff (cap valuelen : Nat) :
    (∀ i ∈ field_writes valuelen, i < cap) ↔ valuelen < cap := by
  unfold field_writes
  constructor
  · intro h
    exact h valuelen (by simp)
  · intro h i hi
    simp only [List.mem_append, List.mem_range, List.mem_singleton] at hi
    omega

/-- A field store writes inside the field exactly when the value is shorter
than the field. -/
theorem store_field_eq_none_iff (cap : Nat) (value : List Nat) :
    store_field cap value = none ↔ cap ≤ value.length := by
  unfold store_field
  have h := field_writes_in_bounds_iff cap value.length
  by_cases hc : value.length < cap
  · rw [if_pos (by simpa using h.mpr hc)]
    simp
    omega
  · rw [if_neg (by
      intro hall
      exact hc (h.mp (by simpa using hall)))]
    simp
    omega

/-- C26. The code at a `:method` value of 16 bytes, a `:scheme` value of 8
bytes and an `:authority` value of 1024 bytes: the terminating NUL is written
at index 16 of the 16-byte field `method`, at index 8 of the 8-byte field
`scheme` and at index 1024 of the 1024-byte field `authority`, so the store
leaves its field. -/
theorem pseudo_header_value_overflows :
    16 ∈ field_writes (bytes "BASELINE-CONTROL").length ∧
    server_on_header_callback sample_cfg 128 (create_http2_stream_data 1) (bytes ":method")
      (bytes "BASELINE-CONTROL") [0] = none ∧
    8 ∈ field_writes (bytes "coap+tcp").length ∧
    server_on_header_callback sample_cfg 128 (create_http2_stream_data 1) (bytes ":scheme")
      (bytes "coap+tcp") [0] = none ∧
    1024 ∈ field_writes (List.replicate 1024 97).length ∧
    server_on_header_callback sample_cfg 128 (create_http2_stream_data 1) (bytes ":authority")
      (List.replicate 1024 97) [0] = none := by
  have hm := (callback_of_token sample_cfg 128 (create_http2_stream_data 1) (bytes ":method")
    (bytes "BASELINE-CONTROL") [0]).2.1 (by decide)
  have hs := (callback_of_token sample_cfg 128 (create_http2_stream_data 1) (bytes ":scheme")
    (bytes "coap+tcp") [0]).2.2.1 (by decide)
  have ha := (callback_of_token sample_cfg 128 (create_http2_stream_data 1)
    (bytes ":authority") (List.replicate 1024 97) [0]).2.2.2.1 (by decide)
  have e16 : store_field 16 (bytes "BASELINE-CONTROL") = none :=
    (store_field_eq_none_iff _ _).mpr (by decide)
  have e8 : store_field 8 (bytes "coap+tcp") = none :=
    (store_field_eq_none_iff _ _).mpr (by decide)
  have e1024 : store_field 1024 (List.replicate 1024 97) = none :=
    (store_field_eq_none_iff _ _).mpr (by rw [List.length_replicate])
  refine ⟨by decide, ?_, by decide, ?_, ?_, ?_⟩
  · rw [hm, e16]; rfl
  · rw [hs, e8]; rfl
  · rw [List.length_replicate]; simp [field_writes]
  · rw [ha, e1024]; rfl

/-! ## The block of the rewritten `Location` -/

/-- C27. The code at `Location: http://origin:8080/x` from the upstream
`origin:8080`.  With the front scheme `https` and the authority `example.com`
the block has 21 bytes and the rewritten value `https://example.com/x` has 21
characters, so its terminating NUL is at index 21.  With the authority `f.io`,
shorter than `origin:8080`, the block has 14 bytes and the copy of the 20
characters of the upstream value and its NUL writes up to index 20. -/
theorem location_block_too_small :
    location_buf_size (front_world (bytes "https") (bytes "example.com")).r
      (bytes "origin:8080") (bytes "http://origin:8080/x") = 21 ∧
    location_substitutions redirecting_env (front_world (bytes "https") (bytes "example.com")).r
      (bytes "origin:8080") (bytes "http://origin:8080/x") = bytes "https://example.com/x" ∧
    21 ∈ location_result_writes redirecting_env
      (front_world (bytes "https") (bytes "example.com")).r
      (bytes "origin:8080") (bytes "http://origin:8080/x") ∧
    location_in_bounds redirecting_env (front_world (bytes "https") (bytes "example.com")).r
      (bytes "origin:8080") (bytes "http://origin:8080/x") = false ∧
    location_buf_size (front_world (bytes "http") (bytes "f.io")).r
      (bytes "origin:8080") (bytes "http://origin:8080/x") = 14 ∧
    20 ∈ location_copy_writes (bytes "http://origin:8080/x") ∧
    location_in_bounds redirecting_env (front_world (bytes "http") (bytes "f.io")).r
      (bytes "origin:8080") (bytes "http://origin:8080/x") = false := by
  refine ⟨by decide, by decide, by decide, by decide, by decide, by decide, by decide⟩

/-! ## The buffers of the request-header loop -/

/-- The truncated copy and its NUL stay inside the 4096 bytes exactly for a
source shorter than 4096 bytes. -/
theorem truncated_copy_in_bounds_iff (n : Nat) :
    (∀ i ∈ truncated_copy_writes n, i < 4096) ↔ n < 4096 := by
  unfold truncated_copy_writes
  dsimp only
  constructor
  · intro h
    by_cases hn : n > 4096
    · rw [if_pos hn] at h
      exact absurd (h 4096 (by simp)) (by omega)
    · rw [if_neg hn] at h
      exact h n (by simp)
  · intro h i hi
    rw [if_neg (by omega)] at hi
    simp only [List.mem_append, List.mem_range, List.mem_singleton] at hi
    omega

/-- The cookie buffer held by the loop has `cookiebuflen` bytes. -/
theorem cookie_buffer_length (reqhdr : List nghttp2_nv) (acc : List evkeyval × Option (List Nat))
    (n : Nat) (hn : (match acc.2 with | none => 0 | some b => b.length) = n) :
    (match (reqhdr.foldl forward_request_header acc).2 with
      | none => 0
      | some b => b.length)
    = reqhdr.foldl (fun len nv =>
        if memcmp (bytes "cookie") (nv.name ++ [0]) 6 = 0 then len + (nv.value.length + 2)
        else len) n := by
  induction reqhdr generalizing acc n with
  | nil => simpa using hn
  | cons nv rest ih =>
    rw [List.foldl_cons, List.foldl_cons]
    apply ih
    unfold forward_request_header
    split_ifs with hc
    · rcases acc with ⟨a, _ | b⟩
      · simp at hn
        simp [← hn, bytes]
      · simp at hn
        simp [← hn, bytes]
    · exact hn

/-- C28. The code at a request header whose name has 4096 bytes, at one whose
value has 5000 bytes, and at the request header `cookie: a=1`: the terminating
NUL of the key and of the value is written at index 4096 of the 4096-byte
buffer, and the terminating NUL of the cookie buffer at index 5 of the 5 bytes
allocated for it. -/
theorem forwarded_terminator_outside :
    4096 ∈ truncated_copy_writes (List.replicate 4096 120).length ∧
    4096 ∈ truncated_copy_writes (List.replicate 5000 120).length ∧
    cookiebuflen [⟨bytes "cookie", bytes "a=1"⟩] = 5 ∧
    cookie_terminator_index [⟨bytes "cookie", bytes "a=1"⟩] = some 5 ∧
    (forwarded_headers [⟨bytes "cookie", bytes "a=1"⟩]).map (fun h => h.value.length) = [5] := by
  refine ⟨?_, ?_, by decide, by decide, by decide⟩
  · rw [List.length_replicate]
    simp [truncated_copy_writes]
  · rw [List.length_replicate]
    simp [truncated_copy_writes]

/-! ## The indices of the table `pid` -/

theorem fork_loop_master (fork_rv : Nat → Int) (hf : ∀ i, 0 < fork_rv i) (n : Nat) :
    ∀ (pid : List Int) (i : Nat), i + n ≤ pid.length →
      ∃ t, fork_loop fork_rv pid i n = some (t, i + n) ∧ t.length = pid.length := by
  induction n with
  | zero =>
    intro pid i _
    exact ⟨pid, rfl, rfl⟩
  | succ n ih =>
    intro pid i h
    have hi : i < pid.length := by omega
    obtain ⟨t, e, hl⟩ := ih (pid.set i (fork_rv i)) (i + 1)
      (by rw [List.length_set]; omega)
    refine ⟨t, ?_, by rw [hl, List.length_set]⟩
    rw [fork_loop, pid_write, if_pos hi]
    dsimp only
    rw [if_pos (hf i), e]
    congr 2
    omega

/-- With fewer workers than slots the start of the master stays inside the
table. -/
theorem start_workers_inside (worker : Nat) (fork_rv : Nat → Int) (pid : List Int)
    (hf : ∀ i, 0 < fork_rv i) (h : worker < pid.length) :
    ∃ t, start_workers worker fork_rv pid = some (t, worker) ∧ t[worker]? = some (-1) := by
  obtain ⟨t, e, hl⟩ := fork_loop_master fork_rv hf worker pid 0 (by omega)
  rw [Nat.zero_add] at e
  have hw : worker < t.length := by omega
  refine ⟨t.set worker (-1), ?_, by simp [hw]⟩
  unfold start_workers
  rw [e]
  dsimp only
  rw [if_pos rfl, pid_write, if_pos hw]
  rfl

/-- With as many workers as slots the sentinel is written outside the
table. -/
theorem start_workers_outside (worker : Nat) (fork_rv : Nat → Int) (pid : List Int)
    (hf : ∀ i, 0 < fork_rv i) (h : pid.length = worker) :
    start_workers worker fork_rv pid = none := by
  obtain ⟨t, e, hl⟩ := fork_loop_master fork_rv hf worker pid 0 (by omega)
  rw [Nat.zero_add] at e
  unfold start_workers
  rw [e]
  dsimp only
  rw [if_pos rfl, pid_write, if_neg (by omega)]
  rfl

/-- C29. The code at the worker count 64 on a build whose
`MRB_HTTP2_WORKER_MAX` is 64: the configuration accepts the count, the fork
loop fills the slots 0 to 63 and ends with `i = 64`, and the sentinel write
`pid[64] = -1` is outside the 64-slot table; with the 64 slots filled the scan
of `killall_worker` leaves the table, and so does the read `pid[i]` after a
respawn lookup that finds no slot.  With 63 workers the start stays inside the
table. -/
theorem pid_sentinel_outside_table :
    (mrb_http2_config_get_worker linux_platform (mrb_value.fixnum 64)).toOption = some 64 ∧
    sample_pid_table.length = 64 ∧
    fork_loop sample_fork_rv sample_pid_table 0 64 = some (full_pid_table, 64) ∧
    pid_write full_pid_table 64 (-1) = none ∧
    start_workers 64 sample_fork_rv sample_pid_table = none ∧
    killall_worker full_pid_table = none ∧
    respawn 64 (-1) 2000 full_pid_table = none ∧
    (start_workers 63 sample_fork_rv sample_pid_table).map (fun t => (t.1[63]?, t.2))
      = some (some (-1), 63) := by
  refine ⟨rfl, rfl, by decide, by decide, by decide, by decide, by decide, by decide⟩

/-! ## The body of a hook or script response -/

/-- C30. The code at a content hook that writes `hello` and sets the status
404, and at a script that writes `hello` and raises (status 503): the
`content-length` header is the length of the error message, the pipe holds
`hello` followed by the message, and the body, the first `readleft` bytes of
the pipe, starts with `hello` and is not the message; a read of all 14 bytes of
the pipe and the read of 0 bytes after it give `file_read_callback` no
end-of-data.  With the status 200 the body is `hello` and `content-length` is
5. -/
theorem error_body_starts_with_hook_output :
    (content_cb_reply (writing_env 404 false) sample_cfg content_hook_world).2 = 0 ∧
    (content_cb_reply (writing_env 404 false) sample_cfg content_hook_world).1.r.status = 404 ∧
    (content_cb_reply (writing_env 404 false) sample_cfg content_hook_world).1.pipe
      = bytes "helloNot Found" ∧
    submitted_values "content-length"
      (content_cb_reply (writing_env 404 false) sample_cfg content_hook_world).1.trace
      = [bytes "9"] ∧
    response_body (content_cb_reply (writing_env 404 false) sample_cfg content_hook_world).1
      = bytes "helloNot " ∧
    (read_calls (content_cb_reply (writing_env 404 false) sample_cfg content_hook_world).1.stream
        [14, 0]).map (fun o => (o.rv, o.eof))
      = [(14, false), (NGHTTP2_ERR_TEMPORAL_CALLBACK_FAILURE, false)] ∧
    (mruby_reply (writing_env 200 true) sample_cfg (sample_world none)).1.r.status = 503 ∧
    submitted_values "content-length"
      (mruby_reply (writing_env 200 true) sample_cfg (sample_world none)).1.trace
      = [bytes "19"] ∧
    response_body (mruby_reply (writing_env 200 true) sample_cfg (sample_world none)).1
      = bytes "helloService Unavai" ∧
    submitted_values "content-length"
      (content_cb_reply (writing_env 200 false) sample_cfg content_hook_world).1.trace
      = [bytes "5"] ∧
    response_body (content_cb_reply (writing_env 200 false) sample_cfg content_hook_world).1
      = bytes "hello" := by
  refine ⟨by decide, by decide, by decide, by decide, by decide, by decide, by decide,
    by decide, by decide, by decide, by decide⟩

end MrubyHttp2
